import Mathlib

/-!
# Formal model of the RTOS priority round-robin scheduler

A shallow embedding of `src/rtos-kernel/scheduler.c` (with types from
`src/rtos-kernel/rtos.h`).  Pointers (`tcb_t*`) are modelled as indices into
the task pool (`Option Nat`, `none` = `NULL`); the intrusive circular
doubly-linked ready queues are modelled by the `next`/`prev` fields of each
task control block together with one head pointer per priority level.
All `uint32_t` arithmetic is taken modulo `2^32`.  Writes through a `NULL`
pointer (undefined behaviour in C) are modelled as no-ops; no claim below
relies on the behaviour of such a state.  Each C function is decomposed
into small Lean definitions, one per statement block, composed in the
C statement order.
-/

namespace RTOS

/-- `MAX_TASKS` from rtos.h. -/
def MAX_TASKS : Nat := 8

/-- `STACK_SIZE` from rtos.h. -/
def STACK_SIZE : Nat := 1024

/-- `TIME_SLICE_MS` from rtos.h. -/
def TIME_SLICE_MS : Nat := 10

/-- `PRIORITY_LEVELS` from rtos.h. -/
def PRIORITY_LEVELS : Nat := 4

/-- Modulus of `uint32_t` arithmetic. -/
def UINT32_MOD : Nat := 4294967296

/-- Modulus of `uint8_t` arithmetic. -/
def UINT8_MOD : Nat := 256

/-- `task_state_t` from rtos.h.  `ready` is the first constructor, matching
`TASK_READY = 0` (so a zero-initialised TCB is `ready`). -/
inductive TaskState where
  | ready
  | running
  | blocked
  | suspended
  | terminated
deriving DecidableEq, Repr, Inhabited

/-- `tcb_t` from rtos.h, keeping the fields the scheduler logic reads or
writes.  The name string, register file, stack base and entry-point fields
are never consulted by any scheduling decision and are omitted.
`next`/`prev` are pool indices (`none` = `NULL`). -/
structure TCB where
  task_id : Nat
  priority : Nat
  state : TaskState
  time_slice_remaining : Nat
  stack_size : Nat
  total_runtime : Nat
  last_run_time : Nat
  wake_time : Nat
  next : Option Nat
  prev : Option Nat
deriving DecidableEq, Repr, Inhabited

/-- `scheduler_stats_t` from rtos.h. -/
structure SchedulerStats where
  total_context_switches : Nat
  total_ticks : Nat
  idle_time : Nat
  tasks_created : Nat
  tasks_deleted : Nat
deriving DecidableEq, Repr, Inhabited

/-- The global scheduler state of scheduler.c (the file-scope statics):
`ready_queues`, `current_task`, `idle_task`, `next_task_id`,
`scheduler_running`, `system_tick_count`, `stats`, `task_pool`,
`task_pool_used`.  The pool is modelled as a total function from indices to
TCBs (indices `≥ MAX_TASKS` are never marked used by any operation). -/
structure SchedState where
  ready_queues : Nat → Option Nat
  current_task : Option Nat
  idle_task : Option Nat
  next_task_id : Nat
  scheduler_running : Bool
  system_tick_count : Nat
  stats : SchedulerStats
  task_pool : Nat → TCB
  task_pool_used : Nat → Bool

/-- Read a TCB from the pool (dereference a task pointer). -/
def SchedState.getTask (s : SchedState) (i : Nat) : TCB := s.task_pool i

/-- Write through a task pointer: update one slot of the pool. -/
def SchedState.updateTask (s : SchedState) (i : Nat) (f : TCB → TCB) : SchedState :=
  { s with task_pool := fun j => if j = i then f (s.task_pool j) else s.task_pool j }

/-- Read `ready_queues[p]`. -/
def SchedState.getQueue (s : SchedState) (p : Nat) : Option Nat := s.ready_queues p

/-- Write `ready_queues[p]`. -/
def SchedState.setQueue (s : SchedState) (p : Nat) (v : Option Nat) : SchedState :=
  { s with ready_queues := fun q => if q = p then v else s.ready_queues q }

/-! ## `add_task_to_ready_queue` (scheduler.c lines 191-213) -/

/-- Lines 192-194: force state `TASK_READY`. -/
def fixStateReady (s : SchedState) (task : Nat) : SchedState :=
  if (s.getTask task).state ≠ TaskState.ready
  then s.updateTask task (fun t => { t with state := TaskState.ready }) else s

/-- Line 210: `last->next = task` (no-op if `last` is `NULL`, where the C
would fault). -/
def linkLastNext (s : SchedState) (last : Option Nat) (task : Nat) : SchedState :=
  match last with
  | some l => s.updateTask l (fun t => { t with next := some task })
  | none => s

/-- Lines 204-212: insert `task` at the end of the non-empty circular list
whose head is `head`, with `last = head->prev` captured beforehand:
`task->next = head; task->prev = last; last->next = task;
head->prev = task`. -/
def enqueueNonempty (s : SchedState) (task head : Nat) (last : Option Nat) : SchedState :=
  (linkLastNext
     (s.updateTask task (fun t => { t with next := some head, prev := last }))
     last task).updateTask head (fun t => { t with prev := some task })

/-- Lines 196-212: append to the queue of the task's priority. -/
def enqueueAtPriority (s : SchedState) (task : Nat) : SchedState :=
  match s.getQueue ((s.getTask task).priority) with
  | none =>
      (s.setQueue ((s.getTask task).priority) (some task)).updateTask task
        (fun t => { t with next := some task, prev := some task })
  | some head => enqueueNonempty s task head ((s.getTask head).prev)

/-- `add_task_to_ready_queue`: force state `TASK_READY`, then append the
task at the tail of the circular list of its priority (just before the
head).  Note: it performs no unlinking of a task that is already a member
of some list. -/
def add_task_to_ready_queue (s : SchedState) (task : Nat) : SchedState :=
  enqueueAtPriority (fixStateReady s task) task

/-! ## `remove_task_from_ready_queue` (scheduler.c lines 218-241) -/

/-- `p->next = v` through an optional pointer (C faults on `NULL`). -/
def setNextOf (s : SchedState) (p v : Option Nat) : SchedState :=
  match p with
  | some i => s.updateTask i (fun t => { t with next := v })
  | none => s

/-- `p->prev = v` through an optional pointer (C faults on `NULL`). -/
def setPrevOf (s : SchedState) (p v : Option Nat) : SchedState :=
  match p with
  | some i => s.updateTask i (fun t => { t with prev := v })
  | none => s

/-- Lines 230-236: unlink from the circular list
(`task->prev->next = task->next; task->next->prev = task->prev`) and then
move the queue head off `task` if necessary.  `tnext`/`tprev` are the
values of `task->next`/`task->prev` at entry. -/
def removeUnlink (s : SchedState) (task priority : Nat) (tnext tprev : Option Nat) :
    SchedState :=
  if (setPrevOf (setNextOf s tprev tnext) tnext tprev).getQueue priority = some task then
    (setPrevOf (setNextOf s tprev tnext) tnext tprev).setQueue priority tnext
  else setPrevOf (setNextOf s tprev tnext) tnext tprev

/-- Lines 225-237: either the task is the only member (`task->next == task`:
empty the queue) or unlink it from the circle. -/
def removeDispatch (s : SchedState) (task priority : Nat) : SchedState :=
  if (s.getTask task).next = some task then
    s.setQueue priority none
  else
    removeUnlink s task priority ((s.getTask task).next) ((s.getTask task).prev)

/-- Lines 239-240: `task->next = NULL; task->prev = NULL`. -/
def clearLinks (s : SchedState) (task : Nat) : SchedState :=
  s.updateTask task (fun t => { t with next := none, prev := none })

/-- `remove_task_from_ready_queue`: no-op when the queue of the task's
priority is empty; otherwise unlink and clear the task's link fields. -/
def remove_task_from_ready_queue (s : SchedState) (task : Nat) : SchedState :=
  match s.getQueue ((s.getTask task).priority) with
  | none => s
  | some _ => clearLinks (removeDispatch s task ((s.getTask task).priority)) task

/-! ## `scheduler_get_next_task` (scheduler.c lines 248-263) -/

/-- Body of the `for` loop of `scheduler_get_next_task`, with `fuel` the
number of priority levels still to inspect (the loop runs `priority` from
`p` upward).  On the first non-empty queue, return its head and advance the
head pointer to the head's successor (round-robin rotation). -/
def sgntAux (s : SchedState) : Nat → Nat → Option Nat × SchedState
  | 0, _ => (s.idle_task, s)
  | fuel + 1, p =>
      match s.getQueue p with
      | some next_task => (some next_task, s.setQueue p ((s.getTask next_task).next))
      | none => sgntAux s fuel (p + 1)

/-- `scheduler_get_next_task`: scan priorities from 0 upward; fall back to
`idle_task` when every queue is empty. -/
def scheduler_get_next_task (s : SchedState) : Option Nat × SchedState :=
  sgntAux s PRIORITY_LEVELS 0

/-! ## `context_switch` (scheduler.c lines 271-313) -/

/-- Line 281: `stats.total_context_switches++`. -/
def bumpSwitchCount (s : SchedState) : SchedState :=
  { s with stats := { s.stats with
      total_context_switches := (s.stats.total_context_switches + 1) % UINT32_MOD } }

/-- Lines 289-292: `if (current->state == TASK_RUNNING) current->total_runtime++`. -/
def switchOutRuntime (s : SchedState) (c : Nat) : SchedState :=
  if (s.getTask c).state = TaskState.running then
    s.updateTask c (fun t => { t with total_runtime := (t.total_runtime + 1) % UINT32_MOD })
  else s

/-- Lines 294-298: if still `TASK_RUNNING`, set `TASK_READY` and re-enqueue. -/
def switchOutReenqueue (s : SchedState) (c : Nat) : SchedState :=
  if (s.getTask c).state = TaskState.running then
    add_task_to_ready_queue (s.updateTask c (fun t => { t with state := TaskState.ready })) c
  else s

/-- Lines 284-299: the `if (current != NULL)` block: record the last-run
tick, credit one runtime tick if running, re-enqueue if still running. -/
def switchOutFrom (s : SchedState) (current : Option Nat) : SchedState :=
  match current with
  | none => s
  | some c =>
      switchOutReenqueue
        (switchOutRuntime
          (s.updateTask c (fun t => { t with last_run_time := s.system_tick_count })) c) c

/-- Lines 302-312: the `if (next != NULL)` block: install as current, set
`TASK_RUNNING`, reset the time slice, remove from its ready queue. -/
def switchInTo (s : SchedState) (next : Option Nat) : SchedState :=
  match next with
  | none => s
  | some n =>
      remove_task_from_ready_queue
        (({ s with current_task := some n }).updateTask n
          (fun t => { t with state := TaskState.running,
                             time_slice_remaining := TIME_SLICE_MS })) n

/-- `context_switch`: no-op when `current == next`; otherwise bump the
switch counter, run the switch-out block, then the switch-in block. -/
def context_switch (s : SchedState) (current next : Option Nat) : SchedState :=
  if current = next then s
  else switchInTo (switchOutFrom (bumpSwitchCount s) current) next

/-! ## `get_highest_priority_ready_task` (scheduler.c lines 364-371) -/

/-- Body of the `for` loop of `get_highest_priority_ready_task`. -/
def ghprtAux (s : SchedState) : Nat → Nat → Option Nat
  | 0, _ => none
  | fuel + 1, p =>
      match s.getQueue p with
      | some h => some h
      | none => ghprtAux s fuel (p + 1)

/-- `get_highest_priority_ready_task`: head of the first non-empty ready
queue, `none` if all are empty. -/
def get_highest_priority_ready_task (s : SchedState) : Option Nat :=
  ghprtAux s PRIORITY_LEVELS 0

/-! ## `wake_sleeping_tasks` (scheduler.c lines 378-394) -/

/-- One iteration of the `wake_sleeping_tasks` loop for pool slot `i`:
a used, blocked task with nonzero `wake_time ≤ system_tick_count` gets its
wake time cleared, is set ready and is enqueued. -/
def wake_one (s : SchedState) (i : Nat) : SchedState :=
  if s.task_pool_used i then
    if (s.getTask i).state = TaskState.blocked ∧ (s.getTask i).wake_time > 0 ∧
       s.system_tick_count ≥ (s.getTask i).wake_time then
      add_task_to_ready_queue
        (s.updateTask i (fun t => { t with wake_time := 0, state := TaskState.ready })) i
    else s
  else s

/-- `wake_sleeping_tasks`: sweep every pool slot in order. -/
def wake_sleeping_tasks (s : SchedState) : SchedState :=
  (List.range MAX_TASKS).foldl wake_one s

/-! ## `scheduler_tick` (scheduler.c lines 321-359) -/

/-- Lines 322-323: `system_tick_count++; stats.total_ticks++`. -/
def tickAdvanceCounters (s : SchedState) : SchedState :=
  { s with system_tick_count := (s.system_tick_count + 1) % UINT32_MOD,
           stats := { s.stats with total_ticks := (s.stats.total_ticks + 1) % UINT32_MOD } }

/-- Lines 330-332: decrement the current task's slice if positive. -/
def tickDecrementSlice (s : SchedState) (c : Nat) : SchedState :=
  if (s.getTask c).time_slice_remaining > 0 then
    s.updateTask c (fun t => { t with time_slice_remaining := t.time_slice_remaining - 1 })
  else s

/-- Lines 338-352: `need_reschedule` = slice expired, or the head of the
first non-empty ready queue has numerically smaller priority than the
current task. -/
def needReschedule (s : SchedState) (c : Nat) : Bool :=
  decide ((s.getTask c).time_slice_remaining = 0) ||
    (match get_highest_priority_ready_task s with
     | some hr => decide ((s.getTask hr).priority < (s.getTask c).priority)
     | none => false)

/-- Lines 354-358: if a reschedule is needed, pick the next task and
context-switch to it. -/
def tickReschedule (s : SchedState) (c : Nat) : SchedState :=
  if needReschedule s c then
    context_switch (scheduler_get_next_task s).2 (some c) (scheduler_get_next_task s).1
  else s

/-- Lines 325-358: the part of the tick after the counter advance. -/
def tickBody (s : SchedState) : SchedState :=
  if s.scheduler_running = false then s
  else match s.current_task with
  | none => s
  | some c => tickReschedule (wake_sleeping_tasks (tickDecrementSlice s c)) c

/-- `scheduler_tick`: advance both tick counters, then (when running with a
current task) decrement the slice, sweep sleepers, and reschedule if
needed. -/
def scheduler_tick (s : SchedState) : SchedState :=
  tickBody (tickAdvanceCounters s)

/-! ## `task_yield`, `task_sleep` (scheduler.c lines 440-468) -/

/-- `task_yield`: force the current task's remaining slice to zero and run
one tick. -/
def task_yield (s : SchedState) : SchedState :=
  if s.scheduler_running = false then s
  else match s.current_task with
  | none => s
  | some c =>
      scheduler_tick (s.updateTask c (fun t => { t with time_slice_remaining := 0 }))

/-- Lines 462-463: set the current task's wake time to
`system_tick_count + ms` and its state to `TASK_BLOCKED`. -/
def sleepBlockCurrent (s : SchedState) (c ms : Nat) : SchedState :=
  s.updateTask c (fun t => { t with wake_time := (s.system_tick_count + ms) % UINT32_MOD,
                                    state := TaskState.blocked })

/-- Lines 466-467: pick the next task and context-switch to it. -/
def selectAndSwitch (s : SchedState) (c : Nat) : SchedState :=
  context_switch (scheduler_get_next_task s).2 (some c) (scheduler_get_next_task s).1

/-- `task_sleep`: block the current task until `system_tick_count + ms`,
then switch away from it. -/
def task_sleep (s : SchedState) (ms : Nat) : SchedState :=
  if s.scheduler_running = false then s
  else match s.current_task with
  | none => s
  | some c => selectAndSwitch (sleepBlockCurrent s c ms) c

/-! ## `task_create` (scheduler.c lines 106-184) -/

/-- The slot search of lines 126-132: first pool slot not marked used. -/
def findFreeSlot (s : SchedState) : Option Nat :=
  (List.range MAX_TASKS).find? (fun i => !(s.task_pool_used i))

/-- The TCB initialisation of lines 139-174 (fields the model keeps). -/
def initTCB (id priority stack_size last_run : Nat) : TCB :=
  { task_id := id, priority := priority, state := TaskState.ready,
    time_slice_remaining := TIME_SLICE_MS, stack_size := stack_size,
    total_runtime := 0, last_run_time := last_run, wake_time := 0,
    next := none, prev := none }

/-- Lines 141-143: mark the slot used and advance `next_task_id`. -/
def markUsed (s : SchedState) (slot : Nat) : SchedState :=
  { s with task_pool_used := fun j => if j = slot then true else s.task_pool_used j,
           next_task_id := (s.next_task_id + 1) % UINT32_MOD }

/-- Line 179: `stats.tasks_created++`. -/
def bumpCreated (s : SchedState) : SchedState :=
  { s with stats := { s.stats with
      tasks_created := (s.stats.tasks_created + 1) % UINT32_MOD } }

/-- Lines 139-183: the success path of `task_create` in slot `slot`. -/
def createInSlot (s : SchedState) (slot priority stack_size : Nat) : Nat × SchedState :=
  (s.next_task_id,
   bumpCreated (add_task_to_ready_queue
     ((markUsed s slot).updateTask slot
       (fun _ => initTCB s.next_task_id priority stack_size s.system_tick_count)) slot))

/-- `task_create`, with the name string, entry point and parameter dropped
(they are only stored, never read by the scheduler logic).  `priority` is
the received `uint8_t` value and `stack_size` the received `uint32_t`
value.  Returns the new task id, `0` on failure. -/
def task_create (s : SchedState) (priority stack_size : Nat) : Nat × SchedState :=
  if priority ≥ PRIORITY_LEVELS then (0, s)
  else if stack_size > STACK_SIZE then (0, s)
  else match findFreeSlot s with
  | none => (0, s)
  | some slot => createInSlot s slot priority stack_size

/-! ## `task_get_info`, `rtos_init`, `rtos_start` -/

/-- `task_get_info` (scheduler.c lines 474-481), returning the pool index of
the task with the given id (the pointer `&task_pool[i]`). -/
def task_get_info (s : SchedState) (task_id : Nat) : Option Nat :=
  (List.range MAX_TASKS).find?
    (fun i => s.task_pool_used i && ((s.getTask i).task_id == task_id))

/-- The C statics before `main` runs: all pointers `NULL`,
`next_task_id = 1`, counters zero, pool zeroed. -/
def initialState : SchedState :=
  { ready_queues := fun _ => none, current_task := none, idle_task := none,
    next_task_id := 1, scheduler_running := false, system_tick_count := 0,
    stats := default, task_pool := fun _ => default, task_pool_used := fun _ => false }

/-- Lines 72-81 of `rtos_init`: clear queues, pool and stats. -/
def clearKernelState (s : SchedState) : SchedState :=
  { s with ready_queues := fun _ => none, task_pool := fun _ => default,
           task_pool_used := fun _ => false, stats := default }

/-- Lines 84-91 of `rtos_init`: on success record the idle task pointer. -/
def recordIdle (r : Nat × SchedState) : SchedState :=
  if r.1 = 0 then r.2 else { r.2 with idle_task := task_get_info r.2 r.1 }

/-- `rtos_init` (scheduler.c lines 68-99): clear the kernel state, create
the idle task at the lowest priority with a full stack, record it. -/
def rtos_init (s : SchedState) : SchedState :=
  recordIdle (task_create (clearKernelState s) (PRIORITY_LEVELS - 1) STACK_SIZE)

/-- Lines 407-416 of `rtos_start`: pick the first task (if any) and switch
into it from `NULL`. -/
def startFirstSwitch (s : SchedState) (first : Option Nat) : SchedState :=
  match first with
  | none => s
  | some f => context_switch s none (some f)

/-- The start transition of `rtos_start` (scheduler.c lines 401-417): set
the running flag, pick the first task, and context-switch into it.  (The
subsequent busy-wait simulation loop, lines 420-433, only calls
`scheduler_tick` repeatedly; it is modelled by iterating `scheduler_tick`.) -/
def rtos_start_step (s : SchedState) : SchedState :=
  startFirstSwitch (scheduler_get_next_task { s with scheduler_running := true }).2
                   (scheduler_get_next_task { s with scheduler_running := true }).1

/-- `get_cpu_utilization` (scheduler.c lines 533-540): `uint32_t`
subtraction and multiplication, division by `total_ticks`, result truncated
to `uint8_t`.  Returns 0 when no tick has elapsed. -/
def get_cpu_utilization (s : SchedState) : Nat :=
  if s.stats.total_ticks = 0 then 0
  else ((s.stats.total_ticks + UINT32_MOD - s.stats.idle_time) % UINT32_MOD * 100
          % UINT32_MOD / s.stats.total_ticks) % UINT8_MOD

/-! ## Observation helpers (not part of the C code) -/

/-- Iterate `scheduler_tick` (the timer driving the tick engine). -/
def runTicks (s : SchedState) : Nat → SchedState
  | 0 => s
  | k + 1 => runTicks (scheduler_tick s) k

/-- Follow `next` pointers from `cur` until reaching `stop`, a `NULL`
pointer, or running out of fuel; collect the visited indices. -/
def chaseAux (s : SchedState) (stop : Nat) : Option Nat → Nat → List Nat
  | _, 0 => []
  | none, _ => []
  | some c, fuel + 1 =>
      if c = stop then [] else c :: chaseAux s stop (s.getTask c).next fuel

/-- The member list of the ready queue at priority `p`, starting at the head
and following `next` pointers (fuel `MAX_TASKS`, enough for any well-formed
queue). -/
def queueMembers (s : SchedState) (p : Nat) : List Nat :=
  match s.getQueue p with
  | none => []
  | some h => h :: chaseAux s h (s.getTask h).next MAX_TASKS

/-- Concatenation of all ready-queue member lists. -/
def allQueueMembers (s : SchedState) : List Nat :=
  (List.range PRIORITY_LEVELS).foldr (fun p acc => queueMembers s p ++ acc) []

/-- The number of used pool slots whose task is in state `running`. -/
def runningCount (s : SchedState) : Nat :=
  ((List.range MAX_TASKS).filter
    (fun i => s.task_pool_used i && ((s.getTask i).state == TaskState.running))).length

/-! ## Basic state-access lemmas -/

@[simp] lemma getTask_updateTask (s : SchedState) (i : Nat) (f : TCB → TCB) (j : Nat) :
    (s.updateTask i f).getTask j = if j = i then f (s.getTask j) else s.getTask j := rfl

@[simp] lemma getQueue_updateTask (s : SchedState) (i : Nat) (f : TCB → TCB) (p : Nat) :
    (s.updateTask i f).getQueue p = s.getQueue p := rfl

@[simp] lemma getQueue_setQueue (s : SchedState) (p : Nat) (v : Option Nat) (q : Nat) :
    (s.setQueue p v).getQueue q = if q = p then v else s.getQueue q := rfl

@[simp] lemma getTask_setQueue (s : SchedState) (p : Nat) (v : Option Nat) (j : Nat) :
    (s.setQueue p v).getTask j = s.getTask j := rfl

@[simp] lemma updateTask_stats (s : SchedState) (i : Nat) (f : TCB → TCB) :
    (s.updateTask i f).stats = s.stats := rfl

@[simp] lemma updateTask_system_tick_count (s : SchedState) (i : Nat) (f : TCB → TCB) :
    (s.updateTask i f).system_tick_count = s.system_tick_count := rfl

@[simp] lemma updateTask_current_task (s : SchedState) (i : Nat) (f : TCB → TCB) :
    (s.updateTask i f).current_task = s.current_task := rfl

@[simp] lemma updateTask_idle_task (s : SchedState) (i : Nat) (f : TCB → TCB) :
    (s.updateTask i f).idle_task = s.idle_task := rfl

@[simp] lemma updateTask_scheduler_running (s : SchedState) (i : Nat) (f : TCB → TCB) :
    (s.updateTask i f).scheduler_running = s.scheduler_running := rfl

@[simp] lemma updateTask_task_pool_used (s : SchedState) (i : Nat) (f : TCB → TCB) :
    (s.updateTask i f).task_pool_used = s.task_pool_used := rfl

@[simp] lemma updateTask_next_task_id (s : SchedState) (i : Nat) (f : TCB → TCB) :
    (s.updateTask i f).next_task_id = s.next_task_id := rfl

@[simp] lemma setQueue_stats (s : SchedState) (p : Nat) (v : Option Nat) :
    (s.setQueue p v).stats = s.stats := rfl

@[simp] lemma setQueue_system_tick_count (s : SchedState) (p : Nat) (v : Option Nat) :
    (s.setQueue p v).system_tick_count = s.system_tick_count := rfl

@[simp] lemma setQueue_current_task (s : SchedState) (p : Nat) (v : Option Nat) :
    (s.setQueue p v).current_task = s.current_task := rfl

@[simp] lemma setQueue_idle_task (s : SchedState) (p : Nat) (v : Option Nat) :
    (s.setQueue p v).idle_task = s.idle_task := rfl

@[simp] lemma setQueue_scheduler_running (s : SchedState) (p : Nat) (v : Option Nat) :
    (s.setQueue p v).scheduler_running = s.scheduler_running := rfl

@[simp] lemma setQueue_task_pool_used (s : SchedState) (p : Nat) (v : Option Nat) :
    (s.setQueue p v).task_pool_used = s.task_pool_used := rfl

@[simp] lemma setQueue_next_task_id (s : SchedState) (p : Nat) (v : Option Nat) :
    (s.setQueue p v).next_task_id = s.next_task_id := rfl

/-! ## Frame lemmas: which fields each operation can touch -/

/-- `s'` agrees with `s` on every field other than the pool and the ready
queues (the fields touched only by list surgery). -/
def coreFieldsEq (s s' : SchedState) : Prop :=
  s'.current_task = s.current_task ∧ s'.idle_task = s.idle_task ∧
  s'.next_task_id = s.next_task_id ∧ s'.scheduler_running = s.scheduler_running ∧
  s'.system_tick_count = s.system_tick_count ∧ s'.stats = s.stats ∧
  s'.task_pool_used = s.task_pool_used

lemma coreFieldsEq_refl (s : SchedState) : coreFieldsEq s s :=
  ⟨rfl, rfl, rfl, rfl, rfl, rfl, rfl⟩

lemma coreFieldsEq_trans {s t u : SchedState} (h1 : coreFieldsEq s t)
    (h2 : coreFieldsEq t u) : coreFieldsEq s u := by
  obtain ⟨a1, b1, c1, d1, e1, f1, g1⟩ := h1
  obtain ⟨a2, b2, c2, d2, e2, f2, g2⟩ := h2
  exact ⟨a2.trans a1, b2.trans b1, c2.trans c1, d2.trans d1, e2.trans e1,
         f2.trans f1, g2.trans g1⟩

lemma coreFieldsEq_updateTask (s : SchedState) (i : Nat) (f : TCB → TCB) :
    coreFieldsEq s (s.updateTask i f) := ⟨rfl, rfl, rfl, rfl, rfl, rfl, rfl⟩

lemma coreFieldsEq_setQueue (s : SchedState) (p : Nat) (v : Option Nat) :
    coreFieldsEq s (s.setQueue p v) := ⟨rfl, rfl, rfl, rfl, rfl, rfl, rfl⟩

lemma add_coreFieldsEq (s : SchedState) (t : Nat) :
    coreFieldsEq s (add_task_to_ready_queue s t) := by
  unfold add_task_to_ready_queue enqueueAtPriority enqueueNonempty linkLastNext fixStateReady
  repeat' split
  all_goals exact ⟨rfl, rfl, rfl, rfl, rfl, rfl, rfl⟩

lemma remove_coreFieldsEq (s : SchedState) (t : Nat) :
    coreFieldsEq s (remove_task_from_ready_queue s t) := by
  unfold remove_task_from_ready_queue clearLinks removeDispatch removeUnlink setNextOf setPrevOf
  repeat' split
  all_goals exact ⟨rfl, rfl, rfl, rfl, rfl, rfl, rfl⟩

/-- `scheduler_get_next_task` either falls back to the idle task with the
state unchanged, or returns the head of some non-empty queue and only
rotates that queue (`head := head->next`). -/
lemma sgntAux_cases (s : SchedState) (fuel p : Nat) :
    sgntAux s fuel p = (s.idle_task, s) ∨
    ∃ q h, s.getQueue q = some h ∧
      sgntAux s fuel p = (some h, s.setQueue q ((s.getTask h).next)) := by
  induction fuel generalizing p with
  | zero => exact Or.inl rfl
  | succ n ih =>
      cases hq : s.getQueue p with
      | some h => exact Or.inr ⟨p, h, hq, by simp [sgntAux, hq]⟩
      | none => simpa [sgntAux, hq] using ih (p + 1)

lemma scheduler_get_next_task_cases (s : SchedState) :
    scheduler_get_next_task s = (s.idle_task, s) ∨
    ∃ q h, s.getQueue q = some h ∧
      scheduler_get_next_task s = (some h, s.setQueue q ((s.getTask h).next)) :=
  sgntAux_cases s PRIORITY_LEVELS 0

lemma sgnt_coreFieldsEq (s : SchedState) :
    coreFieldsEq s (scheduler_get_next_task s).2 := by
  rcases scheduler_get_next_task_cases s with h | ⟨q, hd, _, h⟩
  · rw [h]; exact coreFieldsEq_refl s
  · rw [h]; exact coreFieldsEq_setQueue s q _

lemma sgnt_getTask (s : SchedState) (j : Nat) :
    ((scheduler_get_next_task s).2).getTask j = s.getTask j := by
  rcases scheduler_get_next_task_cases s with h | ⟨q, hd, _, h⟩
  · rw [h]
  · rw [h]; rfl

lemma wake_one_coreFieldsEq (s : SchedState) (i : Nat) :
    coreFieldsEq s (wake_one s i) := by
  unfold wake_one
  repeat' split
  · exact coreFieldsEq_trans (coreFieldsEq_updateTask s i _) (add_coreFieldsEq _ i)
  · exact coreFieldsEq_refl s
  · exact coreFieldsEq_refl s

lemma foldl_pres {α : Type} {P : SchedState → Prop} {f : SchedState → α → SchedState}
    (hf : ∀ s x, P s → P (f s x)) :
    ∀ (l : List α) (s : SchedState), P s → P (l.foldl f s)
  | [], _, h => h
  | _ :: xs, s, h => foldl_pres hf xs _ (hf s _ h)

lemma wake_coreFieldsEq (s : SchedState) :
    coreFieldsEq s (wake_sleeping_tasks s) := by
  unfold wake_sleeping_tasks
  exact foldl_pres (P := fun u => coreFieldsEq s u)
    (fun u i hu => coreFieldsEq_trans hu (wake_one_coreFieldsEq u i))
    (List.range MAX_TASKS) s (coreFieldsEq_refl s)

lemma tickDecrementSlice_coreFieldsEq (s : SchedState) (c : Nat) :
    coreFieldsEq s (tickDecrementSlice s c) := by
  unfold tickDecrementSlice
  split
  · exact coreFieldsEq_updateTask s c _
  · exact coreFieldsEq_refl s

lemma switchOutFrom_coreFieldsEq (s : SchedState) (cur : Option Nat) :
    coreFieldsEq s (switchOutFrom s cur) := by
  unfold switchOutFrom switchOutReenqueue switchOutRuntime
  repeat' split
  · exact coreFieldsEq_refl s
  all_goals
    repeat'
      first
      | exact coreFieldsEq_refl _
      | refine coreFieldsEq_trans (coreFieldsEq_updateTask _ _ _) ?_
      | refine coreFieldsEq_trans ?_ (add_coreFieldsEq _ _)

/-- `s'` agrees with `s` on everything `switchInTo` cannot touch. -/
def switchInFrame (s s' : SchedState) : Prop :=
  s'.idle_task = s.idle_task ∧ s'.next_task_id = s.next_task_id ∧
  s'.scheduler_running = s.scheduler_running ∧
  s'.system_tick_count = s.system_tick_count ∧ s'.stats = s.stats ∧
  s'.task_pool_used = s.task_pool_used

lemma switchInTo_frame (s : SchedState) (nxt : Option Nat) :
    switchInFrame s (switchInTo s nxt) := by
  unfold switchInTo
  split
  · exact ⟨rfl, rfl, rfl, rfl, rfl, rfl⟩
  · rename_i n
    obtain ⟨_, b, c, d, e, f, g⟩ := remove_coreFieldsEq
      (({ s with current_task := some n }).updateTask n
        (fun t => { t with state := TaskState.running,
                           time_slice_remaining := TIME_SLICE_MS })) n
    exact ⟨b, c, d, e, f, g⟩

/-- `context_switch` preserves the tick counter, the running flag, the idle
pointer, the used map, the id counter, and the `total_ticks` statistic. -/
lemma context_switch_frame (s : SchedState) (cur nxt : Option Nat) :
    (context_switch s cur nxt).system_tick_count = s.system_tick_count ∧
    (context_switch s cur nxt).scheduler_running = s.scheduler_running ∧
    (context_switch s cur nxt).idle_task = s.idle_task ∧
    (context_switch s cur nxt).task_pool_used = s.task_pool_used ∧
    (context_switch s cur nxt).next_task_id = s.next_task_id ∧
    (context_switch s cur nxt).stats.total_ticks = s.stats.total_ticks := by
  unfold context_switch
  split
  · exact ⟨rfl, rfl, rfl, rfl, rfl, rfl⟩
  · obtain ⟨a1, b1, c1, d1, e1, f1, g1⟩ :=
      switchOutFrom_coreFieldsEq (bumpSwitchCount s) cur
    obtain ⟨b2, c2, d2, e2, f2, g2⟩ :=
      switchInTo_frame (switchOutFrom (bumpSwitchCount s) cur) nxt
    refine ⟨e2.trans e1, d2.trans d1, b2.trans b1, g2.trans g1, c2.trans c1, ?_⟩
    rw [f2, f1]; rfl

lemma core_system_tick {s u : SchedState} (h : coreFieldsEq s u) :
    u.system_tick_count = s.system_tick_count := h.2.2.2.2.1

lemma core_stats {s u : SchedState} (h : coreFieldsEq s u) : u.stats = s.stats :=
  h.2.2.2.2.2.1

lemma core_current {s u : SchedState} (h : coreFieldsEq s u) :
    u.current_task = s.current_task := h.1

lemma core_running {s u : SchedState} (h : coreFieldsEq s u) :
    u.scheduler_running = s.scheduler_running := h.2.2.2.1

lemma tickPrep_coreFieldsEq (s : SchedState) (c : Nat) :
    coreFieldsEq s (wake_sleeping_tasks (tickDecrementSlice s c)) :=
  coreFieldsEq_trans (tickDecrementSlice_coreFieldsEq s c) (wake_coreFieldsEq _)

/-- The body of the tick after the counter advance never touches the two
tick counters again. -/
lemma tickBody_counters (s : SchedState) :
    (tickBody s).system_tick_count = s.system_tick_count ∧
    (tickBody s).stats.total_ticks = s.stats.total_ticks := by
  unfold tickBody tickReschedule
  repeat' split
  · exact ⟨rfl, rfl⟩
  · exact ⟨rfl, rfl⟩
  · rename_i hrun c hcur hneed
    have hp := tickPrep_coreFieldsEq s c
    have hs := sgnt_coreFieldsEq (wake_sleeping_tasks (tickDecrementSlice s c))
    have hf := context_switch_frame
      (scheduler_get_next_task (wake_sleeping_tasks (tickDecrementSlice s c))).2 (some c)
      (scheduler_get_next_task (wake_sleeping_tasks (tickDecrementSlice s c))).1
    constructor
    · rw [hf.1, core_system_tick hs, core_system_tick hp]
    · rw [hf.2.2.2.2.2, core_stats hs, core_stats hp]
  · rename_i hrun c hcur hneed
    have hp := tickPrep_coreFieldsEq s c
    exact ⟨core_system_tick hp, by rw [core_stats hp]⟩

/-! ### Preservation of `time_slice_remaining` by the queue operations -/

lemma slice_add (s : SchedState) (t j : Nat) :
    ((add_task_to_ready_queue s t).getTask j).time_slice_remaining
      = (s.getTask j).time_slice_remaining := by
  unfold add_task_to_ready_queue enqueueAtPriority enqueueNonempty linkLastNext fixStateReady
  repeat' split
  all_goals
    simp only [getTask_updateTask, getTask_setQueue]
    repeat' split
  all_goals rfl

lemma slice_remove (s : SchedState) (t j : Nat) :
    ((remove_task_from_ready_queue s t).getTask j).time_slice_remaining
      = (s.getTask j).time_slice_remaining := by
  unfold remove_task_from_ready_queue clearLinks removeDispatch removeUnlink setNextOf setPrevOf
  repeat' split
  all_goals
    simp only [getTask_updateTask, getTask_setQueue]
    repeat' split
  all_goals rfl

lemma slice_wake_one (s : SchedState) (i j : Nat) :
    ((wake_one s i).getTask j).time_slice_remaining
      = (s.getTask j).time_slice_remaining := by
  unfold wake_one
  repeat' split
  · rw [slice_add]
    simp only [getTask_updateTask]
    split
    · rfl
    · rfl
  · rfl
  · rfl

lemma slice_wake (s : SchedState) (j : Nat) :
    ((wake_sleeping_tasks s).getTask j).time_slice_remaining
      = (s.getTask j).time_slice_remaining := by
  unfold wake_sleeping_tasks
  exact foldl_pres
    (P := fun u => (u.getTask j).time_slice_remaining = (s.getTask j).time_slice_remaining)
    (fun u i hu => by simp only []; rw [slice_wake_one]; exact hu)
    (List.range MAX_TASKS) s rfl

lemma slice_switchOutFrom (s : SchedState) (cur : Option Nat) (j : Nat) :
    ((switchOutFrom s cur).getTask j).time_slice_remaining
      = (s.getTask j).time_slice_remaining := by
  unfold switchOutFrom switchOutReenqueue switchOutRuntime
  repeat' split
  · rfl
  all_goals
    first
    | (rw [slice_add]
       simp only [getTask_updateTask]
       repeat' split
       all_goals rfl)
    | (simp only [getTask_updateTask]
       repeat' split
       all_goals rfl)

lemma slice_switchInTo_ne (s : SchedState) (nxt : Option Nat) (c : Nat)
    (h : nxt ≠ some c) :
    ((switchInTo s nxt).getTask c).time_slice_remaining
      = (s.getTask c).time_slice_remaining := by
  unfold switchInTo
  split
  · rfl
  · rename_i n
    rw [slice_remove]
    simp only [getTask_updateTask]
    split
    · rename_i hc; exact absurd (by rw [hc]) h
    · rfl

lemma slice_context_switch_cur (s : SchedState) (c : Nat) (nxt : Option Nat) :
    ((context_switch s (some c) nxt).getTask c).time_slice_remaining
      = (s.getTask c).time_slice_remaining := by
  unfold context_switch
  split
  · rfl
  · rename_i hne
    rw [slice_switchInTo_ne _ _ _ (fun hc => hne (by rw [hc])), slice_switchOutFrom]
    rfl

lemma decr_slice_self (s : SchedState) (c : Nat) :
    ((tickDecrementSlice s c).getTask c).time_slice_remaining
      = (s.getTask c).time_slice_remaining - 1 := by
  unfold tickDecrementSlice
  split
  · simp
  · rename_i h; omega

lemma tickReschedule_slice (s : SchedState) (c : Nat) :
    ((tickReschedule s c).getTask c).time_slice_remaining
      = (s.getTask c).time_slice_remaining := by
  unfold tickReschedule
  split
  · rw [slice_context_switch_cur, sgnt_getTask]
  · rfl

/-- After a tick with the scheduler running and a current task, the current
task's remaining slice is its old value minus one (`Nat` subtraction: a zero
slice stays zero — no underflow), regardless of whether a context switch
happened. -/
lemma tick_slice (s : SchedState) (c : Nat) (hrun : s.scheduler_running = true)
    (hcur : s.current_task = some c) :
    ((scheduler_tick s).getTask c).time_slice_remaining
      = (s.getTask c).time_slice_remaining - 1 := by
  unfold scheduler_tick tickBody
  have h1 : (tickAdvanceCounters s).scheduler_running = true := hrun
  have h2 : (tickAdvanceCounters s).current_task = some c := hcur
  rw [h1, h2]
  simp only [Bool.true_eq_false, if_false]
  rw [tickReschedule_slice, slice_wake]
  exact decr_slice_self (tickAdvanceCounters s) c

lemma tick_noop (s : SchedState) (h : s.scheduler_running = false ∨ s.current_task = none) :
    scheduler_tick s = tickAdvanceCounters s := by
  unfold scheduler_tick tickBody
  rcases h with h | h
  · rw [show (tickAdvanceCounters s).scheduler_running = false from h]
    simp
  · cases hb : (tickAdvanceCounters s).scheduler_running
    · simp
    · rw [show (tickAdvanceCounters s).current_task = none from h]
      simp

/-! ## Claims -/

/-- Kernel initialised, two user tasks created at priority 1 (pool slots 1
and 2, the idle task in slot 0 at priority 3), scheduler started.  The
canonical round-robin scenario. -/
def twoTasksStarted : SchedState :=
  rtos_start_step (task_create (task_create (rtos_init initialState) 1 1024).2 1 1024).2

/-- C1 (code bug): with N = 2 tasks at equal priority 1 and the time-slice
quantum S = `TIME_SLICE_MS` = 10, dispatch from the start of `rtos_start`
does follow queue order cyclically (task in slot 1, then slot 2 after 10
ticks, back to slot 1 after 20), but after N·S = 20 ticks each task has
accumulated `total_runtime = 1`, not S = 10: `context_switch` (line 291)
credits a single tick per switch-out instead of the elapsed slice, although
`rtos.h` documents `total_runtime` as "Total CPU time used". -/
theorem C1_runtime_one_per_slice_not_S :
    ((runTicks twoTasksStarted 20).getTask 1).total_runtime = 1 ∧
    ((runTicks twoTasksStarted 20).getTask 2).total_runtime = 1 ∧
    twoTasksStarted.current_task = some 1 ∧
    (runTicks twoTasksStarted 10).current_task = some 2 ∧
    (runTicks twoTasksStarted 20).current_task = some 1 := by
  exact ⟨by decide, by decide, by decide, by decide, by decide⟩

/-- C9: every `scheduler_tick` advances `system_tick_count` and
`stats.total_ticks` by exactly one (below the `uint32` wrap); the current
task's remaining slice is decremented with a floor at zero (`Nat`
subtraction, so a zero slice never underflows); and when the scheduler is
not running or there is no current task the tick changes nothing but the
two counters. -/
theorem C9_tick_counters_and_slice (s : SchedState)
    (h1 : s.system_tick_count + 1 < UINT32_MOD)
    (h2 : s.stats.total_ticks + 1 < UINT32_MOD) :
    (scheduler_tick s).system_tick_count = s.system_tick_count + 1 ∧
    (scheduler_tick s).stats.total_ticks = s.stats.total_ticks + 1 ∧
    (∀ c, s.scheduler_running = true → s.current_task = some c →
       ((scheduler_tick s).getTask c).time_slice_remaining
         = (s.getTask c).time_slice_remaining - 1 ∧
       ((s.getTask c).time_slice_remaining = 0 →
         ((scheduler_tick s).getTask c).time_slice_remaining = 0)) ∧
    (s.scheduler_running = false ∨ s.current_task = none →
       scheduler_tick s =
         { s with system_tick_count := (s.system_tick_count + 1) % UINT32_MOD,
                  stats := { s.stats with
                    total_ticks := (s.stats.total_ticks + 1) % UINT32_MOD } }) := by
  have hb := tickBody_counters (tickAdvanceCounters s)
  refine ⟨?_, ?_, ?_, ?_⟩
  · show (tickBody (tickAdvanceCounters s)).system_tick_count = _
    rw [hb.1]
    exact Nat.mod_eq_of_lt h1
  · show (tickBody (tickAdvanceCounters s)).stats.total_ticks = _
    rw [hb.2]
    exact Nat.mod_eq_of_lt h2
  · intro c hrun hcur
    have h := tick_slice s c hrun hcur
    exact ⟨h, fun h0 => by rw [h, h0]⟩
  · intro h
    exact tick_noop s h

/-- Closed witness for C9 at the concrete two-task scenario. -/
theorem C9_tick_counters_and_slice_witness :
    (twoTasksStarted.system_tick_count + 1 < UINT32_MOD ∧
     twoTasksStarted.stats.total_ticks + 1 < UINT32_MOD) ∧
    ((scheduler_tick twoTasksStarted).system_tick_count
       = twoTasksStarted.system_tick_count + 1 ∧
     (scheduler_tick twoTasksStarted).stats.total_ticks
       = twoTasksStarted.stats.total_ticks + 1 ∧
     (∀ c, twoTasksStarted.scheduler_running = true →
        twoTasksStarted.current_task = some c →
        ((scheduler_tick twoTasksStarted).getTask c).time_slice_remaining
          = (twoTasksStarted.getTask c).time_slice_remaining - 1 ∧
        ((twoTasksStarted.getTask c).time_slice_remaining = 0 →
          ((scheduler_tick twoTasksStarted).getTask c).time_slice_remaining = 0)) ∧
     (twoTasksStarted.scheduler_running = false ∨ twoTasksStarted.current_task = none →
        scheduler_tick twoTasksStarted =
          { twoTasksStarted with
              system_tick_count := (twoTasksStarted.system_tick_count + 1) % UINT32_MOD,
              stats := { twoTasksStarted.stats with
                total_ticks := (twoTasksStarted.stats.total_ticks + 1) % UINT32_MOD } })) :=
  ⟨⟨by decide, by decide⟩,
   C9_tick_counters_and_slice twoTasksStarted (by decide) (by decide)⟩

/-- C10: the reported CPU utilization is `(total_ticks − idle_ticks) × 100 /
total_ticks` in exact natural-number arithmetic (whenever `idle ≤ total` and
`total × 100` is below the `uint32` wrap), and is 0 when `total_ticks = 0`,
so the division is never a division by zero. -/
theorem C10_cpu_utilization_formula (s : SchedState)
    (h0 : s.stats.idle_time ≤ s.stats.total_ticks)
    (h1 : s.stats.total_ticks * 100 < UINT32_MOD) :
    (s.stats.total_ticks = 0 → get_cpu_utilization s = 0) ∧
    (s.stats.total_ticks ≠ 0 →
      get_cpu_utilization s
        = (s.stats.total_ticks - s.stats.idle_time) * 100 / s.stats.total_ticks) := by
  constructor
  · intro h
    unfold get_cpu_utilization
    rw [if_pos h]
  · intro h
    unfold get_cpu_utilization
    rw [if_neg h]
    have hT : 0 < s.stats.total_ticks := Nat.pos_of_ne_zero h
    have hsub : s.stats.total_ticks + UINT32_MOD - s.stats.idle_time
        = UINT32_MOD + (s.stats.total_ticks - s.stats.idle_time) := by omega
    have hlt : s.stats.total_ticks - s.stats.idle_time < UINT32_MOD := by
      have : s.stats.total_ticks ≤ s.stats.total_ticks * 100 := by omega
      omega
    rw [hsub, Nat.add_mod_left, Nat.mod_eq_of_lt hlt]
    have hlt2 : (s.stats.total_ticks - s.stats.idle_time) * 100 < UINT32_MOD := by
      have := Nat.mul_le_mul_right 100 (Nat.sub_le s.stats.total_ticks s.stats.idle_time)
      omega
    rw [Nat.mod_eq_of_lt hlt2]
    have hle : (s.stats.total_ticks - s.stats.idle_time) * 100 / s.stats.total_ticks ≤ 100 := by
      have hmul := Nat.div_le_div_right (c := s.stats.total_ticks)
        (Nat.mul_le_mul_right 100 (Nat.sub_le s.stats.total_ticks s.stats.idle_time))
      calc (s.stats.total_ticks - s.stats.idle_time) * 100 / s.stats.total_ticks
          ≤ s.stats.total_ticks * 100 / s.stats.total_ticks := hmul
        _ = 100 := by rw [Nat.mul_div_cancel_left _ hT]
    exact Nat.mod_eq_of_lt (lt_of_le_of_lt hle (by norm_num [UINT8_MOD]))

/-- Closed witness for C10 on the statistics reached after 20 ticks of the
two-task scenario. -/
theorem C10_cpu_utilization_formula_witness :
    ((runTicks twoTasksStarted 20).stats.idle_time
        ≤ (runTicks twoTasksStarted 20).stats.total_ticks ∧
     (runTicks twoTasksStarted 20).stats.total_ticks * 100 < UINT32_MOD) ∧
    (((runTicks twoTasksStarted 20).stats.total_ticks = 0 →
        get_cpu_utilization (runTicks twoTasksStarted 20) = 0) ∧
     ((runTicks twoTasksStarted 20).stats.total_ticks ≠ 0 →
        get_cpu_utilization (runTicks twoTasksStarted 20)
          = ((runTicks twoTasksStarted 20).stats.total_ticks
              - (runTicks twoTasksStarted 20).stats.idle_time) * 100
            / (runTicks twoTasksStarted 20).stats.total_ticks)) :=
  ⟨⟨by decide, by decide⟩,
   C10_cpu_utilization_formula (runTicks twoTasksStarted 20) (by decide) (by decide)⟩


/-! ## Circular-list representation of the ready queues -/


/-- A linked segment: starting at task `a`, following `next` pointers
through exactly the tasks of `M` (which begins with `a` when non-empty) and
arriving at `b`; each forward link is matched by the corresponding back
link. -/
inductive Seg (s : SchedState) : Nat → Nat → List Nat → Prop where
  | nil (c : Nat) : Seg s c c []
  | cons {c d e : Nat} {M : List Nat} :
      (s.getTask c).next = some d → (s.getTask d).prev = some c →
      Seg s d e M → Seg s c e (c :: M)

/-- The ready queue at priority `p` holds exactly the circular list `L`:
empty queue ↔ `L = []`; otherwise `L` starts at the head and `Seg` closes
the circle back to the head. -/
def QueueRep (s : SchedState) (p : Nat) (L : List Nat) : Prop :=
  match s.getQueue p with
  | none => L = []
  | some h => L.head? = some h ∧ Seg s h h L

lemma Seg_start_mem {s : SchedState} {a b : Nat} {M : List Nat} (h : Seg s a b M) :
    a ∈ M ∨ (M = [] ∧ a = b) := by
  cases h with
  | nil => exact Or.inr ⟨rfl, rfl⟩
  | cons h1 h2 h3 => exact Or.inl (List.mem_cons_self _ _)

lemma Seg_head {s : SchedState} {a b x : Nat} {M : List Nat}
    (h : Seg s a b (x :: M)) : x = a := by
  cases h with
  | cons h1 h2 h3 => rfl

lemma Seg_append {s : SchedState} {a b c : Nat} {M₁ M₂ : List Nat}
    (h1 : Seg s a b M₁) (h2 : Seg s b c M₂) : Seg s a c (M₁ ++ M₂) := by
  induction h1 with
  | nil => exact h2
  | cons hn hp hs ih => exact Seg.cons hn hp (ih h2)

lemma Seg_next_succ {s : SchedState} {a b : Nat} {M : List Nat} (h : Seg s a b M) :
    ∀ c ∈ M, ∀ d, (s.getTask c).next = some d → d ∈ M.tail ∨ d = b := by
  induction h with
  | nil => intro c hc; exact absurd hc (List.not_mem_nil c)
  | cons hn hp hs ih =>
      rename_i c₀ d₀ e M'
      intro c hc d hd
      rcases List.mem_cons.1 hc with rfl | hc'
      · rw [hn] at hd
        rcases Seg_start_mem hs with h' | ⟨h1, h2⟩
        · exact Or.inl (by rwa [← Option.some_inj.1 hd])
        · right; rw [← Option.some_inj.1 hd, h2]
      · rcases ih c hc' d hd with h' | h'
        · exact Or.inl (List.mem_of_mem_tail h')
        · exact Or.inr h'

lemma Seg_congr {s s' : SchedState} {a b : Nat} {M : List Nat} (h : Seg s a b M)
    (hn : ∀ c ∈ M, (s'.getTask c).next = (s.getTask c).next)
    (hp : ∀ c ∈ M, ∀ d, (s.getTask c).next = some d →
            (s'.getTask d).prev = (s.getTask d).prev) :
    Seg s' a b M := by
  induction h with
  | nil => exact Seg.nil _
  | cons hn1 hp1 hs ih =>
      rename_i c d e M'
      refine Seg.cons ?_ ?_ (ih ?_ ?_)
      · rw [hn c (List.mem_cons_self _ _), hn1]
      · rw [hp c (List.mem_cons_self _ _) d hn1, hp1]
      · intro x hx; exact hn x (List.mem_cons_of_mem _ hx)
      · intro x hx; exact hp x (List.mem_cons_of_mem _ hx)

lemma Seg_snoc {s : SchedState} {a b e : Nat} {M : List Nat} (h : Seg s a b M)
    (hn : (s.getTask b).next = some e) (hp : (s.getTask e).prev = some b) :
    Seg s a e (M ++ [b]) := by
  induction h with
  | nil => exact Seg.cons hn hp (Seg.nil _)
  | cons hn1 hp1 hs ih => exact Seg.cons hn1 hp1 (ih hn hp)

lemma Seg_unsnoc {s : SchedState} {a e b : Nat} {M : List Nat}
    (h : Seg s a e (M ++ [b])) :
    Seg s a b M ∧ (s.getTask b).next = some e ∧ (s.getTask e).prev = some b := by
  induction M generalizing a with
  | nil =>
      cases h with
      | cons hn hp hs =>
          cases hs with
          | nil => exact ⟨Seg.nil _, hn, hp⟩
  | cons x M' ih =>
      cases h with
      | cons hn hp hs =>
          obtain ⟨h1, h2, h3⟩ := ih hs
          exact ⟨Seg.cons hn hp h1, h2, h3⟩

lemma Seg_split {s : SchedState} {a b t : Nat} {M : List Nat} (h : Seg s a b M)
    (ht : t ∈ M) :
    ∃ M₁ M₂, M = M₁ ++ t :: M₂ ∧ Seg s a t M₁ ∧ Seg s t b (t :: M₂) := by
  induction h with
  | nil => exact absurd ht (List.not_mem_nil t)
  | cons hn hp hs ih =>
      rename_i c d e M'
      rcases List.mem_cons.1 ht with rfl | ht'
      · exact ⟨[], M', rfl, Seg.nil _, Seg.cons hn hp hs⟩
      · obtain ⟨M₁, M₂, hM, hseg1, hseg2⟩ := ih ht'
        exact ⟨c :: M₁, M₂, by rw [hM]; rfl, Seg.cons hn hp hseg1, hseg2⟩

/-- In a non-trivial cycle, the head's `prev` points at the last member. -/
lemma Seg_cycle_prev (s : SchedState) (h : Nat) (L : List Nat) (hL : L ≠ [])
    (hseg : Seg s h h L) :
    (s.getTask h).prev = some (L.getLast hL) := by
  have hdec := List.dropLast_append_getLast hL
  rw [← hdec] at hseg
  exact (Seg_unsnoc hseg).2.2


/-! ### Transfer lemmas -/

lemma QueueRep_of_links_eq {s s' : SchedState} (p : Nat) (L : List Nat)
    (hrep : QueueRep s p L)
    (hq : s'.getQueue p = s.getQueue p)
    (hn : ∀ j, (s'.getTask j).next = (s.getTask j).next)
    (hp : ∀ j, (s'.getTask j).prev = (s.getTask j).prev) :
    QueueRep s' p L := by
  unfold QueueRep at *
  rw [hq]
  cases hh : s.getQueue p with
  | none => rw [hh] at hrep; exact hrep
  | some h =>
      rw [hh] at hrep
      exact ⟨hrep.1, Seg_congr hrep.2 (fun c _ => hn c) (fun c _ d _ => hp d)⟩

lemma fixStateReady_getQueue (s : SchedState) (t p : Nat) :
    (fixStateReady s t).getQueue p = s.getQueue p := by
  unfold fixStateReady; split <;> rfl

lemma fixStateReady_next (s : SchedState) (t j : Nat) :
    ((fixStateReady s t).getTask j).next = (s.getTask j).next := by
  unfold fixStateReady
  split
  · simp only [getTask_updateTask]; split <;> rfl
  · rfl

lemma fixStateReady_prev (s : SchedState) (t j : Nat) :
    ((fixStateReady s t).getTask j).prev = (s.getTask j).prev := by
  unfold fixStateReady
  split
  · simp only [getTask_updateTask]; split <;> rfl
  · rfl

lemma fixStateReady_priority (s : SchedState) (t j : Nat) :
    ((fixStateReady s t).getTask j).priority = (s.getTask j).priority := by
  unfold fixStateReady
  split
  · simp only [getTask_updateTask]; split <;> rfl
  · rfl

lemma QueueRep_fixStateReady (s : SchedState) (t p : Nat) (L : List Nat)
    (h : QueueRep s p L) : QueueRep (fixStateReady s t) p L :=
  QueueRep_of_links_eq p L h (fixStateReady_getQueue s t p)
    (fixStateReady_next s t) (fixStateReady_prev s t)

/-! ### The effect of `add_task_to_ready_queue` on its own queue -/

lemma linkLastNext_some (s : SchedState) (l task : Nat) :
    linkLastNext s (some l) task
      = s.updateTask l (fun tc => { tc with next := some task }) := rfl

lemma enqueue_rep (s : SchedState) (t : Nat) (L : List Nat)
    (hrep : QueueRep s ((s.getTask t).priority) L)
    (hnodup : L.Nodup) (hnotin : t ∉ L) :
    QueueRep (add_task_to_ready_queue s t) ((s.getTask t).priority) (L ++ [t]) := by
  have hrep0 := QueueRep_fixStateReady s t _ L hrep
  have hprio0 : ((fixStateReady s t).getTask t).priority = (s.getTask t).priority :=
    fixStateReady_priority s t t
  unfold add_task_to_ready_queue enqueueAtPriority
  rw [hprio0]
  split
  case _ heq =>
      -- empty queue: the task becomes the sole, self-linked member
      unfold QueueRep at hrep0
      rw [heq] at hrep0
      subst hrep0
      unfold QueueRep
      simp only [getQueue_updateTask, getQueue_setQueue, if_pos rfl, List.nil_append]
      refine ⟨rfl, Seg.cons ?_ ?_ (Seg.nil t)⟩ <;> simp
  case _ h heq =>
      unfold QueueRep at hrep0
      rw [heq] at hrep0
      obtain ⟨hhead, hseg⟩ := hrep0
      have hLne : L ≠ [] := by intro he; rw [he] at hhead; exact Option.noConfusion hhead
      have hlast := Seg_cycle_prev (fixStateReady s t) h L hLne hseg
      unfold enqueueNonempty
      rw [hlast, linkLastNext_some]
      set s0 := fixStateReady s t with hs0
      set lst := L.getLast hLne with hlst
      set s1 := s0.updateTask t
        (fun tc => { tc with next := some h, prev := some lst }) with hs1
      set s2 := s1.updateTask lst (fun tc => { tc with next := some t }) with hs2
      set s3 := s2.updateTask h (fun tc => { tc with prev := some t }) with hs3
      -- membership facts
      have hhmem : h ∈ L := by
        cases hL : L with
        | nil => exact absurd hL hLne
        | cons x M =>
            rw [hL] at hhead
            rw [show x = h from Option.some_inj.1 hhead]
            exact List.mem_cons_self _ _
      have hlmem : lst ∈ L := List.getLast_mem hLne
      have hth : t ≠ h := fun he => hnotin (he ▸ hhmem)
      have htl : t ≠ lst := fun he => hnotin (he ▸ hlmem)
      have hdec : L.dropLast ++ [lst] = L := List.dropLast_append_getLast hLne
      have hmemL : ∀ x, x ∈ L.dropLast → x ∈ L := fun x hx =>
        hdec ▸ List.mem_append_left _ hx
      have hnodup' : (L.dropLast ++ [lst]).Nodup := by rw [hdec]; exact hnodup
      have hlnotin : lst ∉ L.dropLast := fun hmem =>
        (List.disjoint_of_nodup_append hnodup') hmem (List.mem_singleton.2 rfl)
      have hL'nodup : (L.dropLast).Nodup := hnodup'.of_append_left
      -- the final values of the four written links
      have hnext_t : (s3.getTask t).next = some h := by
        simp [hs3, hs2, hs1, hth, htl]
      have hprev_t : (s3.getTask t).prev = some lst := by
        simp [hs3, hs2, hs1, hth, htl]
      have hnext_l : (s3.getTask lst).next = some t := by
        by_cases hlh : lst = h
        · simp [hs3, hs2, hs1, hlh, Ne.symm htl]
        · simp [hs3, hs2, hs1, hlh, Ne.symm htl]
      have hprev_h : (s3.getTask h).prev = some t := by
        simp [hs3]
      -- untouched links
      have hnext_other : ∀ j, j ≠ t → j ≠ lst → (s3.getTask j).next = (s0.getTask j).next := by
        intro j h1 h2
        simp only [hs3, hs2, hs1, getTask_updateTask, if_neg h1, if_neg h2]
        split <;> rfl
      have hprev_other : ∀ j, j ≠ t → j ≠ h → (s3.getTask j).prev = (s0.getTask j).prev := by
        intro j h1 h2
        simp only [hs3, hs2, hs1, getTask_updateTask, if_neg h1, if_neg h2]
        split <;> rfl
      -- the old circle without its last member
      have hsegL : Seg s0 h h (L.dropLast ++ [lst]) := by rw [hdec]; exact hseg
      obtain ⟨hseg', hnl, hph⟩ := Seg_unsnoc hsegL
      have hheadL' : ∀ (x : Nat) (M : List Nat), L.dropLast = x :: M → x = h := by
        intro x M hxm
        have h2 := hseg'
        rw [hxm] at h2
        exact Seg_head h2
      -- transfer the initial segment to s3
      have hseg3 : Seg s3 h lst L.dropLast := by
        refine Seg_congr hseg' ?_ ?_
        · intro c hc
          exact hnext_other c (fun he => hnotin (he ▸ hmemL c hc))
            (fun he => hlnotin (he ▸ hc))
        · intro c hc d hd
          have hLdne : L.dropLast ≠ [] := fun he => by
            rw [he] at hc; exact absurd hc (List.not_mem_nil c)
          have hhL' : h ∈ L.dropLast := by
            cases hdl2 : L.dropLast with
            | nil => exact absurd hdl2 hLdne
            | cons x M =>
                rw [hheadL' x M hdl2]
                exact List.mem_cons_self _ _
          have hnotintail : h ∉ (L.dropLast).tail := by
            cases hdl2 : L.dropLast with
            | nil => simp
            | cons x M =>
                have hx := hheadL' x M hdl2
                rw [hdl2] at hL'nodup
                simp only [List.tail_cons]
                rw [hx] at hL'nodup
                exact (List.nodup_cons.1 hL'nodup).1
          rcases Seg_next_succ hseg' c hc d hd with hdt | hdl
          · exact hprev_other d
              (fun he => hnotin (he ▸ hmemL d (List.mem_of_mem_tail hdt)))
              (fun he => hnotintail (he ▸ hdt))
          · subst hdl
            exact hprev_other lst htl.symm (fun he => hlnotin (he ▸ hhL'))
      have hseg4 : Seg s3 h t (L.dropLast ++ [lst]) := Seg_snoc hseg3 hnext_l hprev_t
      have hseg5 : Seg s3 h h ((L.dropLast ++ [lst]) ++ [t]) :=
        Seg_snoc hseg4 hnext_t hprev_h
      rw [hdec] at hseg5
      unfold QueueRep
      have hq3 : s3.getQueue ((s.getTask t).priority) = some h := by
        simp only [hs3, hs2, hs1, getQueue_updateTask]
        exact heq
      rw [hq3]
      refine ⟨?_, hseg5⟩
      cases hL : L with
      | nil => exact absurd hL hLne
      | cons x M =>
          rw [hL] at hhead
          rw [show x = h from Option.some_inj.1 hhead]
          rfl


/-! ### Writes of `add_task_to_ready_queue` stay inside its own queue -/

lemma fixStateReady_getTask_ne (s : SchedState) (t j : Nat) (h : j ≠ t) :
    (fixStateReady s t).getTask j = s.getTask j := by
  unfold fixStateReady
  split
  · simp only [getTask_updateTask, if_neg h]
  · rfl

lemma add_getQueue_other (s : SchedState) (t q : Nat)
    (hq : q ≠ (s.getTask t).priority) :
    (add_task_to_ready_queue s t).getQueue q = s.getQueue q := by
  have hprio0 : ((fixStateReady s t).getTask t).priority = (s.getTask t).priority :=
    fixStateReady_priority s t t
  unfold add_task_to_ready_queue enqueueAtPriority enqueueNonempty linkLastNext
  rw [hprio0]
  split
  · simp only [getQueue_updateTask, getQueue_setQueue, if_neg hq]
    exact fixStateReady_getQueue s t q
  · split
    · simp only [getQueue_updateTask]; exact fixStateReady_getQueue s t q
    · simp only [getQueue_updateTask]; exact fixStateReady_getQueue s t q

lemma add_getTask_outside (s : SchedState) (t : Nat) (Lp : List Nat)
    (hrepp : QueueRep s ((s.getTask t).priority) Lp) :
    ∀ j, j ∉ Lp → j ≠ t → (add_task_to_ready_queue s t).getTask j = s.getTask j := by
  intro j hjL hjt
  have hprio0 : ((fixStateReady s t).getTask t).priority = (s.getTask t).priority :=
    fixStateReady_priority s t t
  unfold add_task_to_ready_queue enqueueAtPriority
  rw [hprio0]
  split
  case _ heq =>
      simp only [getTask_updateTask, getTask_setQueue, if_neg hjt]
      exact fixStateReady_getTask_ne s t j hjt
  case _ h heq =>
      unfold QueueRep at hrepp
      have heq2 : s.getQueue ((s.getTask t).priority) = some h := by
        rw [← fixStateReady_getQueue s t]; exact heq
      rw [heq2] at hrepp
      obtain ⟨hhead, hseg⟩ := hrepp
      have hLne : Lp ≠ [] := by intro he; rw [he] at hhead; exact Option.noConfusion hhead
      have hlast : ((fixStateReady s t).getTask h).prev = some (Lp.getLast hLne) := by
        rw [fixStateReady_prev]
        exact Seg_cycle_prev s h Lp hLne hseg
      have hhmem : h ∈ Lp := by
        cases hL : Lp with
        | nil => exact absurd hL hLne
        | cons x M =>
            rw [hL] at hhead
            rw [show x = h from Option.some_inj.1 hhead]
            exact List.mem_cons_self _ _
      have hjh : j ≠ h := fun he => hjL (he ▸ hhmem)
      have hjl : j ≠ Lp.getLast hLne := fun he => hjL (he ▸ List.getLast_mem hLne)
      unfold enqueueNonempty
      rw [hlast, linkLastNext_some]
      simp only [getTask_updateTask, if_neg hjh, if_neg hjl, if_neg hjt]
      exact fixStateReady_getTask_ne s t j hjt

/-- Congruence for `QueueRep` where only the member tasks' links matter. -/
lemma QueueRep_congr_mem {s s' : SchedState} (p : Nat) (L : List Nat)
    (hrep : QueueRep s p L)
    (hq : s'.getQueue p = s.getQueue p)
    (hn : ∀ j ∈ L, (s'.getTask j).next = (s.getTask j).next)
    (hp : ∀ j ∈ L, (s'.getTask j).prev = (s.getTask j).prev) :
    QueueRep s' p L := by
  unfold QueueRep at *
  rw [hq]
  cases hh : s.getQueue p with
  | none => rw [hh] at hrep; exact hrep
  | some h =>
      rw [hh] at hrep
      obtain ⟨hhead, hseg⟩ := hrep
      have hLne : L ≠ [] := by intro he; rw [he] at hhead; exact Option.noConfusion hhead
      have hhmem : h ∈ L := by
        cases hL : L with
        | nil => exact absurd hL hLne
        | cons x M =>
            rw [hL] at hhead
            rw [show x = h from Option.some_inj.1 hhead]
            exact List.mem_cons_self _ _
      refine ⟨hhead, Seg_congr hseg hn ?_⟩
      intro c hc d hd
      rcases Seg_next_succ hseg c hc d hd with h1 | h1
      · exact hp d (List.mem_of_mem_tail h1)
      · exact hp d (h1 ▸ hhmem)

lemma enqueue_rep_other (s : SchedState) (t q : Nat) (Lp Lq : List Nat)
    (hrepp : QueueRep s ((s.getTask t).priority) Lp)
    (hrepq : QueueRep s q Lq) (hq : q ≠ (s.getTask t).priority)
    (ht : t ∉ Lq) (hdis : ∀ x ∈ Lq, x ∉ Lp) :
    QueueRep (add_task_to_ready_queue s t) q Lq := by
  refine QueueRep_congr_mem q Lq hrepq (add_getQueue_other s t q hq) ?_ ?_
  · intro j hj
    rw [add_getTask_outside s t Lp hrepp j (hdis j hj) (fun he => ht (he ▸ hj))]
  · intro j hj
    rw [add_getTask_outside s t Lp hrepp j (hdis j hj) (fun he => ht (he ▸ hj))]

/-! ### Writes of `remove_task_from_ready_queue` -/

lemma remove_getQueue_other (s : SchedState) (t q : Nat)
    (hq : q ≠ (s.getTask t).priority) :
    (remove_task_from_ready_queue s t).getQueue q = s.getQueue q := by
  unfold remove_task_from_ready_queue clearLinks removeDispatch removeUnlink setNextOf setPrevOf
  repeat' split
  all_goals simp [if_neg hq]

lemma remove_getTask_outside (s : SchedState) (t j : Nat) (h1 : j ≠ t)
    (h2 : (s.getTask t).next ≠ some j) (h3 : (s.getTask t).prev ≠ some j) :
    (remove_task_from_ready_queue s t).getTask j = s.getTask j := by
  unfold remove_task_from_ready_queue clearLinks removeDispatch removeUnlink setNextOf setPrevOf
  repeat' split
  all_goals simp only [getTask_updateTask, getTask_setQueue]
  all_goals repeat' split
  all_goals first
    | rfl
    | (exfalso; rename_i hcond; exact h1 hcond)
    | simp_all


/-! ### Rotation (`scheduler_get_next_task`) on the representation -/

lemma rotate_rep (s : SchedState) (p h : Nat) (L : List Nat)
    (hq : s.getQueue p = some h) (hrep : QueueRep s p L) :
    QueueRep (s.setQueue p ((s.getTask h).next)) p (L.tail ++ [h]) := by
  unfold QueueRep at hrep
  rw [hq] at hrep
  obtain ⟨hhead, hseg⟩ := hrep
  cases hL : L with
  | nil => rw [hL] at hhead; exact Option.noConfusion hhead
  | cons x M =>
      rw [hL] at hhead
      have hx : x = h := Option.some_inj.1 hhead
      subst hx
      rw [hL] at hseg
      cases hseg with
      | cons hn hp hs =>
          rename_i d
          cases hM : M with
          | nil =>
              rw [hM] at hs
              cases hs with
              | nil =>
                  unfold QueueRep
                  simp only [getQueue_setQueue, if_pos rfl, hn, List.tail_cons,
                    List.nil_append]
                  refine ⟨rfl, ?_⟩
                  refine Seg.cons ?_ ?_ (Seg.nil x)
                  · exact hn
                  · exact hp
          | cons d' M' =>
              rw [hM] at hs
              have hd : d' = d := Seg_head hs
              subst hd
              unfold QueueRep
              simp only [getQueue_setQueue, if_pos rfl, hn, List.tail_cons]
              refine ⟨rfl, ?_⟩
              have hs' : Seg (s.setQueue p (some d')) d' x (d' :: M') :=
                Seg_congr hs (fun _ _ => rfl) (fun _ _ _ _ => rfl)
              have hlast : Seg (s.setQueue p (some d')) x d' [x] := by
                refine Seg.cons ?_ ?_ (Seg.nil d')
                · exact hn
                · exact hp
              exact Seg_append hs' hlast

/-! ### Removal on the representation -/

lemma setNextOf_some (s : SchedState) (i : Nat) (v : Option Nat) :
    setNextOf s (some i) v = s.updateTask i (fun tc => { tc with next := v }) := rfl

lemma setPrevOf_some (s : SchedState) (i : Nat) (v : Option Nat) :
    setPrevOf s (some i) v = s.updateTask i (fun tc => { tc with prev := v }) := rfl

/-- Transfer a segment to a state that agrees on exactly the links the
segment reads: the `next` of every member, the `prev` of every member after
the first, and the `prev` of the endpoint (only read when the segment is
non-empty). -/
lemma Seg_transfer {s s' : SchedState} {a b : Nat} {M : List Nat}
    (hseg : Seg s a b M)
    (hn : ∀ c ∈ M, (s'.getTask c).next = (s.getTask c).next)
    (hptail : ∀ c ∈ M.tail, (s'.getTask c).prev = (s.getTask c).prev)
    (hpb : M ≠ [] → (s'.getTask b).prev = (s.getTask b).prev) :
    Seg s' a b M := by
  induction hseg with
  | nil => exact Seg.nil _
  | cons hn1 hp1 hs ih =>
      rename_i c d e M'
      refine Seg.cons ?_ ?_ (ih ?_ ?_ ?_)
      · rw [hn c (List.mem_cons_self _ _), hn1]
      · rcases Seg_start_mem hs with hm | ⟨hm, hm2⟩
        · rw [hptail d (by rw [List.tail_cons]; exact hm), hp1]
        · subst hm2
          rw [hpb (by simp), hp1]
      · intro x hx; exact hn x (List.mem_cons_of_mem _ hx)
      · intro x hx
        rcases hM' : M' with _ | ⟨y, My⟩
        · rw [hM'] at hx; exact absurd hx (List.not_mem_nil x)
        · rw [hM'] at hx hs
          have hy : y = d := Seg_head hs
          exact hptail x (by
            rw [List.tail_cons]
            rw [hM']
            exact List.mem_of_mem_tail (hy ▸ hx) |> fun h2 => (by
              rcases List.mem_cons.1 h2 with h3 | h3
              · rw [h3, hy]; exact List.mem_cons_self _ _
              · exact List.mem_cons_of_mem _ h3))
      · intro _
        exact hpb (by simp)


lemma remove_rep (s : SchedState) (t : Nat) (L : List Nat)
    (hrep : QueueRep s ((s.getTask t).priority) L)
    (hnodup : L.Nodup) (ht : t ∈ L) :
    QueueRep (remove_task_from_ready_queue s t) ((s.getTask t).priority) (L.erase t) := by
  unfold remove_task_from_ready_queue
  split
  case _ heq =>
      unfold QueueRep at hrep
      rw [heq] at hrep
      rw [hrep] at ht
      exact absurd ht (List.not_mem_nil t)
  case _ h0 heq =>
      unfold QueueRep at hrep
      rw [heq] at hrep
      obtain ⟨hhead, hseg⟩ := hrep
      have hLne : L ≠ [] := by intro he; rw [he] at hhead; exact Option.noConfusion hhead
      obtain ⟨M₁, M₂, hLdec, hseg1, hseg2⟩ := Seg_split hseg ht
      have hnodup' : (M₁ ++ t :: M₂).Nodup := by rw [← hLdec]; exact hnodup
      have htM₁ : t ∉ M₁ := fun hm =>
        (List.disjoint_of_nodup_append hnodup') hm (List.mem_cons_self _ _)
      have hnodup2 : (t :: M₂).Nodup := hnodup'.of_append_right
      have htM₂ : t ∉ M₂ := (List.nodup_cons.1 hnodup2).1
      have hnodupM₁ : M₁.Nodup := hnodup'.of_append_left
      have hnodupM₂ : M₂.Nodup := (List.nodup_cons.1 hnodup2).2
      have hM₁M₂ : ∀ x ∈ M₁, x ∉ M₂ := fun x hx hmem =>
        (List.disjoint_of_nodup_append hnodup') hx (List.mem_cons_of_mem _ hmem)
      cases hseg2 with
      | cons hnt hpd hs2 =>
          rename_i d
          unfold clearLinks removeDispatch
          split
          case _ hself =>
            -- task->next == task: the queue had the single member t
            rw [hnt] at hself
            have hdt : d = t := Option.some_inj.1 hself
            subst hdt
            have hM₂nil : M₂ = [] := by
              rcases Seg_start_mem hs2 with hm | ⟨hm, _⟩
              · exact absurd hm htM₂
              · exact hm
            have hM₁nil : M₁ = [] := by
              have hth0 : d = h0 := by
                rcases Seg_start_mem hs2 with hm | ⟨_, hm⟩
                · exact absurd hm htM₂
                · exact hm
              rw [← hth0] at hseg1
              rcases Seg_start_mem hseg1 with hm | ⟨hm, _⟩
              · exact absurd hm htM₁
              · exact hm
            have hLt : L = [d] := by rw [hLdec, hM₁nil, hM₂nil]; rfl
            rw [hLt]
            unfold QueueRep
            simp
          case _ hnself =>
            unfold removeUnlink
            rw [hnt]
            have hdne : d ≠ t := fun he => hnself (by rw [hnt, he])
            rcases hM₁c : M₁ with _ | ⟨x, M₁r⟩
            · -- t is the head of its queue (h0 = t): the head moves to d = t->next
              rw [hM₁c] at hseg1
              have hh0t : h0 = t := by cases hseg1 with | nil => rfl
              rw [hh0t] at heq hs2
              have hM₂ne : M₂ ≠ [] := by
                intro he
                rw [he] at hs2
                cases hs2 with
                | nil => exact hdne rfl
              have hdecM₂ : M₂.dropLast ++ [M₂.getLast hM₂ne] = M₂ :=
                List.dropLast_append_getLast hM₂ne
              have hsegM₂ : Seg s d t (M₂.dropLast ++ [M₂.getLast hM₂ne]) := by
                rw [hdecM₂]; exact hs2
              obtain ⟨hsegA, hnu, hpt⟩ := Seg_unsnoc hsegM₂
              rw [hpt, setNextOf_some, setPrevOf_some]
              set u := M₂.getLast hM₂ne with hu
              have humem : u ∈ M₂ := List.getLast_mem hM₂ne
              have hdlnodup : (M₂.dropLast ++ [u]).Nodup := by
                rw [hdecM₂]; exact hnodupM₂
              have hunotdl : u ∉ M₂.dropLast := fun hmem =>
                (List.disjoint_of_nodup_append hdlnodup) hmem (List.mem_singleton.2 rfl)
              have hut : u ≠ t := fun he => htM₂ (he ▸ humem)
              have hdmem : d ∈ M₂ := by
                rcases Seg_start_mem hs2 with hm | ⟨hm, _⟩
                · exact hm
                · exact absurd hm hM₂ne
              have hdt2 : d ≠ t := hdne
              have hcond : (((s.updateTask u fun tc =>
                  { tc with next := some d }).updateTask d fun tc =>
                  { tc with prev := some u }).getQueue ((s.getTask t).priority))
                    = some t := by
                simp only [getQueue_updateTask]
                exact heq
              rw [if_pos hcond]
              unfold QueueRep
              simp only [getQueue_updateTask, getQueue_setQueue, if_pos rfl]
              rw [hLdec, hM₁c]
              simp only [List.nil_append, List.erase_cons_head]
              have hM₂head : M₂.head? = some d := by
                cases hM₂c : M₂ with
                | nil => exact absurd hM₂c hM₂ne
                | cons y My =>
                    rw [hM₂c] at hs2
                    rw [Seg_head hs2]; rfl
              refine ⟨hM₂head, ?_⟩
              set s3 := (((s.updateTask u fun tc => { tc with next := some d }).updateTask
                d fun tc => { tc with prev := some u }).setQueue ((s.getTask t).priority)
                (some d)).updateTask t fun tc =>
                { tc with next := none, prev := none } with hs3
              have hnext_u : (s3.getTask u).next = some d := by
                simp only [hs3, getTask_updateTask, getTask_setQueue, if_neg hut]
                split <;> simp
              have hprev_d : (s3.getTask d).prev = some u := by
                simp only [hs3, getTask_updateTask, getTask_setQueue, if_neg hdt2]
                simp
              have hnext_other : ∀ j, j ≠ t → j ≠ u →
                  (s3.getTask j).next = (s.getTask j).next := by
                intro j h1 h2
                simp only [hs3, getTask_updateTask, getTask_setQueue, if_neg h1, if_neg h2]
                split <;> rfl
              have hprev_other : ∀ j, j ≠ t → j ≠ d →
                  (s3.getTask j).prev = (s.getTask j).prev := by
                intro j h1 h2
                simp only [hs3, getTask_updateTask, getTask_setQueue, if_neg h1, if_neg h2]
                split <;> rfl
              have hsegA3 : Seg s3 d u M₂.dropLast := by
                refine Seg_transfer hsegA ?_ ?_ ?_
                · intro c hc
                  exact hnext_other c
                    (fun he => htM₂ (he ▸ (hdecM₂ ▸ List.mem_append_left _ hc)))
                    (fun he => hunotdl (he ▸ hc))
                · intro c hc
                  have hcmem : c ∈ M₂.dropLast := List.mem_of_mem_tail hc
                  refine hprev_other c
                    (fun he => htM₂ (he ▸ (hdecM₂ ▸ List.mem_append_left _ hcmem))) ?_
                  intro he
                  cases hdl2 : M₂.dropLast with
                  | nil => rw [hdl2] at hc; exact absurd hc (List.not_mem_nil c)
                  | cons y My =>
                      have h2 := hsegA
                      rw [hdl2] at h2
                      have hy : y = d := Seg_head h2
                      have hnd : (M₂.dropLast).Nodup :=
                        List.Nodup.sublist (List.dropLast_sublist M₂) hnodupM₂
                      rw [hdl2, hy] at hnd
                      rw [hdl2, List.tail_cons] at hc
                      exact (List.nodup_cons.1 hnd).1 (he ▸ hc)
                · intro hne
                  refine hprev_other u hut ?_
                  intro he
                  have hdL2 : d ∈ M₂.dropLast := by
                    cases hdl2 : M₂.dropLast with
                    | nil => rw [hdl2] at hne; exact absurd rfl hne
                    | cons y My =>
                        have h2 := hsegA
                        rw [hdl2] at h2
                        rw [Seg_head h2]
                        exact List.mem_cons_self _ _
                  exact hunotdl (he ▸ hdL2)
              have hfin : Seg s3 d d (M₂.dropLast ++ [u]) :=
                Seg_snoc hsegA3 hnext_u hprev_d
              rw [hdecM₂] at hfin
              exact hfin
            · -- t is an interior member: the head h0 stays put
              rw [hM₁c] at hseg1
              have hxh0 : x = h0 := Seg_head hseg1
              rw [← hM₁c] at hseg1
              have hM₁ne : M₁ ≠ [] := by rw [hM₁c]; exact List.cons_ne_nil _ _
              have hdecM₁ : M₁.dropLast ++ [M₁.getLast hM₁ne] = M₁ :=
                List.dropLast_append_getLast hM₁ne
              have hsegM₁ : Seg s h0 t (M₁.dropLast ++ [M₁.getLast hM₁ne]) := by
                rw [hdecM₁]; exact hseg1
              obtain ⟨hsegA, hnu, hpt⟩ := Seg_unsnoc hsegM₁
              rw [hpt, setNextOf_some, setPrevOf_some]
              set u := M₁.getLast hM₁ne with hu
              have humem : u ∈ M₁ := List.getLast_mem hM₁ne
              have hdlnodup : (M₁.dropLast ++ [u]).Nodup := by
                rw [hdecM₁]; exact hnodupM₁
              have hunotdl : u ∉ M₁.dropLast := fun hmem =>
                (List.disjoint_of_nodup_append hdlnodup) hmem (List.mem_singleton.2 rfl)
              have hut : u ≠ t := fun he => htM₁ (he ▸ humem)
              have hh0M₁ : h0 ∈ M₁ := by
                rw [hM₁c, ← hxh0]; exact List.mem_cons_self _ _
              have hh0t : h0 ≠ t := fun he => htM₁ (he ▸ hh0M₁)
              have hdM₂h0 : (d ∈ M₂ ∧ M₂ ≠ []) ∨ (d = h0 ∧ M₂ = []) := by
                rcases Seg_start_mem hs2 with hm | ⟨hm1, hm2⟩
                · refine Or.inl ⟨hm, ?_⟩
                  intro he; rw [he] at hm; exact absurd hm (List.not_mem_nil d)
                · exact Or.inr ⟨hm2, hm1⟩
              have hdt2 : d ≠ t := hdne
              have hcond : ¬ ((((s.updateTask u fun tc =>
                  { tc with next := some d }).updateTask d fun tc =>
                  { tc with prev := some u }).getQueue ((s.getTask t).priority))
                    = some t) := by
                simp only [getQueue_updateTask]
                rw [heq]
                intro hcontra
                exact hh0t (Option.some_inj.1 hcontra)
              rw [if_neg hcond]
              unfold QueueRep
              simp only [getQueue_updateTask]
              rw [heq]
              have herase : (M₁ ++ t :: M₂).erase t = M₁ ++ M₂ := by
                rw [List.erase_append_right _ htM₁, List.erase_cons_head]
              rw [hLdec, herase]
              have hM₁head : (M₁ ++ M₂).head? = some h0 := by
                rw [hM₁c, ← hxh0]; rfl
              refine ⟨hM₁head, ?_⟩
              set s3 := ((s.updateTask u fun tc => { tc with next := some d }).updateTask
                d fun tc => { tc with prev := some u }).updateTask t fun tc =>
                { tc with next := none, prev := none } with hs3
              have hnext_u : (s3.getTask u).next = some d := by
                simp only [hs3, getTask_updateTask, if_neg hut]
                split <;> simp
              have hprev_d : (s3.getTask d).prev = some u := by
                simp only [hs3, getTask_updateTask, if_neg hdt2]
                simp
              have hnext_other : ∀ j, j ≠ t → j ≠ u →
                  (s3.getTask j).next = (s.getTask j).next := by
                intro j h1 h2
                simp only [hs3, getTask_updateTask, if_neg h1, if_neg h2]
                split <;> rfl
              have hprev_other : ∀ j, j ≠ t → j ≠ d →
                  (s3.getTask j).prev = (s.getTask j).prev := by
                intro j h1 h2
                simp only [hs3, getTask_updateTask, if_neg h1, if_neg h2]
                split <;> rfl
              -- transfer the segment before t
              have hsegA3 : Seg s3 h0 u M₁.dropLast := by
                refine Seg_transfer hsegA ?_ ?_ ?_
                · intro c hc
                  exact hnext_other c
                    (fun he => htM₁ (he ▸ (hdecM₁ ▸ List.mem_append_left _ hc)))
                    (fun he => hunotdl (he ▸ hc))
                · intro c hc
                  have hcmem : c ∈ M₁.dropLast := List.mem_of_mem_tail hc
                  have hcM₁ : c ∈ M₁ := hdecM₁ ▸ List.mem_append_left _ hcmem
                  refine hprev_other c (fun he => htM₁ (he ▸ hcM₁)) ?_
                  intro he
                  rcases hdM₂h0 with ⟨hm, _⟩ | ⟨hm, _⟩
                  · exact (hM₁M₂ c hcM₁) (he ▸ hm)
                  · -- d = h0: h0 is the head of M₁.dropLast, not in its tail
                    rw [hm] at he
                    cases hdl2 : M₁.dropLast with
                    | nil => rw [hdl2] at hc; exact absurd hc (List.not_mem_nil c)
                    | cons y My =>
                        have h2 := hsegA
                        rw [hdl2] at h2
                        have hy : y = h0 := Seg_head h2
                        have hnd : (M₁.dropLast).Nodup :=
                          List.Nodup.sublist (List.dropLast_sublist M₁) hnodupM₁
                        rw [hdl2, hy] at hnd
                        rw [hdl2, List.tail_cons] at hc
                        exact (List.nodup_cons.1 hnd).1 (he ▸ hc)
                · intro hne
                  refine hprev_other u hut ?_
                  intro he
                  rcases hdM₂h0 with ⟨hm, _⟩ | ⟨hm, _⟩
                  · exact (hM₁M₂ u humem) (he ▸ hm)
                  · -- d = h0: then u = h0, but h0 heads M₁.dropLast (nonempty) while
                    -- u is not a member of it
                    rw [hm] at he
                    have hh0dl : h0 ∈ M₁.dropLast := by
                      cases hdl2 : M₁.dropLast with
                      | nil => rw [hdl2] at hne; exact absurd rfl hne
                      | cons y My =>
                          have h2 := hsegA
                          rw [hdl2] at h2
                          rw [Seg_head h2]
                          exact List.mem_cons_self _ _
                    exact hunotdl (he ▸ hh0dl)
              have hsegA4 : Seg s3 h0 d (M₁.dropLast ++ [u]) :=
                Seg_snoc hsegA3 hnext_u hprev_d
              -- transfer the segment after t
              have hsegB3 : Seg s3 d h0 M₂ := by
                refine Seg_transfer hs2 ?_ ?_ ?_
                · intro c hc
                  exact hnext_other c (fun he => htM₂ (he ▸ hc))
                    (fun he => (hM₁M₂ u humem) (he ▸ hc))
                · intro c hc
                  have hcmem : c ∈ M₂ := List.mem_of_mem_tail hc
                  refine hprev_other c (fun he => htM₂ (he ▸ hcmem)) ?_
                  intro he
                  cases hM₂c : M₂ with
                  | nil => rw [hM₂c] at hcmem; exact absurd hcmem (List.not_mem_nil c)
                  | cons y My =>
                      have h2 := hs2
                      rw [hM₂c] at h2
                      have hy : y = d := Seg_head h2
                      have hnd := hnodupM₂
                      rw [hM₂c, hy] at hnd
                      rw [hM₂c, List.tail_cons] at hc
                      exact (List.nodup_cons.1 hnd).1 (he ▸ hc)
                · intro hne
                  refine hprev_other h0 hh0t ?_
                  intro he
                  rcases hdM₂h0 with ⟨hm, _⟩ | ⟨_, hm⟩
                  · exact (hM₁M₂ h0 hh0M₁) (he.symm ▸ hm)
                  · exact hne hm
              have hfin : Seg s3 h0 h0 ((M₁.dropLast ++ [u]) ++ M₂) :=
                Seg_append hsegA4 hsegB3
              rw [hdecM₁] at hfin
              exact hfin



/-! ## Claim C4 -/


lemma sgntAux_all_none (s : SchedState) :
    ∀ fuel p, (∀ q, p ≤ q → q < p + fuel → s.getQueue q = none) →
      sgntAux s fuel p = (s.idle_task, s)
  | 0, p, _ => rfl
  | fuel + 1, p, hnone => by
      have hp : s.getQueue p = none := hnone p le_rfl (by omega)
      rw [sgntAux, hp]
      exact sgntAux_all_none s fuel (p + 1) (fun q h1 h2 => hnone q (by omega) (by omega))

lemma sgntAux_first (s : SchedState) (h : Nat) :
    ∀ fuel p q, p ≤ q → q < p + fuel → s.getQueue q = some h →
      (∀ r, p ≤ r → r < q → s.getQueue r = none) →
      sgntAux s fuel p = (some h, s.setQueue q ((s.getTask h).next))
  | 0, p, q, h1, h2, _, _ => absurd h2 (by omega)
  | fuel + 1, p, q, h1, h2, hq, hnone => by
      by_cases hpq : p = q
      · subst hpq
        rw [sgntAux, hq]
      · have hp : s.getQueue p = none := hnone p le_rfl (by omega)
        rw [sgntAux, hp]
        exact sgntAux_first s h fuel (p + 1) q (by omega) (by omega) hq
          (fun r hr1 hr2 => hnone r (by omega) hr2)

/-- Kernel initialised and two user tasks created at priority 1 (pool slots
1 and 2), before start: ready queue 1 holds the circle `[1, 2]`. -/
def twoTasksCreated : SchedState :=
  (task_create (task_create (rtos_init initialState) 1 1024).2 1 1024).2

/-- Kernel initialised with no user task, started: only the idle task
exists, it is Running, and every ready queue is empty. -/
def justIdleStarted : SchedState := rtos_start_step (rtos_init initialState)

/-- C4 counterexample: in the two-task state, `scheduler_get_next_task`
returns the head (slot 1) of queue 1 and advances the head to slot 2, but
the returned task is still linked in queue 1 (it is a member of the
returned state's queue-1 circle), contradicting the claim that select_next
dequeues it so that it is a member of no ready queue. -/
theorem C4_select_next_keeps_membership :
    (scheduler_get_next_task twoTasksCreated).1 = some 1 ∧
    (scheduler_get_next_task twoTasksCreated).2.getQueue 1 = some 2 ∧
    1 ∈ queueMembers (scheduler_get_next_task twoTasksCreated).2 1 := by
  refine ⟨by decide, by decide, by decide⟩

/-- C4 (amended): `scheduler_get_next_task` scans priorities from 0 upward;
with every queue empty it returns the idle task and changes nothing (and
dereferences nothing, so it cannot fault); on the first non-empty queue it
returns the head and only rotates that queue — the former second element
becomes the new head and the returned task remains a member (it is dequeued
later, by `context_switch`). -/
theorem C4_select_next_rotates (s : SchedState) (p h : Nat) (L : List Nat) :
    ((∀ q, q < PRIORITY_LEVELS → s.getQueue q = none) →
        scheduler_get_next_task s = (s.idle_task, s)) ∧
    (p < PRIORITY_LEVELS → s.getQueue p = some h →
     (∀ q, q < p → s.getQueue q = none) → QueueRep s p L →
        (scheduler_get_next_task s).1 = some h ∧
        QueueRep (scheduler_get_next_task s).2 p (L.tail ++ [h]) ∧
        (scheduler_get_next_task s).2.getQueue p = (s.getTask h).next) := by
  constructor
  · intro hnone
    exact sgntAux_all_none s PRIORITY_LEVELS 0 (fun q h1 h2 => hnone q (by omega))
  · intro hp hq hbefore hrep
    have heq := sgntAux_first s h PRIORITY_LEVELS 0 p (by omega) (by omega) hq
      (fun r h1 h2 => hbefore r h2)
    unfold scheduler_get_next_task
    rw [heq]
    refine ⟨rfl, ?_, ?_⟩
    · exact rotate_rep s p h L hq hrep
    · simp

/-- Closed witness for the amended C4: the all-empty part at the started
idle-only state, the rotation part at the two-task state with `L = [1, 2]`. -/
theorem C4_select_next_rotates_witness :
    ((∀ q, q < PRIORITY_LEVELS → justIdleStarted.getQueue q = none) ∧
     scheduler_get_next_task justIdleStarted
       = (justIdleStarted.idle_task, justIdleStarted)) ∧
    ((scheduler_get_next_task twoTasksCreated).1 = some 1 ∧
     QueueRep (scheduler_get_next_task twoTasksCreated).2 1 ([1, 2].tail ++ [1]) ∧
     (scheduler_get_next_task twoTasksCreated).2.getQueue 1
       = (twoTasksCreated.getTask 1).next) := by
  constructor
  · refine ⟨by decide, ?_⟩
    exact (C4_select_next_rotates justIdleStarted 0 0 []).1 (by decide)
  · refine (C4_select_next_rotates twoTasksCreated 1 1 [1, 2]).2
      (by decide) (by decide) (by decide) ?_
    unfold QueueRep
    refine ⟨by decide, ?_⟩
    exact Seg.cons (by decide) (by decide) (Seg.cons (by decide) (by decide) (Seg.nil 1))



/-! ## Claim C5 -/


lemma findFreeSlot_none_iff (s : SchedState) :
    findFreeSlot s = none ↔ ∀ i, i < MAX_TASKS → s.task_pool_used i = true := by
  unfold findFreeSlot
  rw [List.find?_eq_none]
  constructor
  · intro h i hi
    have := h i (List.mem_range.2 hi)
    simpa using this
  · intro h i hi
    simp [h i (List.mem_range.1 hi)]

lemma findFreeSlot_some (s : SchedState) (slot : Nat) (h : findFreeSlot s = some slot) :
    slot < MAX_TASKS ∧ s.task_pool_used slot = false := by
  unfold findFreeSlot at h
  refine ⟨List.mem_range.1 (List.mem_of_find?_eq_some h), ?_⟩
  have := List.find?_some h
  simpa using this

/-- C5: `task_create` returns 0 exactly when the priority is out of range,
the stack is larger than the per-task quantum, or no pool slot is free; on
failure the whole scheduler state is unchanged; on success it returns the
nonzero `next_task_id`, the new task (in the first free slot) is Ready with
the requested priority, it is appended at the tail of its priority's ready
queue, and `tasks_created` grows by one. -/
theorem C5_task_create_contract (s : SchedState) (priority stack_size : Nat)
    (L : List Nat)
    (hid : 0 < s.next_task_id) (hcr : s.stats.tasks_created + 1 < UINT32_MOD)
    (hrep : QueueRep s priority L) (hnodup : L.Nodup)
    (hused : ∀ j ∈ L, s.task_pool_used j = true) :
    ((task_create s priority stack_size).1 = 0 ↔
       (PRIORITY_LEVELS ≤ priority ∨ STACK_SIZE < stack_size ∨
        ∀ i, i < MAX_TASKS → s.task_pool_used i = true)) ∧
    ((task_create s priority stack_size).1 = 0 →
       (task_create s priority stack_size).2 = s) ∧
    (∀ slot, findFreeSlot s = some slot → priority < PRIORITY_LEVELS →
     stack_size ≤ STACK_SIZE →
       (task_create s priority stack_size).1 = s.next_task_id ∧
       ((task_create s priority stack_size).2.getTask slot).state = TaskState.ready ∧
       ((task_create s priority stack_size).2.getTask slot).priority = priority ∧
       ((task_create s priority stack_size).2.getTask slot).task_id = s.next_task_id ∧
       QueueRep (task_create s priority stack_size).2 priority (L ++ [slot]) ∧
       (task_create s priority stack_size).2.stats.tasks_created
         = s.stats.tasks_created + 1) := by
  refine ⟨?_, ?_, ?_⟩
  · -- failure iff
    unfold task_create
    by_cases h1 : PRIORITY_LEVELS ≤ priority
    · rw [if_pos h1]
      exact iff_of_true rfl (Or.inl h1)
    · rw [if_neg h1]
      by_cases h2 : STACK_SIZE < stack_size
      · rw [if_pos h2]
        exact iff_of_true rfl (Or.inr (Or.inl h2))
      · rw [if_neg h2]
        cases hslot : findFreeSlot s with
        | none =>
            exact iff_of_true rfl (Or.inr (Or.inr ((findFreeSlot_none_iff s).1 hslot)))
        | some slot =>
            unfold createInSlot
            constructor
            · intro h0
              exact absurd h0.symm (Nat.ne_of_lt hid)
            · intro hcases
              rcases hcases with hc | hc | hc
              · exact absurd hc h1
              · exact absurd hc h2
              · obtain ⟨hlt, hfree⟩ := findFreeSlot_some s slot hslot
                rw [hc slot hlt] at hfree
                exact Bool.noConfusion hfree
  · -- failure leaves the state unchanged
    unfold task_create
    by_cases h1 : PRIORITY_LEVELS ≤ priority
    · rw [if_pos h1]; intro; rfl
    · rw [if_neg h1]
      by_cases h2 : STACK_SIZE < stack_size
      · rw [if_pos h2]; intro; rfl
      · rw [if_neg h2]
        cases hslot : findFreeSlot s with
        | none => intro; rfl
        | some slot =>
            unfold createInSlot
            intro h0
            exact absurd h0.symm (Nat.ne_of_lt hid)
  · -- success path
    intro slot hslot hprio hstack
    obtain ⟨hlt, hfree⟩ := findFreeSlot_some s slot hslot
    have hslotL : slot ∉ L := fun hmem => by
      rw [hused slot hmem] at hfree
      exact Bool.noConfusion hfree
    unfold task_create
    rw [if_neg (by omega), if_neg (by omega), hslot]
    unfold createInSlot
    -- the intermediate state with the slot initialised
    set s2 := (markUsed s slot).updateTask slot
      (fun _ => initTCB s.next_task_id priority stack_size s.system_tick_count) with hs2
    have hprio2 : (s2.getTask slot).priority = priority := by
      simp [hs2, initTCB, SchedState.getTask, SchedState.updateTask, markUsed]
    have hrep2 : QueueRep s2 priority L := by
      refine QueueRep_congr_mem priority L hrep rfl ?_ ?_
      · intro j hj
        have hjs : j ≠ slot := fun he => hslotL (he ▸ hj)
        simp only [hs2, getTask_updateTask, if_neg hjs]
        rfl
      · intro j hj
        have hjs : j ≠ slot := fun he => hslotL (he ▸ hj)
        simp only [hs2, getTask_updateTask, if_neg hjs]
        rfl
    have hrep3 : QueueRep (add_task_to_ready_queue s2 slot)
        ((s2.getTask slot).priority) (L ++ [slot]) :=
      enqueue_rep s2 slot L (by rw [hprio2]; exact hrep2) hnodup hslotL
    rw [hprio2] at hrep3
    have hadd := add_coreFieldsEq s2 slot
    refine ⟨rfl, ?_, ?_, ?_, ?_, ?_⟩
    · -- state Ready
      have : ((add_task_to_ready_queue s2 slot).getTask slot).state = TaskState.ready := by
        have h2 : (s2.getTask slot).state = TaskState.ready := by
          simp [hs2, initTCB, SchedState.getTask, SchedState.updateTask, markUsed]
        unfold add_task_to_ready_queue enqueueAtPriority enqueueNonempty linkLastNext
          fixStateReady
        rw [if_neg (by rw [h2]; exact fun hc => hc rfl)]
        repeat' split
        all_goals simp only [getTask_updateTask, getTask_setQueue]
        all_goals repeat' split
        all_goals first | rfl | exact h2
      exact this
    · -- priority preserved by the enqueue
      have : ((add_task_to_ready_queue s2 slot).getTask slot).priority
          = (s2.getTask slot).priority := by
        unfold add_task_to_ready_queue enqueueAtPriority enqueueNonempty linkLastNext
          fixStateReady
        repeat' split
        all_goals simp only [getTask_updateTask, getTask_setQueue]
        all_goals repeat' split
        all_goals rfl
      rw [show ((bumpCreated (add_task_to_ready_queue s2 slot)).getTask slot).priority
            = ((add_task_to_ready_queue s2 slot).getTask slot).priority from rfl,
          this, hprio2]
    · -- task id preserved by the enqueue
      have : ((add_task_to_ready_queue s2 slot).getTask slot).task_id
          = (s2.getTask slot).task_id := by
        unfold add_task_to_ready_queue enqueueAtPriority enqueueNonempty linkLastNext
          fixStateReady
        repeat' split
        all_goals simp only [getTask_updateTask, getTask_setQueue]
        all_goals repeat' split
        all_goals rfl
      rw [show ((bumpCreated (add_task_to_ready_queue s2 slot)).getTask slot).task_id
            = ((add_task_to_ready_queue s2 slot).getTask slot).task_id from rfl, this]
      simp [hs2, initTCB, SchedState.getTask, SchedState.updateTask, markUsed]
    · -- the queue representation after bumpCreated
      exact QueueRep_of_links_eq priority (L ++ [slot]) hrep3 rfl
        (fun _ => rfl) (fun _ => rfl)
    · -- tasks_created counter
      have h1 : (add_task_to_ready_queue s2 slot).stats = s2.stats := core_stats hadd
      show ((bumpCreated (add_task_to_ready_queue s2 slot)).stats).tasks_created = _
      unfold bumpCreated
      simp only [h1]
      have h2 : s2.stats = s.stats := rfl
      rw [h2]
      exact Nat.mod_eq_of_lt hcr

/-- Closed witness for C5 at the post-init state (idle in slot 0; queue 1
empty, so `L = []`; first free slot is 1). -/
theorem C5_task_create_contract_witness :
    (0 < (rtos_init initialState).next_task_id ∧
     (rtos_init initialState).stats.tasks_created + 1 < UINT32_MOD ∧
     findFreeSlot (rtos_init initialState) = some 1) ∧
    ((task_create (rtos_init initialState) 1 512).1
        = (rtos_init initialState).next_task_id ∧
     ((task_create (rtos_init initialState) 1 512).2.getTask 1).state
        = TaskState.ready ∧
     ((task_create (rtos_init initialState) 1 512).2.getTask 1).priority = 1 ∧
     ((task_create (rtos_init initialState) 1 512).2.getTask 1).task_id
        = (rtos_init initialState).next_task_id ∧
     QueueRep (task_create (rtos_init initialState) 1 512).2 1 ([] ++ [1]) ∧
     (task_create (rtos_init initialState) 1 512).2.stats.tasks_created
        = (rtos_init initialState).stats.tasks_created + 1) := by
  refine ⟨⟨by decide, by decide, by decide⟩, ?_⟩
  refine (C5_task_create_contract (rtos_init initialState) 1 512 []
    (by decide) (by decide) ?_ (by decide) ?_).2.2 1 (by decide) (by decide) (by decide)
  · exact rfl
  · intro j hj
    exact absurd hj (List.not_mem_nil j)



/-! ## Isolation of a task: nothing in the scheduler state references it -/

/-- Task `i` is referenced by no pointer in the scheduler state: it is not
the idle task, heads no ready queue, and no task's `next` or `prev` link
points at it.  A blocked task that was switched away from is isolated. -/
def isolatedTask (s : SchedState) (i : Nat) : Prop :=
  s.idle_task ≠ some i ∧
  (∀ p, s.getQueue p ≠ some i) ∧
  (∀ j, (s.getTask j).next ≠ some i ∧ (s.getTask j).prev ≠ some i)

lemma isolated_updateTask (s : SchedState) (i w : Nat) (f : TCB → TCB)
    (hiso : isolatedTask s i)
    (hn : ∀ tc, (f tc).next = tc.next ∨ (f tc).next ≠ some i)
    (hp : ∀ tc, (f tc).prev = tc.prev ∨ (f tc).prev ≠ some i) :
    isolatedTask (s.updateTask w f) i := by
  obtain ⟨h1, h2, h3⟩ := hiso
  refine ⟨h1, h2, ?_⟩
  intro j
  simp only [getTask_updateTask]
  split
  · constructor
    · rcases hn (s.getTask j) with h | h
      · rw [h]; exact (h3 j).1
      · exact h
    · rcases hp (s.getTask j) with h | h
      · rw [h]; exact (h3 j).2
      · exact h
  · exact h3 j

lemma isolated_setQueue (s : SchedState) (i p : Nat) (v : Option Nat)
    (hiso : isolatedTask s i) (hv : v ≠ some i) :
    isolatedTask (s.setQueue p v) i := by
  obtain ⟨h1, h2, h3⟩ := hiso
  refine ⟨h1, ?_, h3⟩
  intro q
  simp only [getQueue_setQueue]
  split
  · exact hv
  · exact h2 q

lemma getTask_updateTask_ne (s : SchedState) (w : Nat) (f : TCB → TCB) (i : Nat)
    (h : i ≠ w) : (s.updateTask w f).getTask i = s.getTask i := by
  simp only [getTask_updateTask, if_neg h]

lemma add_isolated (s : SchedState) (i t : Nat) (hiso : isolatedTask s i)
    (hti : t ≠ i) :
    isolatedTask (add_task_to_ready_queue s t) i ∧
    (add_task_to_ready_queue s t).getTask i = s.getTask i := by
  have hit : i ≠ t := Ne.symm hti
  -- the state-fix step
  have hiso0 : isolatedTask (fixStateReady s t) i := by
    unfold fixStateReady
    split
    · exact isolated_updateTask s i t _ hiso (fun tc => Or.inl rfl) (fun tc => Or.inl rfl)
    · exact hiso
  have hget0 : (fixStateReady s t).getTask i = s.getTask i :=
    fixStateReady_getTask_ne s t i hit
  unfold add_task_to_ready_queue enqueueAtPriority
  split
  case _ heq =>
      constructor
      · refine isolated_updateTask _ i t _ ?_ ?_ ?_
        · exact isolated_setQueue _ i _ _ hiso0 (fun hc => hti (Option.some_inj.1 hc))
        · intro tc; exact Or.inr (fun hc => hti (Option.some_inj.1 hc))
        · intro tc; exact Or.inr (fun hc => hti (Option.some_inj.1 hc))
      · rw [getTask_updateTask_ne _ _ _ _ hit]
        exact hget0
  case _ h heq =>
      have hhi : h ≠ i := fun he =>
        (hiso0.2.1 ((fixStateReady s t).getTask t).priority) (he ▸ heq)
      have hlast_ne : ((fixStateReady s t).getTask h).prev ≠ some i := (hiso0.2.2 h).2
      unfold enqueueNonempty linkLastNext
      constructor
      · refine isolated_updateTask _ i h _ ?_ (fun tc => Or.inl rfl)
          (fun tc => Or.inr (fun hc => hti (Option.some_inj.1 hc)))
        split
        case _ l hl =>
            have hli : l ≠ i := fun he => hlast_ne (hl ▸ he ▸ rfl)
            refine isolated_updateTask _ i l _ ?_
              (fun tc => Or.inr (fun hc => hti (Option.some_inj.1 hc)))
              (fun tc => Or.inl rfl)
            exact isolated_updateTask _ i t _ hiso0
              (fun tc => Or.inr (fun hc => hhi (Option.some_inj.1 hc)))
              (fun tc => Or.inr hlast_ne)
        case _ hl =>
            exact isolated_updateTask _ i t _ hiso0
              (fun tc => Or.inr (fun hc => hhi (Option.some_inj.1 hc)))
              (fun tc => Or.inr hlast_ne)
      · rw [getTask_updateTask_ne _ _ _ _ (Ne.symm hhi)]
        split
        case _ l hl =>
            have hli : i ≠ l := fun he => hlast_ne (hl ▸ he ▸ rfl)
            rw [getTask_updateTask_ne _ _ _ _ hli,
                getTask_updateTask_ne _ _ _ _ hit]
            exact hget0
        case _ hl =>
            rw [getTask_updateTask_ne _ _ _ _ hit]
            exact hget0

lemma isolated_setNextOf (s : SchedState) (i : Nat) (p v : Option Nat)
    (hiso : isolatedTask s i) (hp : p ≠ some i) (hv : v ≠ some i) :
    isolatedTask (setNextOf s p v) i ∧ (setNextOf s p v).getTask i = s.getTask i := by
  unfold setNextOf
  split
  case _ l =>
      have hli : i ≠ l := fun he => hp (he ▸ rfl)
      constructor
      · exact isolated_updateTask s i l _ hiso (fun tc => Or.inr hv) (fun tc => Or.inl rfl)
      · exact getTask_updateTask_ne s l _ i hli
  case _ => exact ⟨hiso, rfl⟩

lemma isolated_setPrevOf (s : SchedState) (i : Nat) (p v : Option Nat)
    (hiso : isolatedTask s i) (hp : p ≠ some i) (hv : v ≠ some i) :
    isolatedTask (setPrevOf s p v) i ∧ (setPrevOf s p v).getTask i = s.getTask i := by
  unfold setPrevOf
  split
  case _ l =>
      have hli : i ≠ l := fun he => hp (he ▸ rfl)
      constructor
      · exact isolated_updateTask s i l _ hiso (fun tc => Or.inl rfl) (fun tc => Or.inr hv)
      · exact getTask_updateTask_ne s l _ i hli
  case _ => exact ⟨hiso, rfl⟩

lemma remove_isolated (s : SchedState) (i t : Nat) (hiso : isolatedTask s i)
    (hti : t ≠ i) :
    isolatedTask (remove_task_from_ready_queue s t) i ∧
    (remove_task_from_ready_queue s t).getTask i = s.getTask i := by
  have hit : i ≠ t := Ne.symm hti
  have hnext_ne : (s.getTask t).next ≠ some i := (hiso.2.2 t).1
  have hprev_ne : (s.getTask t).prev ≠ some i := (hiso.2.2 t).2
  unfold remove_task_from_ready_queue clearLinks removeDispatch removeUnlink
  split
  case _ => exact ⟨hiso, rfl⟩
  case _ h0 heq =>
      split
      case _ hself =>
          constructor
          · refine isolated_updateTask _ i t _ ?_ (fun tc => Or.inr (by simp))
              (fun tc => Or.inr (by simp))
            exact isolated_setQueue s i _ none hiso (by simp)
          · rw [getTask_updateTask_ne _ _ _ _ hit]; rfl
      case _ hnself =>
          obtain ⟨hiso1, hget1⟩ := isolated_setNextOf s i
            ((s.getTask t).prev) ((s.getTask t).next) hiso hprev_ne hnext_ne
          obtain ⟨hiso2, hget2⟩ := isolated_setPrevOf _ i
            ((s.getTask t).next) ((s.getTask t).prev) hiso1 hnext_ne hprev_ne
          split
          case _ hcond =>
              constructor
              · refine isolated_updateTask _ i t _ ?_ (fun tc => Or.inr (by simp))
                  (fun tc => Or.inr (by simp))
                exact isolated_setQueue _ i _ _ hiso2 hnext_ne
              · rw [getTask_updateTask_ne _ _ _ _ hit]
                show (SchedState.setQueue _ _ _).getTask i = _
                rw [getTask_setQueue, hget2, hget1]
          case _ hcond =>
              constructor
              · refine isolated_updateTask _ i t _ ?_ (fun tc => Or.inr (by simp))
                  (fun tc => Or.inr (by simp))
                exact hiso2
              · rw [getTask_updateTask_ne _ _ _ _ hit, hget2, hget1]

lemma sgnt_isolated (s : SchedState) (i : Nat) (hiso : isolatedTask s i) :
    (scheduler_get_next_task s).1 ≠ some i ∧
    isolatedTask (scheduler_get_next_task s).2 i := by
  rcases scheduler_get_next_task_cases s with h | ⟨q, hd, hq, h⟩
  · rw [h]; exact ⟨hiso.1, hiso⟩
  · rw [h]
    refine ⟨fun hc => (hiso.2.1 q) (by rw [hq]; exact hc), ?_⟩
    exact isolated_setQueue s i q _ hiso (hiso.2.2 hd).1


lemma switchOutFrom_isolated (s : SchedState) (i c : Nat) (hiso : isolatedTask s i)
    (hci : c ≠ i) :
    isolatedTask (switchOutFrom s (some c)) i ∧
    (switchOutFrom s (some c)).getTask i = s.getTask i := by
  have hic : i ≠ c := Ne.symm hci
  have hstep : switchOutFrom s (some c)
      = switchOutReenqueue (switchOutRuntime
          (s.updateTask c fun tc => { tc with last_run_time := s.system_tick_count }) c) c :=
    rfl
  rw [hstep]
  unfold switchOutRuntime
  have hiso1 : isolatedTask
      (s.updateTask c fun tc => { tc with last_run_time := s.system_tick_count }) i :=
    isolated_updateTask s i c _ hiso (fun tc => Or.inl rfl) (fun tc => Or.inl rfl)
  have hget1 : (s.updateTask c fun tc =>
      { tc with last_run_time := s.system_tick_count }).getTask i = s.getTask i :=
    getTask_updateTask_ne s c _ i hic
  split
  case _ hrun =>
    have hiso2 := isolated_updateTask _ i c
      (fun tc => { tc with total_runtime := (tc.total_runtime + 1) % UINT32_MOD })
      hiso1 (fun tc => Or.inl rfl) (fun tc => Or.inl rfl)
    have hget2 := getTask_updateTask_ne
      (s.updateTask c fun tc => { tc with last_run_time := s.system_tick_count }) c
      (fun tc => { tc with total_runtime := (tc.total_runtime + 1) % UINT32_MOD }) i hic
    unfold switchOutReenqueue
    split
    case _ hrun2 =>
      have hiso3 := isolated_updateTask _ i c
        (fun tc => { tc with state := TaskState.ready }) hiso2
        (fun tc => Or.inl rfl) (fun tc => Or.inl rfl)
      obtain ⟨hiso4, hget4⟩ := add_isolated _ i c hiso3 hci
      refine ⟨hiso4, ?_⟩
      rw [hget4, getTask_updateTask_ne _ _ _ _ hic, hget2, hget1]
    case _ hrun2 =>
      exact ⟨hiso2, by rw [hget2, hget1]⟩
  case _ hrun =>
    unfold switchOutReenqueue
    rw [if_neg hrun]
    exact ⟨hiso1, hget1⟩

lemma switchInTo_isolated (s : SchedState) (i : Nat) (nxt : Option Nat)
    (hiso : isolatedTask s i) (hni : nxt ≠ some i) :
    isolatedTask (switchInTo s nxt) i ∧
    (switchInTo s nxt).getTask i = s.getTask i ∧
    (switchInTo s nxt).current_task = nxt ∨
      (nxt = none ∧ switchInTo s nxt = s) := by
  unfold switchInTo
  split
  case _ => exact Or.inr ⟨rfl, rfl⟩
  case _ n =>
      have hnine : n ≠ i := fun he => hni (he ▸ rfl)
      have hin : i ≠ n := Ne.symm hnine
      have hisoc : isolatedTask ({ s with current_task := some n } : SchedState) i :=
        ⟨hiso.1, hiso.2.1, hiso.2.2⟩
      have hiso1 := isolated_updateTask ({ s with current_task := some n }) i n
        (fun tc => { tc with state := TaskState.running,
                             time_slice_remaining := TIME_SLICE_MS })
        hisoc (fun tc => Or.inl rfl) (fun tc => Or.inl rfl)
      obtain ⟨hiso2, hget2⟩ := remove_isolated _ i n hiso1 hnine
      refine Or.inl ⟨hiso2, ?_, ?_⟩
      · rw [hget2, getTask_updateTask_ne _ _ _ _ hin]
        rfl
      · obtain ⟨a, -, -, -, -, -, -⟩ := remove_coreFieldsEq
          (({ s with current_task := some n }).updateTask n
            (fun tc => { tc with state := TaskState.running,
                                 time_slice_remaining := TIME_SLICE_MS })) n
        rw [a]
        rfl

lemma context_switch_isolated (s : SchedState) (i c : Nat) (nxt : Option Nat)
    (hiso : isolatedTask s i) (hci : c ≠ i) (hni : nxt ≠ some i)
    (hcur : s.current_task ≠ some i) :
    isolatedTask (context_switch s (some c) nxt) i ∧
    (context_switch s (some c) nxt).getTask i = s.getTask i ∧
    (context_switch s (some c) nxt).current_task ≠ some i := by
  unfold context_switch
  split
  case _ => exact ⟨hiso, rfl, hcur⟩
  case _ hne =>
      have hisob : isolatedTask (bumpSwitchCount s) i := ⟨hiso.1, hiso.2.1, hiso.2.2⟩
      obtain ⟨hiso1, hget1⟩ := switchOutFrom_isolated (bumpSwitchCount s) i c hisob hci
      rcases switchInTo_isolated _ i nxt hiso1 hni with ⟨hiso2, hget2, hcur2⟩ | ⟨hn0, hid⟩
      · refine ⟨hiso2, ?_, ?_⟩
        · rw [hget2, hget1]; rfl
        · rw [hcur2]; exact hni
      · rw [hid]
        refine ⟨hiso1, by rw [hget1]; rfl, ?_⟩
        have := core_current (switchOutFrom_coreFieldsEq (bumpSwitchCount s) (some c))
        rw [this]
        exact hcur

/-! ### Field-preservation lemmas for `state` and `wake_time` -/

lemma wake_add (s : SchedState) (t j : Nat) :
    ((add_task_to_ready_queue s t).getTask j).wake_time = (s.getTask j).wake_time := by
  unfold add_task_to_ready_queue enqueueAtPriority enqueueNonempty linkLastNext fixStateReady
  repeat' split
  all_goals
    simp only [getTask_updateTask, getTask_setQueue]
    repeat' split
  all_goals rfl

lemma state_add_ne (s : SchedState) (t j : Nat) (h : j ≠ t) :
    ((add_task_to_ready_queue s t).getTask j).state = (s.getTask j).state := by
  unfold add_task_to_ready_queue enqueueAtPriority enqueueNonempty linkLastNext fixStateReady
  repeat' split
  all_goals
    simp only [getTask_updateTask, getTask_setQueue, if_neg h]
    repeat' split
  all_goals rfl

lemma wake_remove (s : SchedState) (t j : Nat) :
    ((remove_task_from_ready_queue s t).getTask j).wake_time
      = (s.getTask j).wake_time := by
  unfold remove_task_from_ready_queue clearLinks removeDispatch removeUnlink setNextOf setPrevOf
  repeat' split
  all_goals
    simp only [getTask_updateTask, getTask_setQueue]
    repeat' split
  all_goals rfl

lemma state_remove (s : SchedState) (t j : Nat) :
    ((remove_task_from_ready_queue s t).getTask j).state = (s.getTask j).state := by
  unfold remove_task_from_ready_queue clearLinks removeDispatch removeUnlink setNextOf setPrevOf
  repeat' split
  all_goals
    simp only [getTask_updateTask, getTask_setQueue]
    repeat' split
  all_goals rfl

lemma state_wake_one_ne (s : SchedState) (x j : Nat) (h : j ≠ x) :
    ((wake_one s x).getTask j).state = (s.getTask j).state ∧
    ((wake_one s x).getTask j).wake_time = (s.getTask j).wake_time := by
  unfold wake_one
  repeat' split
  · constructor
    · rw [state_add_ne _ _ _ h, getTask_updateTask_ne _ _ _ _ h]
    · rw [wake_add, getTask_updateTask_ne _ _ _ _ h]
  · exact ⟨rfl, rfl⟩
  · exact ⟨rfl, rfl⟩


lemma foldl_pres_mem {α : Type} {P : SchedState → Prop} {f : SchedState → α → SchedState} :
    ∀ (l : List α), (∀ s x, x ∈ l → P s → P (f s x)) → ∀ s, P s → P (l.foldl f s)
  | [], _, _, h => h
  | x :: xs, hf, s, h =>
      foldl_pres_mem xs (fun u y hy => hf u y (List.mem_cons_of_mem _ hy)) _
        (hf s x (List.mem_cons_self _ _) h)

lemma wake_one_isolated_ne (s : SchedState) (i x : Nat) (hiso : isolatedTask s i)
    (hxi : x ≠ i) :
    isolatedTask (wake_one s x) i ∧ (wake_one s x).getTask i = s.getTask i := by
  have hix : i ≠ x := Ne.symm hxi
  unfold wake_one
  split
  · split
    · obtain ⟨h1, h2⟩ := add_isolated
        (s.updateTask x fun tc => { tc with wake_time := 0, state := TaskState.ready })
        i x
        (isolated_updateTask s i x _ hiso (fun tc => Or.inl rfl) (fun tc => Or.inl rfl))
        hxi
      exact ⟨h1, by rw [h2, getTask_updateTask_ne _ _ _ _ hix]⟩
    · exact ⟨hiso, rfl⟩
  · exact ⟨hiso, rfl⟩

lemma wake_one_skip (s : SchedState) (i : Nat)
    (hlt : s.system_tick_count < (s.getTask i).wake_time) :
    wake_one s i = s := by
  unfold wake_one
  split
  · split
    · rename_i hco
      exact absurd hco.2.2 (by omega)
    · rfl
  · rfl

/-- While a blocked task's wake time is still in the future, a full wake
sweep leaves the task and its isolation intact. -/
lemma wake_sweep_keeps (s : SchedState) (i : Nat) (hiso : isolatedTask s i)
    (hlt : s.system_tick_count < (s.getTask i).wake_time) :
    isolatedTask (wake_sleeping_tasks s) i ∧
    (wake_sleeping_tasks s).getTask i = s.getTask i := by
  unfold wake_sleeping_tasks
  have hres := foldl_pres_mem (P := fun u => isolatedTask u i ∧
      u.getTask i = s.getTask i ∧ u.system_tick_count = s.system_tick_count)
    (f := wake_one) (List.range MAX_TASKS)
    (fun u x _ hu => by
      by_cases hxi : x = i
      · subst hxi
        rw [wake_one_skip u x (by rw [hu.2.1, hu.2.2]; exact hlt)]
        exact hu
      · obtain ⟨h1, h2⟩ := wake_one_isolated_ne u i x hu.1 hxi
        exact ⟨h1, by rw [h2]; exact hu.2.1,
          by rw [core_system_tick (wake_one_coreFieldsEq u x)]; exact hu.2.2⟩)
    s ⟨hiso, rfl, rfl⟩
  exact ⟨hres.1, hres.2.1⟩

lemma state_add_self (s : SchedState) (t : Nat) :
    ((add_task_to_ready_queue s t).getTask t).state = TaskState.ready := by
  have h0 : ((fixStateReady s t).getTask t).state = TaskState.ready := by
    unfold fixStateReady
    split
    · simp
    · rename_i h
      exact not_not.1 (by simpa using h)
  unfold add_task_to_ready_queue enqueueAtPriority enqueueNonempty linkLastNext
  repeat' split
  all_goals simp only [getTask_updateTask, getTask_setQueue]
  all_goals repeat' split
  all_goals exact h0

/-- A due sleeper is woken by the sweep: state becomes Ready, wake time is
cleared. -/
lemma wake_sweep_fires (s : SchedState) (i : Nat) (hi : i < MAX_TASKS)
    (hused : s.task_pool_used i = true)
    (hblocked : (s.getTask i).state = TaskState.blocked)
    (hwpos : 0 < (s.getTask i).wake_time)
    (hge : (s.getTask i).wake_time ≤ s.system_tick_count)
    (hiso : isolatedTask s i) :
    ((wake_sleeping_tasks s).getTask i).state = TaskState.ready ∧
    ((wake_sleeping_tasks s).getTask i).wake_time = 0 := by
  unfold wake_sleeping_tasks
  have hdec : MAX_TASKS = i + (MAX_TASKS - i - 1 + 1) := by omega
  rw [hdec, List.range_add, List.foldl_append, List.range_succ_eq_map]
  -- phase 1: the slots before i leave the sleeper and its isolation intact
  have hph1 := foldl_pres_mem (P := fun u => isolatedTask u i ∧
      u.getTask i = s.getTask i ∧ u.system_tick_count = s.system_tick_count ∧
      u.task_pool_used i = true)
    (f := wake_one) (List.range i)
    (fun u x hx hu => by
      have hxi : x ≠ i := by
        have := List.mem_range.1 hx
        omega
      obtain ⟨h1, h2⟩ := wake_one_isolated_ne u i x hu.1 hxi
      refine ⟨h1, by rw [h2]; exact hu.2.1, ?_, ?_⟩
      · rw [core_system_tick (wake_one_coreFieldsEq u x)]; exact hu.2.2.1
      · have := (wake_one_coreFieldsEq u x).2.2.2.2.2.2
        rw [this]; exact hu.2.2.2)
    s ⟨hiso, rfl, rfl, hused⟩
  set u1 := (List.range i).foldl wake_one s with hu1
  obtain ⟨hiso1, hget1, hcnt1, hused1⟩ := hph1
  -- the slot i itself fires
  simp only [List.map_cons, List.foldl_cons]
  have hfire : wake_one u1 (i + 0) =
      add_task_to_ready_queue
        (u1.updateTask i (fun tc => { tc with wake_time := 0,
                                              state := TaskState.ready })) i := by
    show wake_one u1 i = _
    unfold wake_one
    rw [if_pos (by rw [hused1])]
    rw [if_pos ?_]
    rw [hget1, hcnt1]
    exact ⟨hblocked, hwpos, hge⟩
  rw [hfire]
  set u2 := add_task_to_ready_queue
    (u1.updateTask i (fun tc => { tc with wake_time := 0,
                                          state := TaskState.ready })) i with hu2
  have hst2 : (u2.getTask i).state = TaskState.ready := state_add_self _ i
  have hwk2 : (u2.getTask i).wake_time = 0 := by
    rw [hu2, wake_add]
    simp
  -- phase 3: the slots after i never touch task i's state or wake time
  have hph3 := foldl_pres_mem (P := fun u => (u.getTask i).state = TaskState.ready ∧
      (u.getTask i).wake_time = 0)
    (f := wake_one) ((List.range (MAX_TASKS - i - 1)).map (fun x => i + Nat.succ x))
    (fun u x hx hu => by
      obtain ⟨y, _, rfl⟩ := List.mem_map.1 hx
      have hxi : i ≠ i + Nat.succ y := by omega
      obtain ⟨h1, h2⟩ := state_wake_one_ne u (i + Nat.succ y) i hxi
      exact ⟨by rw [h1]; exact hu.1, by rw [h2]; exact hu.2⟩)
    u2 ⟨hst2, hwk2⟩
  have hlist : (List.map (fun x => i + x) (List.map Nat.succ
      (List.range (MAX_TASKS - i - 1))))
      = (List.range (MAX_TASKS - i - 1)).map (fun x => i + Nat.succ x) := by
    rw [List.map_map]
    rfl
  rw [hlist]
  exact hph3


lemma tickDecrementSlice_isolated (s : SchedState) (i c : Nat)
    (hiso : isolatedTask s i) (hci : c ≠ i) :
    isolatedTask (tickDecrementSlice s c) i ∧
    (tickDecrementSlice s c).getTask i = s.getTask i := by
  unfold tickDecrementSlice
  split
  · exact ⟨isolated_updateTask s i c _ hiso (fun tc => Or.inl rfl) (fun tc => Or.inl rfl),
      getTask_updateTask_ne _ _ _ _ (Ne.symm hci)⟩
  · exact ⟨hiso, rfl⟩

lemma sgnt_next_some (s : SchedState) (d : Nat) (hidle : s.idle_task = some d) :
    ∃ m, (scheduler_get_next_task s).1 = some m := by
  rcases scheduler_get_next_task_cases s with h | ⟨q, hd, _, h⟩
  · exact ⟨d, by rw [h]; exact hidle⟩
  · exact ⟨hd, by rw [h]⟩

lemma switchInTo_current_some (s : SchedState) (m : Nat) :
    (switchInTo s (some m)).current_task = some m := by
  show (remove_task_from_ready_queue _ m).current_task = some m
  rw [core_current (remove_coreFieldsEq _ m)]
  rfl

lemma context_switch_current_some (s : SchedState) (c m : Nat)
    (h : (some c : Option Nat) ≠ some m) :
    (context_switch s (some c) (some m)).current_task = some m := by
  unfold context_switch
  rw [if_neg h]
  exact switchInTo_current_some _ m

/-- Switching out a task that is already Blocked only records its last-run
tick: neither the runtime credit nor the re-enqueue of lines 289-298 fires. -/
lemma switchOutFrom_blocked (s : SchedState) (i : Nat)
    (hst : (s.getTask i).state = TaskState.blocked) :
    switchOutFrom s (some i)
      = s.updateTask i (fun t => { t with last_run_time := s.system_tick_count }) := by
  show switchOutReenqueue (switchOutRuntime
    (s.updateTask i (fun t => { t with last_run_time := s.system_tick_count })) i) i = _
  unfold switchOutRuntime
  rw [if_neg (by simp [hst])]
  unfold switchOutReenqueue
  rw [if_neg (by simp [hst])]

/-- The waiting invariant for a blocked sleeper `i` with wake tick `w`:
the scheduler is live with a current task other than `i`, nothing in the
kernel references `i`, and `i` sits Blocked in its used pool slot with
`wake_time = w`. -/
def sleepWaitInv (s : SchedState) (i w : Nat) : Prop :=
  s.scheduler_running = true ∧
  (∃ d, s.idle_task = some d) ∧
  (∃ c, s.current_task = some c) ∧
  s.current_task ≠ some i ∧
  isolatedTask s i ∧
  s.task_pool_used i = true ∧
  (s.getTask i).state = TaskState.blocked ∧
  (s.getTask i).wake_time = w


/-- One tick with the sleeper's wake tick still in the future preserves the
waiting invariant and advances the tick counter by exactly one. -/
lemma tick_sleepWaitInv (s : SchedState) (i w : Nat) (hinv : sleepWaitInv s i w)
    (hlt : s.system_tick_count + 1 < w) (hw : w < UINT32_MOD) :
    sleepWaitInv (scheduler_tick s) i w ∧
    (scheduler_tick s).system_tick_count = s.system_tick_count + 1 := by
  obtain ⟨hrun, ⟨d, hidle⟩, ⟨c, hc⟩, hci, hiso, hused, hstate, hwake⟩ := hinv
  have hcnt1 : (tickAdvanceCounters s).system_tick_count = s.system_tick_count + 1 :=
    Nat.mod_eq_of_lt (by omega)
  have hcount : (scheduler_tick s).system_tick_count = s.system_tick_count + 1 := by
    show (tickBody (tickAdvanceCounters s)).system_tick_count = _
    rw [(tickBody_counters _).1, hcnt1]
  refine ⟨?_, hcount⟩
  have hcine : c ≠ i := fun he => hci (by rw [← he]; exact hc)
  have hb : scheduler_tick s
      = tickReschedule (wake_sleeping_tasks
          (tickDecrementSlice (tickAdvanceCounters s) c)) c := by
    unfold scheduler_tick tickBody
    rw [show (tickAdvanceCounters s).scheduler_running = true from hrun,
        show (tickAdvanceCounters s).current_task = some c from hc]
    simp
  rw [hb]
  have hiso1 : isolatedTask (tickAdvanceCounters s) i := ⟨hiso.1, hiso.2.1, hiso.2.2⟩
  obtain ⟨hiso2, hget2⟩ :=
    tickDecrementSlice_isolated (tickAdvanceCounters s) i c hiso1 hcine
  obtain ⟨hiso3, hget3s⟩ :=
    wake_sweep_keeps (tickDecrementSlice (tickAdvanceCounters s) c) i hiso2
      (by
        rw [core_system_tick (tickDecrementSlice_coreFieldsEq (tickAdvanceCounters s) c),
            hcnt1, hget2]
        show s.system_tick_count + 1 < (s.getTask i).wake_time
        rw [hwake]
        exact hlt)
  have hget3 : (wake_sleeping_tasks
      (tickDecrementSlice (tickAdvanceCounters s) c)).getTask i = s.getTask i := by
    rw [hget3s, hget2]
    rfl
  have hp13 := tickPrep_coreFieldsEq (tickAdvanceCounters s) c
  have hrun3 : (wake_sleeping_tasks
      (tickDecrementSlice (tickAdvanceCounters s) c)).scheduler_running = true := by
    rw [core_running hp13]; exact hrun
  have hidle3 : (wake_sleeping_tasks
      (tickDecrementSlice (tickAdvanceCounters s) c)).idle_task = some d := by
    rw [hp13.2.1]; exact hidle
  have hcur3 : (wake_sleeping_tasks
      (tickDecrementSlice (tickAdvanceCounters s) c)).current_task = some c := by
    rw [core_current hp13]; exact hc
  have hused3 : (wake_sleeping_tasks
      (tickDecrementSlice (tickAdvanceCounters s) c)).task_pool_used i = true := by
    rw [hp13.2.2.2.2.2.2]; exact hused
  unfold tickReschedule
  split
  · obtain ⟨hr1, hisoR⟩ := sgnt_isolated _ i hiso3
    have hgetR : ((scheduler_get_next_task (wake_sleeping_tasks
        (tickDecrementSlice (tickAdvanceCounters s) c))).2).getTask i = s.getTask i := by
      rw [sgnt_getTask]; exact hget3
    have hcR := sgnt_coreFieldsEq (wake_sleeping_tasks
      (tickDecrementSlice (tickAdvanceCounters s) c))
    have hcurR : ((scheduler_get_next_task (wake_sleeping_tasks
        (tickDecrementSlice (tickAdvanceCounters s) c))).2).current_task = some c := by
      rw [core_current hcR]; exact hcur3
    have hcurRne : ((scheduler_get_next_task (wake_sleeping_tasks
        (tickDecrementSlice (tickAdvanceCounters s) c))).2).current_task ≠ some i := by
      rw [hcurR]; exact fun he => hcine (Option.some.inj he)
    obtain ⟨m, hm⟩ := sgnt_next_some _ d hidle3
    obtain ⟨hisoF, hgetF, hcurF⟩ :=
      context_switch_isolated _ i c _ hisoR hcine hr1 hcurRne
    have hfr := context_switch_frame
      ((scheduler_get_next_task (wake_sleeping_tasks
        (tickDecrementSlice (tickAdvanceCounters s) c))).2) (some c)
      ((scheduler_get_next_task (wake_sleeping_tasks
        (tickDecrementSlice (tickAdvanceCounters s) c))).1)
    refine ⟨?_, ⟨d, ?_⟩, ?_, hcurF, hisoF, ?_, ?_, ?_⟩
    · rw [hfr.2.1, core_running hcR]; exact hrun3
    · rw [hfr.2.2.1, hcR.2.1]; exact hidle3
    · rw [hm]
      by_cases hcm : (some c : Option Nat) = some m
      · refine ⟨c, ?_⟩
        unfold context_switch
        rw [if_pos hcm]
        exact hcurR
      · exact ⟨m, context_switch_current_some _ c m hcm⟩
    · rw [hfr.2.2.2.1, hcR.2.2.2.2.2.2]; exact hused3
    · rw [hgetF, hgetR]; exact hstate
    · rw [hgetF, hgetR]; exact hwake
  · exact ⟨hrun3, ⟨d, hidle3⟩, ⟨c, hcur3⟩,
      by rw [hcur3]; exact fun he => hcine (Option.some.inj he),
      hiso3, hused3, by rw [hget3]; exact hstate, by rw [hget3]; exact hwake⟩


/-- `task_sleep` from a live state whose current task `i` is referenced
nowhere else: the call blocks `i` with wake tick `now + ms`, switches away
from it, and establishes the waiting invariant without advancing the tick
counter. -/
lemma task_sleep_blocks (s : SchedState) (i ms d : Nat)
    (hrun : s.scheduler_running = true) (hc : s.current_task = some i)
    (hiso : isolatedTask s i) (hused : s.task_pool_used i = true)
    (hidle : s.idle_task = some d)
    (hwrap : s.system_tick_count + ms < UINT32_MOD) :
    sleepWaitInv (task_sleep s ms) i (s.system_tick_count + ms) ∧
    (task_sleep s ms).system_tick_count = s.system_tick_count := by
  have hb : task_sleep s ms = selectAndSwitch (sleepBlockCurrent s i ms) i := by
    unfold task_sleep
    rw [hrun, hc]
    simp
  rw [hb]
  -- the blocked current task after line 463-464
  have hmod : (s.system_tick_count + ms) % UINT32_MOD = s.system_tick_count + ms :=
    Nat.mod_eq_of_lt hwrap
  have hgetB : (sleepBlockCurrent s i ms).getTask i
      = { s.getTask i with wake_time := s.system_tick_count + ms,
                           state := TaskState.blocked } := by
    unfold sleepBlockCurrent
    simp [hmod]
  have hisoB : isolatedTask (sleepBlockCurrent s i ms) i :=
    isolated_updateTask s i i _ hiso (fun tc => Or.inl rfl) (fun tc => Or.inl rfl)
  -- select the next task
  obtain ⟨hr1, hisoR⟩ := sgnt_isolated (sleepBlockCurrent s i ms) i hisoB
  have hcR := sgnt_coreFieldsEq (sleepBlockCurrent s i ms)
  have hgetR : ((scheduler_get_next_task (sleepBlockCurrent s i ms)).2).getTask i
      = (sleepBlockCurrent s i ms).getTask i := sgnt_getTask _ i
  obtain ⟨m, hm⟩ := sgnt_next_some (sleepBlockCurrent s i ms) d hidle
  have hmi : m ≠ i := fun he => hr1 (by rw [hm, he])
  unfold selectAndSwitch
  rw [hm]
  -- the context switch away from the blocked task
  have hne : (some i : Option Nat) ≠ some m := fun he => hmi (Option.some.inj he).symm
  have hcs : context_switch ((scheduler_get_next_task (sleepBlockCurrent s i ms)).2)
        (some i) (some m)
      = switchInTo (switchOutFrom
          (bumpSwitchCount ((scheduler_get_next_task (sleepBlockCurrent s i ms)).2))
          (some i)) (some m) := by
    unfold context_switch
    rw [if_neg hne]
  rw [hcs]
  have hisoBp : isolatedTask
      (bumpSwitchCount ((scheduler_get_next_task (sleepBlockCurrent s i ms)).2)) i :=
    ⟨hisoR.1, hisoR.2.1, hisoR.2.2⟩
  have hstB : ((bumpSwitchCount
      ((scheduler_get_next_task (sleepBlockCurrent s i ms)).2)).getTask i).state
      = TaskState.blocked := by
    show (((scheduler_get_next_task (sleepBlockCurrent s i ms)).2).getTask i).state = _
    rw [hgetR, hgetB]
  rw [switchOutFrom_blocked _ i hstB]
  have hisoO : isolatedTask
      ((bumpSwitchCount ((scheduler_get_next_task (sleepBlockCurrent s i ms)).2)).updateTask
        i (fun t => { t with last_run_time :=
          (bumpSwitchCount
            ((scheduler_get_next_task (sleepBlockCurrent s i ms)).2)).system_tick_count })) i :=
    isolated_updateTask _ i i _ hisoBp (fun tc => Or.inl rfl) (fun tc => Or.inl rfl)
  rcases switchInTo_isolated _ i (some m) hisoO
      (fun he => hmi (Option.some.inj he)) with
    ⟨hisoF, hgetF, hcurF⟩ | ⟨hn0, _⟩
  · have hfrI := switchInTo_frame
      ((bumpSwitchCount ((scheduler_get_next_task (sleepBlockCurrent s i ms)).2)).updateTask
        i (fun t => { t with last_run_time :=
          (bumpSwitchCount
            ((scheduler_get_next_task (sleepBlockCurrent s i ms)).2)).system_tick_count }))
      (some m)
    have hgi : (((bumpSwitchCount
        ((scheduler_get_next_task (sleepBlockCurrent s i ms)).2)).updateTask
          i (fun t => { t with last_run_time :=
            (bumpSwitchCount
              ((scheduler_get_next_task (sleepBlockCurrent s i ms)).2)).system_tick_count })).getTask
          i)
        = { (sleepBlockCurrent s i ms).getTask i with
              last_run_time := (bumpSwitchCount
                ((scheduler_get_next_task (sleepBlockCurrent s i ms)).2)).system_tick_count } := by
      have hb2 : ((bumpSwitchCount
          ((scheduler_get_next_task (sleepBlockCurrent s i ms)).2)).getTask i)
          = (sleepBlockCurrent s i ms).getTask i := hgetR
      simp [hb2]
    refine ⟨⟨?_, ⟨d, ?_⟩, ⟨m, hcurF⟩, ?_, hisoF, ?_, ?_, ?_⟩, ?_⟩
    · rw [hfrI.2.2.1]
      show ((scheduler_get_next_task (sleepBlockCurrent s i ms)).2).scheduler_running = true
      rw [core_running hcR]
      exact hrun
    · rw [hfrI.1]
      show ((scheduler_get_next_task (sleepBlockCurrent s i ms)).2).idle_task = some d
      rw [hcR.2.1]
      exact hidle
    · rw [hcurF]
      exact fun he => hmi (Option.some.inj he)
    · rw [hfrI.2.2.2.2.2]
      show ((scheduler_get_next_task (sleepBlockCurrent s i ms)).2).task_pool_used i = true
      rw [hcR.2.2.2.2.2.2]
      exact hused
    · rw [hgetF, hgi, hgetB]
    · rw [hgetF, hgi, hgetB]
    · rw [hfrI.2.2.2.1]
      show ((scheduler_get_next_task (sleepBlockCurrent s i ms)).2).system_tick_count
        = s.system_tick_count
      rw [core_system_tick hcR]
      rfl
  · exact absurd hn0 (by simp)


lemma state_wake_switchOut_ne (s : SchedState) (c i : Nat) (hic : i ≠ c) :
    ((switchOutFrom s (some c)).getTask i).state = (s.getTask i).state ∧
    ((switchOutFrom s (some c)).getTask i).wake_time = (s.getTask i).wake_time := by
  have hstep : switchOutFrom s (some c) = switchOutReenqueue (switchOutRuntime
      (s.updateTask c (fun t => { t with last_run_time := s.system_tick_count })) c) c := rfl
  rw [hstep]
  have h0 : (s.updateTask c
      (fun t => { t with last_run_time := s.system_tick_count })).getTask i = s.getTask i :=
    getTask_updateTask_ne _ _ _ _ hic
  unfold switchOutRuntime
  split
  · unfold switchOutReenqueue
    split
    · constructor
      · rw [state_add_ne _ _ _ hic, getTask_updateTask_ne _ _ _ _ hic,
            getTask_updateTask_ne _ _ _ _ hic, h0]
      · rw [wake_add, getTask_updateTask_ne _ _ _ _ hic,
            getTask_updateTask_ne _ _ _ _ hic, h0]
    · constructor
      · rw [getTask_updateTask_ne _ _ _ _ hic, h0]
      · rw [getTask_updateTask_ne _ _ _ _ hic, h0]
  · unfold switchOutReenqueue
    split
    · constructor
      · rw [state_add_ne _ _ _ hic, getTask_updateTask_ne _ _ _ _ hic, h0]
      · rw [wake_add, getTask_updateTask_ne _ _ _ _ hic, h0]
    · exact ⟨by rw [h0], by rw [h0]⟩

lemma state_wake_switchInTo (s : SchedState) (nxt : Option Nat) (i : Nat) :
    (((switchInTo s nxt).getTask i).state = (s.getTask i).state ∨
     ((switchInTo s nxt).getTask i).state = TaskState.running) ∧
    ((switchInTo s nxt).getTask i).wake_time = (s.getTask i).wake_time := by
  unfold switchInTo
  split
  · exact ⟨Or.inl rfl, rfl⟩
  · rename_i n
    by_cases hni : i = n
    · subst hni
      constructor
      · right
        rw [state_remove]
        simp
      · rw [wake_remove]
        simp
        rfl
    · constructor
      · left
        rw [state_remove, getTask_updateTask_ne _ _ _ _ hni]
        rfl
      · rw [wake_remove, getTask_updateTask_ne _ _ _ _ hni]
        rfl

/-- A context switch away from `c ≠ i` leaves task `i`'s wake time alone
and either leaves its state alone or installs it as Running. -/
lemma state_wake_context_switch (s : SchedState) (c : Nat) (nxt : Option Nat) (i : Nat)
    (hic : i ≠ c) :
    (((context_switch s (some c) nxt).getTask i).state = (s.getTask i).state ∨
     ((context_switch s (some c) nxt).getTask i).state = TaskState.running) ∧
    ((context_switch s (some c) nxt).getTask i).wake_time = (s.getTask i).wake_time := by
  unfold context_switch
  split
  · exact ⟨Or.inl rfl, rfl⟩
  · have hso := state_wake_switchOut_ne (bumpSwitchCount s) c i hic
    have hsi := state_wake_switchInTo (switchOutFrom (bumpSwitchCount s) (some c)) nxt i
    constructor
    · rcases hsi.1 with h | h
      · exact Or.inl (by rw [h, hso.1]; rfl)
      · exact Or.inr h
    · rw [hsi.2, hso.2]
      rfl

/-- The tick at which the sleeper's wake tick is reached: the wake sweep
sets it Ready and clears its wake time; a same-tick reschedule may further
dispatch it to Running. -/
lemma tick_wakes (s : SchedState) (i w : Nat) (hinv : sleepWaitInv s i w)
    (heq : s.system_tick_count + 1 = w) (hw : w < UINT32_MOD) (hi : i < MAX_TASKS) :
    (((scheduler_tick s).getTask i).state = TaskState.ready ∨
     ((scheduler_tick s).getTask i).state = TaskState.running) ∧
    ((scheduler_tick s).getTask i).wake_time = 0 := by
  obtain ⟨hrun, ⟨d, hidle⟩, ⟨c, hc⟩, hci, hiso, hused, hstate, hwake⟩ := hinv
  have hcnt1 : (tickAdvanceCounters s).system_tick_count = s.system_tick_count + 1 :=
    Nat.mod_eq_of_lt (by omega)
  have hcine : c ≠ i := fun he => hci (by rw [← he]; exact hc)
  have hb : scheduler_tick s
      = tickReschedule (wake_sleeping_tasks
          (tickDecrementSlice (tickAdvanceCounters s) c)) c := by
    unfold scheduler_tick tickBody
    rw [show (tickAdvanceCounters s).scheduler_running = true from hrun,
        show (tickAdvanceCounters s).current_task = some c from hc]
    simp
  rw [hb]
  have hiso1 : isolatedTask (tickAdvanceCounters s) i := ⟨hiso.1, hiso.2.1, hiso.2.2⟩
  obtain ⟨hiso2, hget2⟩ :=
    tickDecrementSlice_isolated (tickAdvanceCounters s) i c hiso1 hcine
  have hcnt2 : (tickDecrementSlice (tickAdvanceCounters s) c).system_tick_count = w := by
    rw [core_system_tick (tickDecrementSlice_coreFieldsEq (tickAdvanceCounters s) c),
        hcnt1, heq]
  have hused2 : (tickDecrementSlice (tickAdvanceCounters s) c).task_pool_used i = true := by
    rw [(tickDecrementSlice_coreFieldsEq (tickAdvanceCounters s) c).2.2.2.2.2.2]
    exact hused
  have hget2s : (tickDecrementSlice (tickAdvanceCounters s) c).getTask i = s.getTask i := by
    rw [hget2]; rfl
  obtain ⟨hst3, hwk3⟩ := wake_sweep_fires (tickDecrementSlice (tickAdvanceCounters s) c) i hi
    hused2 (by rw [hget2s]; exact hstate)
    (by rw [hget2s, hwake]; omega)
    (by rw [hget2s, hwake, hcnt2])
    hiso2
  unfold tickReschedule
  split
  · have hgR : ((scheduler_get_next_task (wake_sleeping_tasks
        (tickDecrementSlice (tickAdvanceCounters s) c))).2).getTask i
        = (wake_sleeping_tasks (tickDecrementSlice (tickAdvanceCounters s) c)).getTask i :=
      sgnt_getTask _ i
    have hcs := state_wake_context_switch
      ((scheduler_get_next_task (wake_sleeping_tasks
        (tickDecrementSlice (tickAdvanceCounters s) c))).2) c
      ((scheduler_get_next_task (wake_sleeping_tasks
        (tickDecrementSlice (tickAdvanceCounters s) c))).1) i (Ne.symm hcine)
    constructor
    · rcases hcs.1 with h | h
      · exact Or.inl (by rw [h, hgR]; exact hst3)
      · exact Or.inr h
    · rw [hcs.2, hgR]; exact hwk3
  · exact ⟨Or.inl hst3, hwk3⟩

lemma runTicks_succ : ∀ (k : Nat) (s : SchedState),
    runTicks s (k + 1) = scheduler_tick (runTicks s k)
  | 0, _ => rfl
  | k + 1, s => by
      show runTicks (scheduler_tick s) (k + 1) = _
      rw [runTicks_succ k (scheduler_tick s)]
      rfl

lemma runTicks_sleepWaitInv (i w : Nat) (hw : w < UINT32_MOD) :
    ∀ (k : Nat) (s : SchedState), sleepWaitInv s i w → s.system_tick_count + k < w →
      sleepWaitInv (runTicks s k) i w ∧
      (runTicks s k).system_tick_count = s.system_tick_count + k
  | 0, s, hinv, _ => ⟨hinv, rfl⟩
  | k + 1, s, hinv, hlt => by
      have h1 := tick_sleepWaitInv s i w hinv (by omega) hw
      have h2 := runTicks_sleepWaitInv i w hw k (scheduler_tick s) h1.1
        (by rw [h1.2]; omega)
      refine ⟨h2.1, ?_⟩
      show (runTicks (scheduler_tick s) k).system_tick_count = _
      rw [h2.2, h1.2]
      omega



lemma state_switchInTo_ne (s : SchedState) (m j : Nat) (h : j ≠ m) :
    ((switchInTo s (some m)).getTask j).state = (s.getTask j).state := by
  show ((remove_task_from_ready_queue _ m).getTask j).state = _
  rw [state_remove, getTask_updateTask_ne _ _ _ _ h]
  rfl

lemma state_switchInTo_self (s : SchedState) (m : Nat) :
    ((switchInTo s (some m)).getTask m).state = TaskState.running := by
  show ((remove_task_from_ready_queue _ m).getTask m).state = _
  rw [state_remove]
  simp

lemma state_updateTask_pres (s : SchedState) (w j : Nat) (f : TCB → TCB)
    (hf : ∀ tc, (f tc).state = tc.state) :
    ((s.updateTask w f).getTask j).state = (s.getTask j).state := by
  simp only [getTask_updateTask]
  split
  · rw [hf]
  · rfl

lemma wake_updateTask_pres (s : SchedState) (w j : Nat) (f : TCB → TCB)
    (hf : ∀ tc, (f tc).wake_time = tc.wake_time) :
    ((s.updateTask w f).getTask j).wake_time = (s.getTask j).wake_time := by
  simp only [getTask_updateTask]
  split
  · rw [hf]
  · rfl

/-- `task_sleep` on any live state blocks the calling (current) task
immediately — no isolation, idle-task or wake-timing hypotheses: even when
`scheduler_get_next_task` hands back the sleeper itself and the switch
no-ops, the task has already been set Blocked (line 464). -/
lemma task_sleep_blocked_any (s : SchedState) (ms c : Nat)
    (hrun : s.scheduler_running = true) (hc : s.current_task = some c) :
    ((task_sleep s ms).getTask c).state = TaskState.blocked := by
  have hb : task_sleep s ms = selectAndSwitch (sleepBlockCurrent s c ms) c := by
    unfold task_sleep
    rw [hrun, hc]
    simp
  rw [hb]
  unfold selectAndSwitch
  have hbl : (((scheduler_get_next_task (sleepBlockCurrent s c ms)).2).getTask c).state
      = TaskState.blocked := by
    rw [sgnt_getTask]
    unfold sleepBlockCurrent
    simp
  unfold context_switch
  split
  · exact hbl
  · rename_i hne2
    cases hn : (scheduler_get_next_task (sleepBlockCurrent s c ms)).1 with
    | none =>
        show ((switchOutFrom (bumpSwitchCount
          ((scheduler_get_next_task (sleepBlockCurrent s c ms)).2)) (some c)).getTask
            c).state = TaskState.blocked
        rw [switchOutFrom_blocked (bumpSwitchCount
              ((scheduler_get_next_task (sleepBlockCurrent s c ms)).2)) c hbl,
            state_updateTask_pres _ c c
              (fun t => { t with last_run_time := (bumpSwitchCount ((scheduler_get_next_task (sleepBlockCurrent s c ms)).2)).system_tick_count }) (fun tc => rfl)]
        exact hbl
    | some n =>
        have hnc : c ≠ n := fun he => hne2 ((congrArg some he).trans hn.symm)
        rw [switchOutFrom_blocked (bumpSwitchCount
              ((scheduler_get_next_task (sleepBlockCurrent s c ms)).2)) c hbl,
            state_switchInTo_ne _ n c hnc,
            state_updateTask_pres _ c c
              (fun t => { t with last_run_time := (bumpSwitchCount ((scheduler_get_next_task (sleepBlockCurrent s c ms)).2)).system_tick_count }) (fun tc => rfl)]
        exact hbl

/-- `task_sleep` on any live state sets the calling task's wake tick to
`now + ms`, again with no isolation hypotheses. -/
lemma task_sleep_wake_any (s : SchedState) (ms c : Nat)
    (hrun : s.scheduler_running = true) (hc : s.current_task = some c)
    (hwrap : s.system_tick_count + ms < UINT32_MOD) :
    ((task_sleep s ms).getTask c).wake_time = s.system_tick_count + ms := by
  have hb : task_sleep s ms = selectAndSwitch (sleepBlockCurrent s c ms) c := by
    unfold task_sleep
    rw [hrun, hc]
    simp
  rw [hb]
  unfold selectAndSwitch
  have hbl : (((scheduler_get_next_task (sleepBlockCurrent s c ms)).2).getTask c).state
      = TaskState.blocked := by
    rw [sgnt_getTask]
    unfold sleepBlockCurrent
    simp
  have hwk : (((scheduler_get_next_task (sleepBlockCurrent s c ms)).2).getTask c).wake_time
      = s.system_tick_count + ms := by
    rw [sgnt_getTask]
    unfold sleepBlockCurrent
    simp [Nat.mod_eq_of_lt hwrap]
  unfold context_switch
  split
  · exact hwk
  · cases hn : (scheduler_get_next_task (sleepBlockCurrent s c ms)).1 with
    | none =>
        show ((switchOutFrom (bumpSwitchCount
          ((scheduler_get_next_task (sleepBlockCurrent s c ms)).2)) (some c)).getTask
            c).wake_time = s.system_tick_count + ms
        rw [switchOutFrom_blocked (bumpSwitchCount
              ((scheduler_get_next_task (sleepBlockCurrent s c ms)).2)) c hbl,
            wake_updateTask_pres _ c c
              (fun t => { t with last_run_time := (bumpSwitchCount ((scheduler_get_next_task (sleepBlockCurrent s c ms)).2)).system_tick_count }) (fun tc => rfl)]
        exact hwk
    | some n =>
        rw [switchOutFrom_blocked (bumpSwitchCount
              ((scheduler_get_next_task (sleepBlockCurrent s c ms)).2)) c hbl,
            (state_wake_switchInTo _ (some n) c).2,
            wake_updateTask_pres _ c c
              (fun t => { t with last_run_time := (bumpSwitchCount ((scheduler_get_next_task (sleepBlockCurrent s c ms)).2)).system_tick_count }) (fun tc => rfl)]
        exact hwk

set_option maxRecDepth 4000 in
/-- C2 (counterexample to the claim as stated, at `ms = 0`): the claimed
wake tick is `T + ceil(0 / tick_period) = T`, but the task is still Blocked
at tick `T`.  At `T = 0` (freshly started two-task scenario) the sleeper
gets `wake_time = 0`, which the wake sweep's `wake_time > 0` guard
(scheduler.c line 385) never passes: it is still Blocked 30 ticks later and
never becomes Ready at all.  At `T = 3` the sleeper is Blocked at tick 3
with `wake_time = 3` and wakes only one tick late, at tick `T + 1 = 4`. -/
theorem C2_sleep_zero_never_wakes :
    (twoTasksStarted.system_tick_count = 0 ∧
     twoTasksStarted.current_task = some 1 ∧
     ((task_sleep twoTasksStarted 0).getTask 1).state = TaskState.blocked ∧
     ((task_sleep twoTasksStarted 0).getTask 1).wake_time = 0 ∧
     ((runTicks (task_sleep twoTasksStarted 0) 30).getTask 1).state
       = TaskState.blocked) ∧
    ((runTicks twoTasksStarted 3).system_tick_count = 3 ∧
     (runTicks twoTasksStarted 3).current_task = some 1 ∧
     (task_sleep (runTicks twoTasksStarted 3) 0).system_tick_count = 3 ∧
     ((task_sleep (runTicks twoTasksStarted 3) 0).getTask 1).state
       = TaskState.blocked ∧
     ((task_sleep (runTicks twoTasksStarted 3) 0).getTask 1).wake_time = 3 ∧
     ((runTicks (task_sleep (runTicks twoTasksStarted 3) 0) 1).getTask 1).state
       = TaskState.ready ∧
     ((runTicks (task_sleep (runTicks twoTasksStarted 3) 0) 1).getTask 1).wake_time
       = 0) := by
  decide

/-- C2 (amended): any running task that calls `task_sleep ms` at tick `T`
(with `T + ms` below the uint32 wrap) is Blocked — hence no longer the
Running task — with `wake_time = T + ms` from the moment of the call; this
needs no side conditions, and holds even for the idle task, whose
switch-away no-ops.  When moreover `ms ≥ 1` and the sleeper is isolated (a
dispatched current task referenced by no queue, link or idle slot, in a
used pool slot, with an idle task configured), it stays Blocked after each
of the first `ms - 1` subsequent ticks, and the tick that brings the
counter to `T + ms` wakes it: its wake time is cleared and it is Ready —
or already Running again if that same tick's reschedule dispatches it. -/
theorem C2_sleep_blocks_until_wake (s : SchedState) (i ms : Nat)
    (hrun : s.scheduler_running = true) (hc : s.current_task = some i)
    (hms : 1 ≤ ms) (hwrap : s.system_tick_count + ms < UINT32_MOD) :
    (((task_sleep s ms).getTask i).state = TaskState.blocked ∧
     ((task_sleep s ms).getTask i).state ≠ TaskState.running ∧
     ((task_sleep s ms).getTask i).wake_time = s.system_tick_count + ms) ∧
    (∀ d, s.idle_task = some d → isolatedTask s i → s.task_pool_used i = true →
      i < MAX_TASKS →
      (∀ k, k < ms →
        ((runTicks (task_sleep s ms) k).getTask i).state = TaskState.blocked) ∧
      ((((runTicks (task_sleep s ms) ms).getTask i).state = TaskState.ready ∨
        ((runTicks (task_sleep s ms) ms).getTask i).state = TaskState.running) ∧
       ((runTicks (task_sleep s ms) ms).getTask i).wake_time = 0)) := by
  have hblk := task_sleep_blocked_any s ms i hrun hc
  refine ⟨⟨hblk, ?_, task_sleep_wake_any s ms i hrun hc hwrap⟩, ?_⟩
  · rw [hblk]
    decide
  · intro d hidle hiso hused hi
    obtain ⟨hinv0, hcnt0⟩ := task_sleep_blocks s i ms d hrun hc hiso hused hidle hwrap
    refine ⟨?_, ?_⟩
    · intro k hk
      have h := runTicks_sleepWaitInv i (s.system_tick_count + ms) hwrap k
        (task_sleep s ms) hinv0 (by rw [hcnt0]; omega)
      exact h.1.2.2.2.2.2.2.1
    · obtain ⟨n, rfl⟩ : ∃ n, ms = n + 1 := ⟨ms - 1, by omega⟩
      have h := runTicks_sleepWaitInv i (s.system_tick_count + (n + 1)) hwrap n
        (task_sleep s (n + 1)) hinv0 (by rw [hcnt0]; omega)
      rw [runTicks_succ]
      exact tick_wakes (runTicks (task_sleep s (n + 1)) n) i _ h.1
        (by rw [h.2, hcnt0]; omega) hwrap hi

/-- A hand-built live scheduler state for exercising the sleep theorem:
slot 0 is the idle task (alone in queue 3), slot 1 is the current Running
task (in no queue), slot 2 is Ready (alone in queue 1). -/
def c2Pool : Nat → TCB := fun j =>
  if j = 0 then
    { task_id := 1, priority := 3, state := TaskState.ready,
      time_slice_remaining := 10, stack_size := 1024, total_runtime := 0,
      last_run_time := 0, wake_time := 0, next := some 0, prev := some 0 }
  else if j = 1 then
    { task_id := 2, priority := 1, state := TaskState.running,
      time_slice_remaining := 10, stack_size := 1024, total_runtime := 0,
      last_run_time := 0, wake_time := 0, next := none, prev := none }
  else if j = 2 then
    { task_id := 3, priority := 1, state := TaskState.ready,
      time_slice_remaining := 10, stack_size := 1024, total_runtime := 0,
      last_run_time := 0, wake_time := 0, next := some 2, prev := some 2 }
  else default

def c2WitState : SchedState :=
  { ready_queues := fun p => if p = 1 then some 2 else if p = 3 then some 0 else none,
    current_task := some 1, idle_task := some 0, next_task_id := 4,
    scheduler_running := true, system_tick_count := 0, stats := default,
    task_pool := c2Pool, task_pool_used := fun j => decide (j < 3) }

lemma c2WitState_isolated : isolatedTask c2WitState 1 := by
  refine ⟨by decide, ?_, ?_⟩
  · intro p
    show (if p = 1 then (some 2 : Option Nat) else if p = 3 then some 0 else none) ≠ some 1
    split_ifs <;> decide
  · intro j
    show (c2Pool j).next ≠ some 1 ∧ (c2Pool j).prev ≠ some 1
    unfold c2Pool
    split_ifs <;> exact ⟨by decide, by decide⟩

theorem C2_sleep_blocks_until_wake_witness :
    1 ≤ 2 ∧
    ((((task_sleep c2WitState 2).getTask 1).state = TaskState.blocked ∧
      ((task_sleep c2WitState 2).getTask 1).state ≠ TaskState.running ∧
      ((task_sleep c2WitState 2).getTask 1).wake_time
        = c2WitState.system_tick_count + 2) ∧
     (∀ d, c2WitState.idle_task = some d → isolatedTask c2WitState 1 →
       c2WitState.task_pool_used 1 = true → 1 < MAX_TASKS →
       (∀ k, k < 2 →
         ((runTicks (task_sleep c2WitState 2) k).getTask 1).state
           = TaskState.blocked) ∧
       ((((runTicks (task_sleep c2WitState 2) 2).getTask 1).state = TaskState.ready ∨
         ((runTicks (task_sleep c2WitState 2) 2).getTask 1).state
           = TaskState.running) ∧
        ((runTicks (task_sleep c2WitState 2) 2).getTask 1).wake_time = 0))) ∧
    (∀ k, k < 2 →
      ((runTicks (task_sleep c2WitState 2) k).getTask 1).state = TaskState.blocked) :=
  ⟨by decide,
   C2_sleep_blocks_until_wake c2WitState 1 2 rfl rfl (by decide) (by decide),
   ((C2_sleep_blocks_until_wake c2WitState 1 2 rfl rfl (by decide) (by decide)).2
     0 rfl c2WitState_isolated (by decide) (by decide)).1⟩


/-! ## The reschedule decision of `scheduler_tick` (claim C3) -/

/-- The state the tick's reschedule decision is evaluated on: counters
advanced (lines 322-323), current slice decremented (lines 330-332), wake
sweep done (line 336). -/
def tickPrep (s : SchedState) (c : Nat) : SchedState :=
  wake_sleeping_tasks (tickDecrementSlice (tickAdvanceCounters s) c)

/-- Full characterisation of the `get_highest_priority_ready_task` scan:
either every queue in the scanned window is empty and it returns `none`, or
it returns the head of the first non-empty queue of the window. -/
lemma ghprtAux_spec (s : SchedState) : ∀ (fuel p0 : Nat),
    (ghprtAux s fuel p0 = none ∧ ∀ q, p0 ≤ q → q < p0 + fuel → s.getQueue q = none) ∨
    (∃ q h, p0 ≤ q ∧ q < p0 + fuel ∧ s.getQueue q = some h ∧
      ghprtAux s fuel p0 = some h ∧ ∀ r, p0 ≤ r → r < q → s.getQueue r = none)
  | 0, p0 => Or.inl ⟨rfl, fun _ h1 h2 => absurd h2 (by omega)⟩
  | fuel + 1, p0 => by
      have heq : ghprtAux s (fuel + 1) p0
          = match s.getQueue p0 with
            | some h => some h
            | none => ghprtAux s fuel (p0 + 1) := rfl
      cases hq : s.getQueue p0 with
      | some h =>
          refine Or.inr ⟨p0, h, le_refl _, by omega, hq, ?_,
            fun r h1 h2 => absurd h2 (by omega)⟩
          rw [heq, hq]
      | none =>
          rcases ghprtAux_spec s fuel (p0 + 1) with ⟨h1, h2⟩ |
            ⟨q, h, hq1, hq2, hq3, hq4, hq5⟩
          · left
            constructor
            · rw [heq, hq]
              exact h1
            · intro q hle hlt
              rcases Nat.eq_or_lt_of_le hle with he | hlt2
              · rw [← he]
                exact hq
              · exact h2 q (by omega) (by omega)
          · right
            refine ⟨q, h, by omega, by omega, hq3, ?_, ?_⟩
            · rw [heq, hq]
              exact hq4
            · intro r hr1 hr2
              rcases Nat.eq_or_lt_of_le hr1 with he | hlt2
              · rw [← he]
                exact hq
              · exact hq5 r (by omega) hr2

/-- On a state whose ready-queue heads carry the priority of their queue
level (and whose out-of-range queues are empty), the `need_reschedule`
condition of lines 338-352 holds iff the current slice has reached zero or
some queue holds a head of strictly higher (numerically smaller) priority
than the current task: equal priority never sets the flag. -/
lemma needReschedule_iff (s : SchedState) (c : Nat)
    (hheads : ∀ p h, s.getQueue p = some h → (s.getTask h).priority = p)
    (hhigh : ∀ p, PRIORITY_LEVELS ≤ p → s.getQueue p = none) :
    needReschedule s c = true ↔
      ((s.getTask c).time_slice_remaining = 0 ∨
       ∃ p h, s.getQueue p = some h ∧
         (s.getTask h).priority < (s.getTask c).priority) := by
  unfold needReschedule
  rcases ghprtAux_spec s PRIORITY_LEVELS 0 with ⟨h1, h2⟩ |
    ⟨q, h, hq1, hq2, hq3, hq4, hq5⟩
  · rw [show get_highest_priority_ready_task s = none from h1]
    simp only [Bool.or_false, decide_eq_true_eq]
    constructor
    · exact Or.inl
    · rintro (hs | ⟨p, h', hq', _⟩)
      · exact hs
      · by_cases hp : p < PRIORITY_LEVELS
        · rw [h2 p (by omega) (by omega)] at hq'
          cases hq'
        · rw [hhigh p (by omega)] at hq'
          cases hq'
  · rw [show get_highest_priority_ready_task s = some h from hq4]
    simp only [Bool.or_eq_true, decide_eq_true_eq]
    have hph := hheads q h hq3
    constructor
    · rintro (hs | hlt)
      · exact Or.inl hs
      · exact Or.inr ⟨q, h, hq3, hlt⟩
    · rintro (hs | ⟨p, h', hq', hlt'⟩)
      · exact Or.inl hs
      · right
        have hp' := hheads p h' hq'
        have hpq : q ≤ p := by
          by_contra hlt2
          rw [hq5 p (by omega) (by omega)] at hq'
          cases hq'
        rw [hph]
        omega


/-- C3: with the scheduler running and a current task, `scheduler_tick`
performs a reschedule (select-next followed by a context switch) exactly
when `need_reschedule` holds on the prepared state, and — provided every
ready-queue head carries its queue level as priority and out-of-range
queues are empty — `need_reschedule` holds iff the slice just decremented
to zero or some queue head has strictly higher (numerically smaller)
priority than the current task; an equal-priority head never sets it. -/
theorem C3_reschedule_iff (s : SchedState) (c : Nat)
    (hrun : s.scheduler_running = true) (hcur : s.current_task = some c)
    (hheads : ∀ p h, (tickPrep s c).getQueue p = some h →
      ((tickPrep s c).getTask h).priority = p)
    (hhigh : ∀ p, PRIORITY_LEVELS ≤ p → (tickPrep s c).getQueue p = none) :
    scheduler_tick s
      = (if needReschedule (tickPrep s c) c
         then context_switch (scheduler_get_next_task (tickPrep s c)).2 (some c)
                (scheduler_get_next_task (tickPrep s c)).1
         else tickPrep s c) ∧
    ((tickPrep s c).getTask c).time_slice_remaining
      = (s.getTask c).time_slice_remaining - 1 ∧
    (needReschedule (tickPrep s c) c = true ↔
      ((s.getTask c).time_slice_remaining - 1 = 0 ∨
       ∃ p h, (tickPrep s c).getQueue p = some h ∧
         ((tickPrep s c).getTask h).priority < ((tickPrep s c).getTask c).priority)) := by
  have hslice : ((tickPrep s c).getTask c).time_slice_remaining
      = (s.getTask c).time_slice_remaining - 1 := by
    unfold tickPrep
    rw [slice_wake, decr_slice_self]
    rfl
  refine ⟨?_, hslice, ?_⟩
  · unfold scheduler_tick tickBody tickPrep tickReschedule
    rw [show (tickAdvanceCounters s).scheduler_running = true from hrun,
        show (tickAdvanceCounters s).current_task = some c from hcur]
    simp
  · rw [needReschedule_iff (tickPrep s c) c hheads hhigh, hslice]

theorem C3_reschedule_iff_witness :
    c2WitState.scheduler_running = true ∧
    (scheduler_tick c2WitState
       = (if needReschedule (tickPrep c2WitState 1) 1
          then context_switch (scheduler_get_next_task (tickPrep c2WitState 1)).2 (some 1)
                 (scheduler_get_next_task (tickPrep c2WitState 1)).1
          else tickPrep c2WitState 1) ∧
     ((tickPrep c2WitState 1).getTask 1).time_slice_remaining
       = (c2WitState.getTask 1).time_slice_remaining - 1 ∧
     (needReschedule (tickPrep c2WitState 1) 1 = true ↔
       ((c2WitState.getTask 1).time_slice_remaining - 1 = 0 ∨
        ∃ p h, (tickPrep c2WitState 1).getQueue p = some h ∧
          ((tickPrep c2WitState 1).getTask h).priority
            < ((tickPrep c2WitState 1).getTask 1).priority))) := by
  have hqf : ∀ p, (tickPrep c2WitState 1).getQueue p
      = (if p = 1 then some 2 else if p = 3 then some 0 else none) := fun _ => rfl
  refine ⟨rfl, C3_reschedule_iff c2WitState 1 rfl rfl ?_ ?_⟩
  · intro p h hq
    rw [hqf p] at hq
    split_ifs at hq with h1 h3
    · injection hq with hh
      subst hh
      subst h1
      decide
    · injection hq with hh
      subst hh
      subst h3
      decide
  · intro p hp
    rw [hqf p]
    have hp4 : 4 ≤ p := hp
    split_ifs with h1 h3
    · omega
    · omega
    · rfl


/-! ## The single-Running-task invariant (claim C6) -/

/-- Exactly one pool slot is in state Running, namely the current task. -/
def oneRunning (s : SchedState) : Prop :=
  ∃ c, s.current_task = some c ∧ (s.getTask c).state = TaskState.running ∧
    ∀ j, (s.getTask j).state = TaskState.running → j = c

/-- Switching out of slot `c`: its state either becomes Ready (the
re-enqueue path of lines 294-298) or is left alone because it was not
Running. -/
lemma state_switchOutFrom_self (s : SchedState) (c : Nat) :
    ((switchOutFrom s (some c)).getTask c).state = TaskState.ready ∨
    (((switchOutFrom s (some c)).getTask c).state = (s.getTask c).state ∧
      (s.getTask c).state ≠ TaskState.running) := by
  have hstep : switchOutFrom s (some c) = switchOutReenqueue (switchOutRuntime
      (s.updateTask c (fun t => { t with last_run_time := s.system_tick_count })) c) c := rfl
  rw [hstep]
  unfold switchOutRuntime
  split
  · unfold switchOutReenqueue
    split
    · exact Or.inl (state_add_self _ c)
    · simp_all
  · unfold switchOutReenqueue
    split
    · simp_all
    · rename_i h1
      refine Or.inr ⟨by simp, ?_⟩
      simpa using h1

lemma state_wake_one_run_iff (s : SchedState) (x j : Nat) :
    ((wake_one s x).getTask j).state = TaskState.running ↔
      (s.getTask j).state = TaskState.running := by
  by_cases hxj : j = x
  · subst hxj
    unfold wake_one
    split
    · split
      · rename_i hguard
        constructor
        · intro h
          have hr := state_add_self
            (s.updateTask j (fun t => { t with wake_time := 0, state := TaskState.ready })) j
          rw [hr] at h
          cases h
        · intro h
          rw [hguard.1] at h
          cases h
      · exact Iff.rfl
    · exact Iff.rfl
  · rw [(state_wake_one_ne s x j hxj).1]

lemma state_wake_run_iff (s : SchedState) (j : Nat) :
    ((wake_sleeping_tasks s).getTask j).state = TaskState.running ↔
      (s.getTask j).state = TaskState.running := by
  unfold wake_sleeping_tasks
  exact foldl_pres
    (P := fun u => ((u.getTask j).state = TaskState.running ↔
      (s.getTask j).state = TaskState.running))
    (fun u x hu => (state_wake_one_run_iff u x j).trans hu)
    (List.range MAX_TASKS) s Iff.rfl

lemma state_decr (s : SchedState) (c j : Nat) :
    ((tickDecrementSlice s c).getTask j).state = (s.getTask j).state := by
  unfold tickDecrementSlice
  split
  · simp only [getTask_updateTask]
    split
    · rfl
    · rfl
  · rfl

/-- A context switch from the current (sole Running) task to `m` leaves
exactly `m` Running and current. -/
lemma oneRunning_context_switch (s : SchedState) (c m : Nat)
    (hc : s.current_task = some c)
    (hcs : (s.getTask c).state = TaskState.running)
    (hall : ∀ j, (s.getTask j).state = TaskState.running → j = c) :
    oneRunning (context_switch s (some c) (some m)) := by
  by_cases hcm : (some c : Option Nat) = some m
  · unfold context_switch
    rw [if_pos hcm]
    exact ⟨c, hc, hcs, hall⟩
  · unfold context_switch
    rw [if_neg hcm]
    refine ⟨m, switchInTo_current_some _ m, state_switchInTo_self _ m, ?_⟩
    intro j hj
    by_cases hjm : j = m
    · exact hjm
    · rw [state_switchInTo_ne _ m j hjm] at hj
      by_cases hjc : j = c
      · subst hjc
        rcases state_switchOutFrom_self (bumpSwitchCount s) j with h | ⟨_, hne⟩
        · rw [h] at hj
          cases hj
        · exact absurd (show ((bumpSwitchCount s).getTask j).state
            = TaskState.running from hcs) hne
      · rw [(state_wake_switchOut_ne (bumpSwitchCount s) c j hjc).1] at hj
        exact absurd (hall j hj) hjc


lemma oneRunning_tick (s : SchedState) (d : Nat) (hidle : s.idle_task = some d)
    (hone : oneRunning s) : oneRunning (scheduler_tick s) := by
  obtain ⟨c, hc, hcs, hall⟩ := hone
  by_cases hrun : s.scheduler_running = true
  · have hb : scheduler_tick s
        = tickReschedule (wake_sleeping_tasks
            (tickDecrementSlice (tickAdvanceCounters s) c)) c := by
      unfold scheduler_tick tickBody
      rw [show (tickAdvanceCounters s).scheduler_running = true from hrun,
          show (tickAdvanceCounters s).current_task = some c from hc]
      simp
    rw [hb]
    have hp13 := tickPrep_coreFieldsEq (tickAdvanceCounters s) c
    have hcur3 : (wake_sleeping_tasks
        (tickDecrementSlice (tickAdvanceCounters s) c)).current_task = some c := by
      rw [core_current hp13]
      exact hc
    have hst3 : ∀ j, ((wake_sleeping_tasks
        (tickDecrementSlice (tickAdvanceCounters s) c)).getTask j).state
          = TaskState.running ↔ (s.getTask j).state = TaskState.running := by
      intro j
      rw [state_wake_run_iff, state_decr]
      exact Iff.rfl
    have hidle3 : (wake_sleeping_tasks
        (tickDecrementSlice (tickAdvanceCounters s) c)).idle_task = some d := by
      rw [hp13.2.1]
      exact hidle
    unfold tickReschedule
    split
    · obtain ⟨m, hm⟩ := sgnt_next_some _ d hidle3
      rw [hm]
      refine oneRunning_context_switch _ c m ?_ ?_ ?_
      · rw [core_current (sgnt_coreFieldsEq _)]
        exact hcur3
      · rw [sgnt_getTask]
        exact (hst3 c).2 hcs
      · intro j hj
        rw [sgnt_getTask] at hj
        exact hall j ((hst3 j).1 hj)
    · exact ⟨c, hcur3, (hst3 c).2 hcs, fun j hj => hall j ((hst3 j).1 hj)⟩
  · have hfalse : s.scheduler_running = false := by
      revert hrun
      cases s.scheduler_running <;> simp
    rw [tick_noop s (Or.inl hfalse)]
    exact ⟨c, hc, hcs, hall⟩

lemma oneRunning_yield (s : SchedState) (d : Nat) (hidle : s.idle_task = some d)
    (hone : oneRunning s) : oneRunning (task_yield s) := by
  obtain ⟨c, hc, hcs, hall⟩ := hone
  by_cases hrun : s.scheduler_running = true
  · have hb : task_yield s = scheduler_tick
        (s.updateTask c (fun t => { t with time_slice_remaining := 0 })) := by
      unfold task_yield
      rw [hrun, hc]
      simp
    rw [hb]
    refine oneRunning_tick _ d hidle ⟨c, hc, ?_, ?_⟩
    · simp only [getTask_updateTask]
      split
      · exact hcs
      · exact hcs
    · intro j hj
      simp only [getTask_updateTask] at hj
      split at hj
      · exact hall j hj
      · exact hall j hj
  · unfold task_yield
    have hfalse : s.scheduler_running = false := by
      revert hrun
      cases s.scheduler_running <;> simp
    rw [if_pos hfalse]
    exact ⟨c, hc, hcs, hall⟩

lemma oneRunning_sleep (s : SchedState) (ms c m : Nat)
    (hc : s.current_task = some c)
    (hm : (scheduler_get_next_task (sleepBlockCurrent s c ms)).1 = some m)
    (hmc : m ≠ c) (hone : oneRunning s) : oneRunning (task_sleep s ms) := by
  obtain ⟨c', hc', hcs, hall⟩ := hone
  rw [hc] at hc'
  obtain rfl := Option.some.inj hc'
  by_cases hrun : s.scheduler_running = true
  · have hb : task_sleep s ms = selectAndSwitch (sleepBlockCurrent s c ms) c := by
      unfold task_sleep
      rw [hrun, hc]
      simp
    rw [hb]
    unfold selectAndSwitch
    rw [hm]
    unfold context_switch
    rw [if_neg (fun he => hmc (Option.some.inj he).symm)]
    refine ⟨m, switchInTo_current_some _ m, state_switchInTo_self _ m, ?_⟩
    intro j hj
    by_cases hjm : j = m
    · exact hjm
    · rw [state_switchInTo_ne _ m j hjm] at hj
      by_cases hjc : j = c
      · rw [hjc] at hj
        rcases state_switchOutFrom_self (bumpSwitchCount
            (scheduler_get_next_task (sleepBlockCurrent s c ms)).2) c with h | ⟨h, _⟩
        · rw [h] at hj
          cases hj
        · rw [h] at hj
          have h3 : (((scheduler_get_next_task (sleepBlockCurrent s c ms)).2).getTask
              c).state = TaskState.running := hj
          rw [sgnt_getTask] at h3
          have hbl : ((sleepBlockCurrent s c ms).getTask c).state = TaskState.blocked := by
            unfold sleepBlockCurrent
            simp
          rw [hbl] at h3
          cases h3
      · rw [(state_wake_switchOut_ne _ c j hjc).1] at hj
        have h3 : (((scheduler_get_next_task (sleepBlockCurrent s c ms)).2).getTask
            j).state = TaskState.running := hj
        rw [sgnt_getTask] at h3
        have h2 : ((sleepBlockCurrent s c ms).getTask j).state = (s.getTask j).state := by
          unfold sleepBlockCurrent
          rw [getTask_updateTask_ne _ _ _ _ hjc]
        rw [h2] at h3
        exact absurd (hall j h3) hjc
  · unfold task_sleep
    have hfalse : s.scheduler_running = false := by
      revert hrun
      cases s.scheduler_running <;> simp
    rw [if_pos hfalse]
    exact ⟨c, hc, hcs, hall⟩


set_option maxRecDepth 4000 in
/-- C6 (counterexample to the claim as stated): with only the idle task
(created by `rtos_init`, dispatched by `rtos_start`), `task_sleep 5` blocks
the current (idle) task, `scheduler_get_next_task` falls back to the idle
task itself, and `context_switch(idle, idle)` is a no-op (line 273) — so
after the sleep operation the current task is Blocked and no task in the
pool is Running. -/
theorem C6_sleep_can_leave_zero_running :
    runningCount justIdleStarted = 1 ∧
    justIdleStarted.current_task = some 0 ∧
    (task_sleep justIdleStarted 5).current_task = some 0 ∧
    ((task_sleep justIdleStarted 5).getTask 0).state = TaskState.blocked ∧
    runningCount (task_sleep justIdleStarted 5) = 0 := by
  decide

/-- C6 (amended): the single-Running-task invariant — exactly one pool slot
is Running and it is the current task — is preserved by `scheduler_tick`
and `task_yield` (given a configured idle task), by any
`context_switch(current, next)` with a non-NULL `next`, and by `task_sleep`
provided `scheduler_get_next_task` selects some task other than the
sleeper.  (When the sleeper is itself selected — e.g. the idle task sleeps
with every queue empty — the switch is a no-op and no task remains
Running.) -/
theorem C6_one_running_preserved (s : SchedState) (d : Nat)
    (hidle : s.idle_task = some d) (hone : oneRunning s) :
    oneRunning (scheduler_tick s) ∧
    oneRunning (task_yield s) ∧
    (∀ c m, s.current_task = some c → oneRunning (context_switch s (some c) (some m))) ∧
    (∀ ms c m, s.current_task = some c →
      (scheduler_get_next_task (sleepBlockCurrent s c ms)).1 = some m → m ≠ c →
      oneRunning (task_sleep s ms)) := by
  refine ⟨oneRunning_tick s d hidle hone, oneRunning_yield s d hidle hone, ?_, ?_⟩
  · intro c m hc
    obtain ⟨c', hc', hcs, hall⟩ := hone
    rw [hc] at hc'
    obtain rfl := Option.some.inj hc'
    exact oneRunning_context_switch s c m hc hcs hall
  · intro ms c m hc hm hmc
    exact oneRunning_sleep s ms c m hc hm hmc hone

lemma c2WitState_oneRunning : oneRunning c2WitState := by
  refine ⟨1, rfl, by decide, ?_⟩
  intro j hj
  have hj2 : (c2Pool j).state = TaskState.running := hj
  revert hj2
  unfold c2Pool
  split_ifs with h0 h1
  · exact fun h => absurd h (by decide)
  · exact fun _ => h1
  · exact fun h => absurd h (by decide)
  · exact fun h => absurd h (by decide)

theorem C6_one_running_preserved_witness :
    c2WitState.idle_task = some 0 ∧
    oneRunning (scheduler_tick c2WitState) ∧
    oneRunning (task_sleep c2WitState 5) :=
  ⟨rfl,
   (C6_one_running_preserved c2WitState 0 rfl c2WitState_oneRunning).1,
   (C6_one_running_preserved c2WitState 0 rfl c2WitState_oneRunning).2.2.2 5 1 2 rfl
     (by decide) (by decide)⟩


/-! ## The `context_switch` contract (claim C8) -/

lemma lastrun_add (s : SchedState) (t j : Nat) :
    ((add_task_to_ready_queue s t).getTask j).last_run_time
      = (s.getTask j).last_run_time := by
  unfold add_task_to_ready_queue enqueueAtPriority enqueueNonempty linkLastNext fixStateReady
  repeat' split
  all_goals
    simp only [getTask_updateTask, getTask_setQueue]
    repeat' split
  all_goals rfl

lemma runtime_add (s : SchedState) (t j : Nat) :
    ((add_task_to_ready_queue s t).getTask j).total_runtime
      = (s.getTask j).total_runtime := by
  unfold add_task_to_ready_queue enqueueAtPriority enqueueNonempty linkLastNext fixStateReady
  repeat' split
  all_goals
    simp only [getTask_updateTask, getTask_setQueue]
    repeat' split
  all_goals rfl

lemma lastrun_remove (s : SchedState) (t j : Nat) :
    ((remove_task_from_ready_queue s t).getTask j).last_run_time
      = (s.getTask j).last_run_time := by
  unfold remove_task_from_ready_queue clearLinks removeDispatch removeUnlink setNextOf setPrevOf
  repeat' split
  all_goals
    simp only [getTask_updateTask, getTask_setQueue]
    repeat' split
  all_goals rfl

lemma runtime_remove (s : SchedState) (t j : Nat) :
    ((remove_task_from_ready_queue s t).getTask j).total_runtime
      = (s.getTask j).total_runtime := by
  unfold remove_task_from_ready_queue clearLinks removeDispatch removeUnlink setNextOf setPrevOf
  repeat' split
  all_goals
    simp only [getTask_updateTask, getTask_setQueue]
    repeat' split
  all_goals rfl

/-- In a represented queue, every member's `next` pointer stays inside the
queue (and is non-NULL). -/
lemma QueueRep_next_mem {s : SchedState} {p t : Nat} {L : List Nat}
    (hrep : QueueRep s p L) (ht : t ∈ L) :
    ∃ u, (s.getTask t).next = some u ∧ u ∈ L := by
  have hLne : L ≠ [] := fun he => by rw [he] at ht; exact List.not_mem_nil t ht
  unfold QueueRep at hrep
  cases hh : s.getQueue p with
  | none =>
      rw [hh] at hrep
      exact absurd hrep hLne
  | some h =>
      rw [hh] at hrep
      obtain ⟨hhead, hseg⟩ := hrep
      have hhm : h ∈ L := by
        cases hL : L with
        | nil => exact absurd hL hLne
        | cons x M =>
            rw [hL, List.head?_cons] at hhead
            rw [← Option.some.inj hhead]
            exact List.mem_cons_self x M
      obtain ⟨M₁, M₂, hM, hs1, hs2⟩ := Seg_split hseg ht
      cases hs2 with
      | cons hn hp hs3 =>
          rename_i d
          rcases Seg_start_mem hs3 with hd | ⟨hM2, hdh⟩
          · refine ⟨d, hn, ?_⟩
            rw [hM]
            exact List.mem_append_right _ (List.mem_cons_of_mem _ hd)
          · exact ⟨d, hn, hdh ▸ hhm⟩

/-- In a represented queue, every member's `prev` pointer stays inside the
queue (and is non-NULL). -/
lemma QueueRep_prev_mem {s : SchedState} {p t : Nat} {L : List Nat}
    (hrep : QueueRep s p L) (ht : t ∈ L) :
    ∃ u, (s.getTask t).prev = some u ∧ u ∈ L := by
  have hLne : L ≠ [] := fun he => by rw [he] at ht; exact List.not_mem_nil t ht
  unfold QueueRep at hrep
  cases hh : s.getQueue p with
  | none =>
      rw [hh] at hrep
      exact absurd hrep hLne
  | some h =>
      rw [hh] at hrep
      obtain ⟨hhead, hseg⟩ := hrep
      obtain ⟨M₁, M₂, hM, hs1, hs2⟩ := Seg_split hseg ht
      rcases List.eq_nil_or_concat M₁ with rfl | ⟨M₁p, b, h1⟩
      · -- t is the head
        have hth : h = t := by cases hs1; rfl
        refine ⟨L.getLast hLne, ?_, List.getLast_mem hLne⟩
        rw [← hth]
        exact Seg_cycle_prev s h L hLne hseg
      · rw [List.concat_eq_append] at h1
        subst h1
        obtain ⟨_, _, hpt⟩ := Seg_unsnoc hs1
        refine ⟨b, hpt, ?_⟩
        rw [hM]
        exact List.mem_append_left _ (List.mem_append_right _ (List.mem_cons_self b []))


/-- Removing a task from its own priority queue leaves any other,
disjoint queue's representation intact. -/
lemma remove_rep_other (s : SchedState) (t q : Nat) (Lq Lt : List Nat)
    (hrept : QueueRep s ((s.getTask t).priority) Lt)
    (hrepq : QueueRep s q Lq) (hq : q ≠ (s.getTask t).priority)
    (htq : t ∉ Lq) (hdis : ∀ x ∈ Lt, x ∉ Lq) (htmem : t ∈ Lt) :
    QueueRep (remove_task_from_ready_queue s t) q Lq := by
  obtain ⟨un, hun, hunm⟩ := QueueRep_next_mem hrept htmem
  obtain ⟨up, hup, hupm⟩ := QueueRep_prev_mem hrept htmem
  refine QueueRep_congr_mem q Lq hrepq (remove_getQueue_other s t q hq) ?_ ?_ <;>
  · intro j hj
    rw [remove_getTask_outside s t j (fun he => htq (he ▸ hj))
      (by rw [hun]; exact fun he => hdis un hunm (by rw [Option.some.inj he]; exact hj))
      (by rw [hup]; exact fun he => hdis up hupm (by rw [Option.some.inj he]; exact hj))]

lemma QueueRep_updateTask_keeplinks (s : SchedState) (w : Nat) (f : TCB → TCB)
    (hfn : ∀ tc, (f tc).next = tc.next ∧ (f tc).prev = tc.prev)
    (p : Nat) (L : List Nat) (hrep : QueueRep s p L) :
    QueueRep (s.updateTask w f) p L := by
  refine QueueRep_of_links_eq p L hrep rfl ?_ ?_
  · intro j
    simp only [getTask_updateTask]
    split
    · exact (hfn _).1
    · rfl
  · intro j
    simp only [getTask_updateTask]
    split
    · exact (hfn _).2
    · rfl


lemma slice_switchInTo_self (s : SchedState) (t : Nat) :
    ((switchInTo s (some t)).getTask t).time_slice_remaining = TIME_SLICE_MS := by
  show ((remove_task_from_ready_queue _ t).getTask t).time_slice_remaining = _
  rw [slice_remove]
  simp

/-- The record writes of lines 285-296 applied to the switched-out task:
last-run tick, one tick of runtime credit, state set back to Ready. -/
def switchOutUpd (s : SchedState) (f : Nat) : SchedState :=
  (((bumpSwitchCount s).updateTask f
      (fun tc => { tc with
        last_run_time := (bumpSwitchCount s).system_tick_count })).updateTask
    f (fun tc => { tc with
        total_runtime := (tc.total_runtime + 1) % UINT32_MOD })).updateTask
    f (fun tc => { tc with state := TaskState.ready })

/-- The switch-out block for a still-Running task: record the last-run
tick, credit one tick of runtime, set Ready and re-enqueue. -/
lemma switchOut_running_eq (s : SchedState) (f : Nat)
    (hrunf : (s.getTask f).state = TaskState.running) :
    switchOutFrom (bumpSwitchCount s) (some f)
      = add_task_to_ready_queue (switchOutUpd s f) f := by
  unfold switchOutUpd
  have hbg : (bumpSwitchCount s).getTask f = s.getTask f := rfl
  show switchOutReenqueue (switchOutRuntime ((bumpSwitchCount s).updateTask f
      (fun tc => { tc with
        last_run_time := (bumpSwitchCount s).system_tick_count })) f) f = _
  unfold switchOutRuntime
  rw [if_pos (by simp [hbg, hrunf])]
  unfold switchOutReenqueue
  rw [if_pos (by simp [hbg, hrunf])]

/-- The switch-out block for a task that is no longer Running (Blocked,
Suspended, Terminated or Ready): only the last-run tick is recorded. -/
lemma switchOut_notrunning_eq (s : SchedState) (f : Nat)
    (hnr : (s.getTask f).state ≠ TaskState.running) :
    switchOutFrom (bumpSwitchCount s) (some f)
      = (bumpSwitchCount s).updateTask f
          (fun tc => { tc with
            last_run_time := (bumpSwitchCount s).system_tick_count }) := by
  have hbg : (bumpSwitchCount s).getTask f = s.getTask f := rfl
  show switchOutReenqueue (switchOutRuntime ((bumpSwitchCount s).updateTask f
      (fun tc => { tc with
        last_run_time := (bumpSwitchCount s).system_tick_count })) f) f = _
  unfold switchOutRuntime
  rw [if_neg (by simp [hbg, hnr])]
  unfold switchOutReenqueue
  rw [if_neg (by simp [hbg, hnr])]


lemma switchOutUpd_getTask_self (s : SchedState) (f : Nat) :
    (switchOutUpd s f).getTask f
      = { s.getTask f with
            last_run_time := s.system_tick_count,
            total_runtime := ((s.getTask f).total_runtime + 1) % UINT32_MOD,
            state := TaskState.ready } := by
  unfold switchOutUpd
  simp
  exact ⟨rfl, rfl, rfl, rfl, rfl, rfl, rfl, rfl, rfl⟩

lemma switchOutUpd_getTask_ne (s : SchedState) (f j : Nat) (hj : j ≠ f) :
    (switchOutUpd s f).getTask j = s.getTask j := by
  unfold switchOutUpd
  rw [getTask_updateTask_ne _ _ _ _ hj, getTask_updateTask_ne _ _ _ _ hj,
      getTask_updateTask_ne _ _ _ _ hj]
  rfl

lemma switchOutUpd_rep (s : SchedState) (f p : Nat) (L : List Nat)
    (hrep : QueueRep s p L) : QueueRep (switchOutUpd s f) p L := by
  unfold switchOutUpd
  refine QueueRep_updateTask_keeplinks _ f
    (fun tc => { tc with state := TaskState.ready }) (fun tc => ⟨rfl, rfl⟩) p L ?_
  refine QueueRep_updateTask_keeplinks _ f
    (fun tc => { tc with total_runtime := (tc.total_runtime + 1) % UINT32_MOD })
    (fun tc => ⟨rfl, rfl⟩) p L ?_
  refine QueueRep_updateTask_keeplinks _ f
    (fun tc => { tc with last_run_time := (bumpSwitchCount s).system_tick_count })
    (fun tc => ⟨rfl, rfl⟩) p L ?_
  exact QueueRep_of_links_eq p L hrep rfl (fun j => rfl) (fun j => rfl)


/-- All effects of the switch-out block when `from` is still Running:
the two touched queues' representations, the untouched `to` record, and
`from`'s record writes. -/
lemma switchOut_run_facts (s : SchedState) (f t pf pt : Nat) (Lf Lt : List Nat)
    (hrunf : (s.getTask f).state = TaskState.running)
    (hft : f ≠ t)
    (hpf : pf = (s.getTask f).priority)
    (hpne : pf ≠ pt)
    (hrepf : QueueRep s pf Lf) (hrept : QueueRep s pt Lt)
    (hnodupf : Lf.Nodup)
    (hfnotf : f ∉ Lf) (hfnott : f ∉ Lt) (htnotf : t ∉ Lf)
    (hdis : ∀ x ∈ Lt, x ∉ Lf) :
    QueueRep (switchOutFrom (bumpSwitchCount s) (some f)) pf (Lf ++ [f]) ∧
    QueueRep (switchOutFrom (bumpSwitchCount s) (some f)) pt Lt ∧
    (switchOutFrom (bumpSwitchCount s) (some f)).getTask t = s.getTask t ∧
    ((switchOutFrom (bumpSwitchCount s) (some f)).getTask f).state = TaskState.ready ∧
    ((switchOutFrom (bumpSwitchCount s) (some f)).getTask f).last_run_time
      = s.system_tick_count ∧
    ((switchOutFrom (bumpSwitchCount s) (some f)).getTask f).total_runtime
      = ((s.getTask f).total_runtime + 1) % UINT32_MOD := by
  rw [switchOut_running_eq s f hrunf]
  have hprio : ((switchOutUpd s f).getTask f).priority = pf := by
    rw [switchOutUpd_getTask_self, hpf]
  have hrepfU : QueueRep (switchOutUpd s f) ((switchOutUpd s f).getTask f).priority Lf := by
    rw [hprio]
    exact switchOutUpd_rep s f pf Lf hrepf
  have hreptU : QueueRep (switchOutUpd s f) pt Lt := switchOutUpd_rep s f pt Lt hrept
  refine ⟨?_, ?_, ?_, ?_, ?_, ?_⟩
  · have h := enqueue_rep (switchOutUpd s f) f Lf hrepfU hnodupf hfnotf
    rw [hprio] at h
    exact h
  · refine enqueue_rep_other (switchOutUpd s f) f pt Lf Lt hrepfU hreptU ?_ hfnott hdis
    rw [hprio]
    exact hpne.symm
  · rw [add_getTask_outside (switchOutUpd s f) f Lf hrepfU t htnotf (Ne.symm hft)]
    exact switchOutUpd_getTask_ne s f t (Ne.symm hft)
  · exact state_add_self _ f
  · rw [lastrun_add, switchOutUpd_getTask_self]
  · rw [runtime_add, switchOutUpd_getTask_self]

/-- All effects of the switch-out block when `from` is not Running: only
its last-run tick is recorded; the queues are untouched. -/
lemma switchOut_notrun_facts (s : SchedState) (f t pf pt : Nat) (Lf Lt : List Nat)
    (hnr : (s.getTask f).state ≠ TaskState.running)
    (hft : f ≠ t)
    (hrepf : QueueRep s pf Lf) (hrept : QueueRep s pt Lt) :
    QueueRep (switchOutFrom (bumpSwitchCount s) (some f)) pf Lf ∧
    QueueRep (switchOutFrom (bumpSwitchCount s) (some f)) pt Lt ∧
    (switchOutFrom (bumpSwitchCount s) (some f)).getTask t = s.getTask t ∧
    ((switchOutFrom (bumpSwitchCount s) (some f)).getTask f).state
      = (s.getTask f).state ∧
    ((switchOutFrom (bumpSwitchCount s) (some f)).getTask f).last_run_time
      = s.system_tick_count ∧
    ((switchOutFrom (bumpSwitchCount s) (some f)).getTask f).total_runtime
      = (s.getTask f).total_runtime := by
  rw [switchOut_notrunning_eq s f hnr]
  refine ⟨?_, ?_, ?_, ?_, ?_, ?_⟩
  · refine QueueRep_updateTask_keeplinks _ f
      (fun tc => { tc with last_run_time := (bumpSwitchCount s).system_tick_count })
      (fun tc => ⟨rfl, rfl⟩) pf Lf ?_
    exact QueueRep_of_links_eq pf Lf hrepf rfl (fun j => rfl) (fun j => rfl)
  · refine QueueRep_updateTask_keeplinks _ f
      (fun tc => { tc with last_run_time := (bumpSwitchCount s).system_tick_count })
      (fun tc => ⟨rfl, rfl⟩) pt Lt ?_
    exact QueueRep_of_links_eq pt Lt hrept rfl (fun j => rfl) (fun j => rfl)
  · rw [getTask_updateTask_ne _ _ _ _ (Ne.symm hft)]
    rfl
  · simp
    rfl
  · simp
    rfl
  · simp
    rfl


/-- All effects of the switch-in block: `to`'s queue loses exactly `to`,
a disjoint queue is untouched, and every other task's record (outside
`to`'s queue) is untouched. -/
lemma switchIn_facts (X s0 : SchedState) (t pt pf : Nat) (LF Lt : List Nat)
    (hgt : X.getTask t = s0.getTask t)
    (hpt : pt = (s0.getTask t).priority)
    (hXpf : QueueRep X pf LF) (hXpt : QueueRep X pt Lt)
    (hpne : pf ≠ pt)
    (hnodupt : Lt.Nodup) (htmem : t ∈ Lt) (htLF : t ∉ LF)
    (hdis2 : ∀ x ∈ Lt, x ∉ LF) :
    QueueRep (switchInTo X (some t)) pt (Lt.erase t) ∧
    QueueRep (switchInTo X (some t)) pf LF ∧
    (∀ j, j ≠ t → j ∉ Lt → (switchInTo X (some t)).getTask j = X.getTask j) := by
  have hin : switchInTo X (some t)
      = remove_task_from_ready_queue
          ((({ X with current_task := some t } : SchedState)).updateTask t
            (fun tc => { tc with state := TaskState.running, time_slice_remaining := TIME_SLICE_MS })) t := rfl
  rw [hin]
  have h1 : (((({ X with current_task := some t } : SchedState)).updateTask t
      (fun tc => { tc with state := TaskState.running, time_slice_remaining := TIME_SLICE_MS })).getTask t)
      = { X.getTask t with state := TaskState.running, time_slice_remaining := TIME_SLICE_MS } := by
    simp
    exact ⟨rfl, rfl, rfl, rfl, rfl, rfl, rfl, rfl⟩
  have hv1prio : ((((({ X with current_task := some t } : SchedState)).updateTask t
      (fun tc => { tc with state := TaskState.running, time_slice_remaining := TIME_SLICE_MS })).getTask t)).priority = pt := by
    rw [h1, hgt, hpt]
  have hv1pf : QueueRep ((({ X with current_task := some t } : SchedState)).updateTask t
      (fun tc => { tc with state := TaskState.running, time_slice_remaining := TIME_SLICE_MS })) pf LF := by
    refine QueueRep_updateTask_keeplinks _ t
      (fun tc => { tc with state := TaskState.running, time_slice_remaining := TIME_SLICE_MS })
      (fun tc => ⟨rfl, rfl⟩) pf LF ?_
    exact QueueRep_of_links_eq pf LF hXpf rfl (fun j => rfl) (fun j => rfl)
  have hv1pt : QueueRep ((({ X with current_task := some t } : SchedState)).updateTask t
      (fun tc => { tc with state := TaskState.running, time_slice_remaining := TIME_SLICE_MS })) pt Lt := by
    refine QueueRep_updateTask_keeplinks _ t
      (fun tc => { tc with state := TaskState.running, time_slice_remaining := TIME_SLICE_MS })
      (fun tc => ⟨rfl, rfl⟩) pt Lt ?_
    exact QueueRep_of_links_eq pt Lt hXpt rfl (fun j => rfl) (fun j => rfl)
  have hv1ptP : QueueRep ((({ X with current_task := some t } : SchedState)).updateTask t
      (fun tc => { tc with state := TaskState.running, time_slice_remaining := TIME_SLICE_MS }))
      ((((({ X with current_task := some t } : SchedState)).updateTask t
        (fun tc => { tc with state := TaskState.running, time_slice_remaining := TIME_SLICE_MS })).getTask t)).priority Lt := by
    rw [hv1prio]
    exact hv1pt
  refine ⟨?_, ?_, ?_⟩
  · have h := remove_rep _ t Lt hv1ptP hnodupt htmem
    rw [hv1prio] at h
    exact h
  · refine remove_rep_other _ t pf LF Lt hv1ptP hv1pf ?_ htLF hdis2 htmem
    rw [hv1prio]
    exact hpne
  · intro j hjt hjLt
    obtain ⟨un, hun, hunm⟩ := QueueRep_next_mem hv1ptP htmem
    obtain ⟨up, hup, hupm⟩ := QueueRep_prev_mem hv1ptP htmem
    rw [remove_getTask_outside _ t j hjt
      (by rw [hun]; exact fun he => hjLt (by rw [← Option.some.inj he]; exact hunm))
      (by rw [hup]; exact fun he => hjLt (by rw [← Option.some.inj he]; exact hupm))]
    rw [getTask_updateTask_ne _ _ _ _ hjt]
    rfl


lemma priority_add (s : SchedState) (t j : Nat) :
    ((add_task_to_ready_queue s t).getTask j).priority = (s.getTask j).priority := by
  unfold add_task_to_ready_queue enqueueAtPriority enqueueNonempty linkLastNext fixStateReady
  repeat' split
  all_goals
    simp only [getTask_updateTask, getTask_setQueue]
    repeat' split
  all_goals rfl

lemma lastrun_switchInTo_ne (s : SchedState) (m j : Nat) (h : j ≠ m) :
    ((switchInTo s (some m)).getTask j).last_run_time = (s.getTask j).last_run_time := by
  show ((remove_task_from_ready_queue _ m).getTask j).last_run_time = _
  rw [lastrun_remove, getTask_updateTask_ne _ _ _ _ h]
  rfl

lemma runtime_switchInTo_ne (s : SchedState) (m j : Nat) (h : j ≠ m) :
    ((switchInTo s (some m)).getTask j).total_runtime = (s.getTask j).total_runtime := by
  show ((remove_task_from_ready_queue _ m).getTask j).total_runtime = _
  rw [runtime_remove, getTask_updateTask_ne _ _ _ _ h]
  rfl

/-- The record effects of the switch-out block on a still-Running task,
independent of any queue assumptions. -/
lemma switchOut_run_fields (s : SchedState) (f : Nat)
    (hrunf : (s.getTask f).state = TaskState.running) :
    ((switchOutFrom (bumpSwitchCount s) (some f)).getTask f).state = TaskState.ready ∧
    ((switchOutFrom (bumpSwitchCount s) (some f)).getTask f).last_run_time
      = s.system_tick_count ∧
    ((switchOutFrom (bumpSwitchCount s) (some f)).getTask f).total_runtime
      = ((s.getTask f).total_runtime + 1) % UINT32_MOD := by
  rw [switchOut_running_eq s f hrunf]
  exact ⟨state_add_self _ f,
    by rw [lastrun_add, switchOutUpd_getTask_self],
    by rw [runtime_add, switchOutUpd_getTask_self]⟩

/-- The record effects of the switch-out block on a task that is no longer
Running, independent of any queue assumptions. -/
lemma switchOut_notrun_fields (s : SchedState) (f : Nat)
    (hnr : (s.getTask f).state ≠ TaskState.running) :
    ((switchOutFrom (bumpSwitchCount s) (some f)).getTask f).state
      = (s.getTask f).state ∧
    ((switchOutFrom (bumpSwitchCount s) (some f)).getTask f).last_run_time
      = s.system_tick_count ∧
    ((switchOutFrom (bumpSwitchCount s) (some f)).getTask f).total_runtime
      = (s.getTask f).total_runtime := by
  rw [switchOut_notrunning_eq s f hnr]
  refine ⟨?_, ?_, ?_⟩
  · simp
    rfl
  · simp
    rfl
  · simp
    rfl

/-- The switch-out block never changes any task's priority. -/
lemma priority_switchOutFrom (s : SchedState) (f j : Nat) :
    ((switchOutFrom (bumpSwitchCount s) (some f)).getTask j).priority
      = (s.getTask j).priority := by
  by_cases hrunf : (s.getTask f).state = TaskState.running
  · rw [switchOut_running_eq s f hrunf, priority_add]
    by_cases hjf : j = f
    · subst hjf
      rw [switchOutUpd_getTask_self]
    · rw [switchOutUpd_getTask_ne s f j hjf]
  · rw [switchOut_notrunning_eq s f hrunf]
    by_cases hjf : j = f
    · subst hjf
      simp
      rfl
    · rw [getTask_updateTask_ne _ _ _ _ hjf]
      rfl

/-- Switch-in when `to` sits in the switch-out task's own queue: the queue
loses exactly `to`. -/
lemma switchIn_same (X s0 : SchedState) (t pt : Nat) (LL : List Nat)
    (hgtp : (X.getTask t).priority = (s0.getTask t).priority)
    (hpt : pt = (s0.getTask t).priority)
    (hXpt : QueueRep X pt LL) (hnodup : LL.Nodup) (htmem : t ∈ LL) :
    QueueRep (switchInTo X (some t)) pt (LL.erase t) := by
  have hin : switchInTo X (some t)
      = remove_task_from_ready_queue
          ((({ X with current_task := some t } : SchedState)).updateTask t
            (fun tc => { tc with state := TaskState.running, time_slice_remaining := TIME_SLICE_MS })) t := rfl
  rw [hin]
  have h1 : (((({ X with current_task := some t } : SchedState)).updateTask t
      (fun tc => { tc with state := TaskState.running, time_slice_remaining := TIME_SLICE_MS })).getTask t)
      = { X.getTask t with state := TaskState.running, time_slice_remaining := TIME_SLICE_MS } := by
    simp
    exact ⟨rfl, rfl, rfl, rfl, rfl, rfl, rfl, rfl⟩
  have hv1prio : (((({ X with current_task := some t } : SchedState)).updateTask t
      (fun tc => { tc with state := TaskState.running, time_slice_remaining := TIME_SLICE_MS })).getTask t).priority = pt := by
    rw [h1]
    show (X.getTask t).priority = pt
    rw [hgtp]
    exact hpt.symm
  have hv1pt : QueueRep ((({ X with current_task := some t } : SchedState)).updateTask t
      (fun tc => { tc with state := TaskState.running, time_slice_remaining := TIME_SLICE_MS })) pt LL := by
    refine QueueRep_updateTask_keeplinks _ t
      (fun tc => { tc with state := TaskState.running, time_slice_remaining := TIME_SLICE_MS })
      (fun tc => ⟨rfl, rfl⟩) pt LL ?_
    exact QueueRep_of_links_eq pt LL hXpt rfl (fun j => rfl) (fun j => rfl)
  have hv1ptP : QueueRep ((({ X with current_task := some t } : SchedState)).updateTask t
      (fun tc => { tc with state := TaskState.running, time_slice_remaining := TIME_SLICE_MS }))
      ((((({ X with current_task := some t } : SchedState)).updateTask t
        (fun tc => { tc with state := TaskState.running, time_slice_remaining := TIME_SLICE_MS })).getTask t).priority) LL := by
    rw [hv1prio]
    exact hv1pt
  have h := remove_rep _ t LL hv1ptP hnodup htmem
  rw [hv1prio] at h
  exact h


/-- C8: `context_switch` is a no-op when both arguments are equal;
otherwise (for distinct pool tasks `f`, `t` with `t` a member of its
priority's well-formed queue and `f` unqueued — covering both the
same-priority round-robin switch, where the two tasks share one queue, and
switches across two disjoint queues) it bumps the switch counter by one,
installs `t` as current / Running with a full time slice and removes
exactly `t` from its queue, records `f`'s last-run tick, and credits `f`
one runtime tick and re-enqueues it at the tail of its priority's queue
exactly when `f` was still Running — a task that is Blocked, Suspended or
Terminated (or already Ready) is not re-enqueued and keeps its state. -/
theorem C8_context_switch_contract (s : SchedState) (f t pf pt : Nat) (Lf Lt : List Nat)
    (hft : f ≠ t)
    (hwrap : s.stats.total_context_switches + 1 < UINT32_MOD)
    (hpf : pf = (s.getTask f).priority) (hpt : pt = (s.getTask t).priority)
    (hrepf : QueueRep s pf Lf) (hrept : QueueRep s pt Lt)
    (hnodupf : Lf.Nodup) (hnodupt : Lt.Nodup)
    (hfnotf : f ∉ Lf) (hfnott : f ∉ Lt) (htmem : t ∈ Lt)
    (hsame : pf = pt → Lf = Lt)
    (hdiff : pf ≠ pt → t ∉ Lf ∧ ∀ x ∈ Lt, x ∉ Lf) :
    (∀ x, context_switch s x x = s) ∧
    (context_switch s (some f) (some t)).stats.total_context_switches
      = s.stats.total_context_switches + 1 ∧
    (context_switch s (some f) (some t)).current_task = some t ∧
    ((context_switch s (some f) (some t)).getTask t).state = TaskState.running ∧
    ((context_switch s (some f) (some t)).getTask t).time_slice_remaining
      = TIME_SLICE_MS ∧
    ((context_switch s (some f) (some t)).getTask f).last_run_time
      = s.system_tick_count ∧
    ((s.getTask f).state = TaskState.running →
      ((context_switch s (some f) (some t)).getTask f).total_runtime
        = ((s.getTask f).total_runtime + 1) % UINT32_MOD ∧
      ((context_switch s (some f) (some t)).getTask f).state = TaskState.ready) ∧
    ((s.getTask f).state ≠ TaskState.running →
      ((context_switch s (some f) (some t)).getTask f).total_runtime
        = (s.getTask f).total_runtime ∧
      ((context_switch s (some f) (some t)).getTask f).state = (s.getTask f).state) ∧
    (pf ≠ pt →
      QueueRep (context_switch s (some f) (some t)) pt (Lt.erase t) ∧
      ((s.getTask f).state = TaskState.running →
        QueueRep (context_switch s (some f) (some t)) pf (Lf ++ [f])) ∧
      ((s.getTask f).state ≠ TaskState.running →
        QueueRep (context_switch s (some f) (some t)) pf Lf)) ∧
    (pf = pt →
      ((s.getTask f).state = TaskState.running →
        QueueRep (context_switch s (some f) (some t)) pt ((Lt ++ [f]).erase t)) ∧
      ((s.getTask f).state ≠ TaskState.running →
        QueueRep (context_switch s (some f) (some t)) pt (Lt.erase t))) := by
  have hne : (some f : Option Nat) ≠ some t := fun he => hft (Option.some.inj he)
  have hcs : context_switch s (some f) (some t)
      = switchInTo (switchOutFrom (bumpSwitchCount s) (some f)) (some t) := by
    unfold context_switch
    rw [if_neg hne]
  have hcounter : (context_switch s (some f) (some t)).stats.total_context_switches
      = s.stats.total_context_switches + 1 := by
    rw [hcs,
      (switchInTo_frame (switchOutFrom (bumpSwitchCount s) (some f)) (some t)).2.2.2.2.1,
      core_stats (switchOutFrom_coreFieldsEq (bumpSwitchCount s) (some f))]
    show (s.stats.total_context_switches + 1) % UINT32_MOD = _
    exact Nat.mod_eq_of_lt hwrap
  have hcur : (context_switch s (some f) (some t)).current_task = some t := by
    rw [hcs]
    exact switchInTo_current_some _ t
  have hstt : ((context_switch s (some f) (some t)).getTask t).state
      = TaskState.running := by
    rw [hcs]
    exact state_switchInTo_self _ t
  have hslt : ((context_switch s (some f) (some t)).getTask t).time_slice_remaining
      = TIME_SLICE_MS := by
    rw [hcs]
    exact slice_switchInTo_self _ t
  refine ⟨fun x => by unfold context_switch; rw [if_pos rfl], hcounter, hcur, hstt,
    hslt, ?_, ?_, ?_, ?_, ?_⟩
  · -- the from-task's last-run tick, in either state
    rw [hcs, lastrun_switchInTo_ne _ t f hft]
    by_cases hrunf : (s.getTask f).state = TaskState.running
    · exact (switchOut_run_fields s f hrunf).2.1
    · exact (switchOut_notrun_fields s f hrunf).2.1
  · -- still Running: one runtime tick credited, set back to Ready
    intro hrunf
    constructor
    · rw [hcs, runtime_switchInTo_ne _ t f hft]
      exact (switchOut_run_fields s f hrunf).2.2
    · rw [hcs, state_switchInTo_ne _ t f hft]
      exact (switchOut_run_fields s f hrunf).1
  · -- not Running: no runtime credit, state kept
    intro hnr
    constructor
    · rw [hcs, runtime_switchInTo_ne _ t f hft]
      exact (switchOut_notrun_fields s f hnr).2.2
    · rw [hcs, state_switchInTo_ne _ t f hft]
      exact (switchOut_notrun_fields s f hnr).1
  · -- distinct priorities: the two queues evolve independently
    intro hne2
    obtain ⟨htnotf, hdis⟩ := hdiff hne2
    refine ⟨?_, ?_, ?_⟩
    · by_cases hrunf : (s.getTask f).state = TaskState.running
      · obtain ⟨hq1, hq2, hq3, _, _, _⟩ := switchOut_run_facts s f t pf pt Lf Lt
          hrunf hft hpf hne2 hrepf hrept hnodupf hfnotf hfnott htnotf hdis
        obtain ⟨hi1, _, _⟩ := switchIn_facts _ s t pt pf (Lf ++ [f]) Lt hq3 hpt hq1 hq2
          hne2 hnodupt htmem
          (fun hmem => by
            rcases List.mem_append.1 hmem with h | h
            · exact htnotf h
            · exact hft (List.mem_singleton.1 h).symm)
          (fun x hx hmem => by
            rcases List.mem_append.1 hmem with h | h
            · exact hdis x hx h
            · rw [List.mem_singleton.1 h] at hx
              exact hfnott hx)
        rw [hcs]
        exact hi1
      · obtain ⟨hq1, hq2, hq3, _, _, _⟩ := switchOut_notrun_facts s f t pf pt Lf Lt
          hrunf hft hrepf hrept
        obtain ⟨hi1, _, _⟩ := switchIn_facts _ s t pt pf Lf Lt hq3 hpt hq1 hq2
          hne2 hnodupt htmem htnotf hdis
        rw [hcs]
        exact hi1
    · intro hrunf
      obtain ⟨hq1, hq2, hq3, _, _, _⟩ := switchOut_run_facts s f t pf pt Lf Lt
        hrunf hft hpf hne2 hrepf hrept hnodupf hfnotf hfnott htnotf hdis
      obtain ⟨_, hi2, _⟩ := switchIn_facts _ s t pt pf (Lf ++ [f]) Lt hq3 hpt hq1 hq2
        hne2 hnodupt htmem
        (fun hmem => by
          rcases List.mem_append.1 hmem with h | h
          · exact htnotf h
          · exact hft (List.mem_singleton.1 h).symm)
        (fun x hx hmem => by
          rcases List.mem_append.1 hmem with h | h
          · exact hdis x hx h
          · rw [List.mem_singleton.1 h] at hx
            exact hfnott hx)
      rw [hcs]
      exact hi2
    · intro hnr
      obtain ⟨hq1, hq2, hq3, _, _, _⟩ := switchOut_notrun_facts s f t pf pt Lf Lt
        hnr hft hrepf hrept
      obtain ⟨_, hi2, _⟩ := switchIn_facts _ s t pt pf Lf Lt hq3 hpt hq1 hq2
        hne2 hnodupt htmem htnotf hdis
      rw [hcs]
      exact hi2
  · -- equal priorities: from and to share one queue
    intro heq
    obtain rfl : Lf = Lt := hsame heq
    refine ⟨?_, ?_⟩
    · intro hrunf
      have hprio : ((switchOutUpd s f).getTask f).priority = pt := by
        rw [switchOutUpd_getTask_self]
        show (s.getTask f).priority = pt
        rw [← hpf]
        exact heq
      have hrepU : QueueRep (switchOutUpd s f)
          ((switchOutUpd s f).getTask f).priority Lf := by
        rw [hprio]
        rw [heq] at hrepf
        exact switchOutUpd_rep s f pt Lf hrepf
      have hXq : QueueRep (switchOutFrom (bumpSwitchCount s) (some f)) pt (Lf ++ [f]) := by
        rw [switchOut_running_eq s f hrunf]
        have h := enqueue_rep (switchOutUpd s f) f Lf hrepU hnodupf hfnotf
        rw [hprio] at h
        exact h
      have hnodLL : (Lf ++ [f]).Nodup := by
        rw [List.nodup_append]
        refine ⟨hnodupf, List.nodup_singleton f, ?_⟩
        intro a ha hb
        rw [List.mem_singleton.1 hb] at ha
        exact hfnotf ha
      rw [hcs]
      exact switchIn_same _ s t pt (Lf ++ [f]) (priority_switchOutFrom s f t) hpt hXq
        hnodLL (List.mem_append_left _ htmem)
    · intro hnr
      have hXq : QueueRep (switchOutFrom (bumpSwitchCount s) (some f)) pt Lf := by
        rw [switchOut_notrunning_eq s f hnr]
        refine QueueRep_updateTask_keeplinks _ f
          (fun tc => { tc with last_run_time := (bumpSwitchCount s).system_tick_count })
          (fun tc => ⟨rfl, rfl⟩) pt Lf ?_
        exact QueueRep_of_links_eq pt Lf (heq ▸ hrepf)
          (show (bumpSwitchCount s).getQueue pt = s.getQueue pt from rfl)
          (fun j => rfl) (fun j => rfl)
      rw [hcs]
      exact switchIn_same _ s t pt Lf (priority_switchOutFrom s f t) hpt hXq hnodupf htmem


theorem C8_context_switch_contract_witness :
    (1 : Nat) ≠ 2 ∧
    ((∀ x, context_switch c2WitState x x = c2WitState) ∧
     (context_switch c2WitState (some 1) (some 2)).stats.total_context_switches
       = c2WitState.stats.total_context_switches + 1 ∧
     (context_switch c2WitState (some 1) (some 2)).current_task = some 2 ∧
     ((context_switch c2WitState (some 1) (some 2)).getTask 2).state
       = TaskState.running ∧
     ((context_switch c2WitState (some 1) (some 2)).getTask 2).time_slice_remaining
       = TIME_SLICE_MS ∧
     ((context_switch c2WitState (some 1) (some 2)).getTask 1).last_run_time
       = c2WitState.system_tick_count ∧
     ((c2WitState.getTask 1).state = TaskState.running →
       ((context_switch c2WitState (some 1) (some 2)).getTask 1).total_runtime
         = ((c2WitState.getTask 1).total_runtime + 1) % UINT32_MOD ∧
       ((context_switch c2WitState (some 1) (some 2)).getTask 1).state
         = TaskState.ready) ∧
     ((c2WitState.getTask 1).state ≠ TaskState.running →
       ((context_switch c2WitState (some 1) (some 2)).getTask 1).total_runtime
         = (c2WitState.getTask 1).total_runtime ∧
       ((context_switch c2WitState (some 1) (some 2)).getTask 1).state
         = (c2WitState.getTask 1).state) ∧
     ((1 : Nat) ≠ 1 →
       QueueRep (context_switch c2WitState (some 1) (some 2)) 1 ([2].erase 2) ∧
       ((c2WitState.getTask 1).state = TaskState.running →
         QueueRep (context_switch c2WitState (some 1) (some 2)) 1 ([2] ++ [1])) ∧
       ((c2WitState.getTask 1).state ≠ TaskState.running →
         QueueRep (context_switch c2WitState (some 1) (some 2)) 1 [2])) ∧
     ((1 : Nat) = 1 →
       ((c2WitState.getTask 1).state = TaskState.running →
         QueueRep (context_switch c2WitState (some 1) (some 2)) 1 (([2] ++ [1]).erase 2)) ∧
       ((c2WitState.getTask 1).state ≠ TaskState.running →
         QueueRep (context_switch c2WitState (some 1) (some 2)) 1 ([2].erase 2)))) :=
  ⟨by decide,
   C8_context_switch_contract c2WitState 1 2 1 1 [2] [2] (by decide) (by decide) (by decide) (by decide)
     ⟨rfl, Seg.cons (by decide) (by decide) (Seg.nil _)⟩
     ⟨rfl, Seg.cons (by decide) (by decide) (Seg.nil _)⟩
     (by decide) (by decide) (by decide) (by decide) (by decide)
     (fun _ => rfl) (fun h => absurd rfl h)⟩


/-! ## Single queue membership (claim C7) -/

/-- A ready queue holding the circular list `[2, 3, 4]` at priority 1,
with task 3 about to be enqueued a second time. -/
def c7Pool : Nat → TCB := fun j =>
  if j = 2 then
    { task_id := 1, priority := 1, state := TaskState.ready, time_slice_remaining := 10,
      stack_size := 1024, total_runtime := 0, last_run_time := 0, wake_time := 0,
      next := some 3, prev := some 4 }
  else if j = 3 then
    { task_id := 2, priority := 1, state := TaskState.ready, time_slice_remaining := 10,
      stack_size := 1024, total_runtime := 0, last_run_time := 0, wake_time := 0,
      next := some 4, prev := some 2 }
  else if j = 4 then
    { task_id := 3, priority := 1, state := TaskState.ready, time_slice_remaining := 10,
      stack_size := 1024, total_runtime := 0, last_run_time := 0, wake_time := 0,
      next := some 2, prev := some 3 }
  else default

def c7State : SchedState :=
  { ready_queues := fun p => if p = 1 then some 2 else none,
    current_task := none, idle_task := none, next_task_id := 4,
    scheduler_running := true, system_tick_count := 0, stats := default,
    task_pool := c7Pool, task_pool_used := fun j => decide (j < 5) }

/-- C7 (counterexample): `add_task_to_ready_queue` does not unlink an
already-linked task first (scheduler.c:191-213 only appends).  Enqueuing
task 3, already a member of its queue `[2, 3, 4]`, rewires the tail
(4.next := 3, 3.prev := 4, 3.next := head) and corrupts the list: the
queue traversal from the head now yields `[2, 3]` and task 4 is no longer
reachable. -/
theorem C7_enqueue_does_not_unlink :
    queueMembers c7State 1 = [2, 3, 4] ∧
    3 ∈ queueMembers c7State 1 ∧
    queueMembers (add_task_to_ready_queue c7State 3) 1 = [2, 3] ∧
    4 ∉ queueMembers (add_task_to_ready_queue c7State 3) 1 := by
  decide

/-- C7 (amended): the queue primitives preserve single membership — on
well-formed disjoint queues, enqueue of a task `t` that is *not* already
linked appends it exactly once at the tail of its priority's queue and
leaves other queues untouched; removing a member erases exactly that
member; rotating a non-empty queue permutes it; each result list is
duplicate-free.  (The kernel's call sites only enqueue unlinked tasks; the
claim's "enqueue first unlinks" is refuted by the counterexample.) -/
theorem C7_single_membership (s : SchedState) (t q pt : Nat) (Lt Lq : List Nat)
    (hpt : pt = (s.getTask t).priority)
    (hrept : QueueRep s pt Lt) (hrepq : QueueRep s q Lq)
    (hq : q ≠ pt)
    (hnodupt : Lt.Nodup)
    (htnot : t ∉ Lt) (htnotq : t ∉ Lq)
    (hup : ∀ u ∈ Lt, (s.getTask u).priority = pt)
    (hdis : ∀ x ∈ Lq, x ∉ Lt) :
    (QueueRep (add_task_to_ready_queue s t) pt (Lt ++ [t]) ∧
     (Lt ++ [t]).Nodup ∧
     QueueRep (add_task_to_ready_queue s t) q Lq) ∧
    (∀ u ∈ Lt,
      QueueRep (remove_task_from_ready_queue s u) pt (Lt.erase u) ∧
      (Lt.erase u).Nodup ∧
      QueueRep (remove_task_from_ready_queue s u) q Lq) ∧
    (∀ h, s.getQueue pt = some h →
      QueueRep (s.setQueue pt ((s.getTask h).next)) pt (Lt.tail ++ [h]) ∧
      (Lt.tail ++ [h]).Nodup) := by
  have hdis2 : ∀ x ∈ Lt, x ∉ Lq := fun x hx hq2 => hdis x hq2 hx
  refine ⟨⟨?_, ?_, ?_⟩, ?_, ?_⟩
  · have h := enqueue_rep s t Lt (by rw [← hpt]; exact hrept) hnodupt htnot
    rw [← hpt] at h
    exact h
  · rw [List.nodup_append]
    refine ⟨hnodupt, List.nodup_singleton t, ?_⟩
    intro a ha hb
    rw [List.mem_singleton.1 hb] at ha
    exact htnot ha
  · exact enqueue_rep_other s t q Lt Lq (by rw [← hpt]; exact hrept) hrepq
      (by rw [← hpt]; exact hq) htnotq hdis
  · intro u hu
    have hpu : (s.getTask u).priority = pt := hup u hu
    refine ⟨?_, List.Nodup.erase u hnodupt, ?_⟩
    · have h := remove_rep s u Lt (by rw [hpu]; exact hrept) hnodupt hu
      rw [hpu] at h
      exact h
    · exact remove_rep_other s u q Lq Lt (by rw [hpu]; exact hrept) hrepq
        (by rw [hpu]; exact hq)
        (fun hc => hdis u hc hu) hdis2 hu
  · intro h hh
    refine ⟨rotate_rep s pt h Lt hh hrept, ?_⟩
    have hhd : Lt.head? = some h := by
      unfold QueueRep at hrept
      rw [hh] at hrept
      exact hrept.1
    cases hL : Lt with
    | nil =>
        rw [hL] at hhd
        exact Option.noConfusion hhd
    | cons x M =>
        rw [hL, List.head?_cons] at hhd
        obtain rfl := Option.some.inj hhd
        rw [hL] at hnodupt
        simp only [List.tail_cons]
        rw [List.nodup_append]
        rw [List.nodup_cons] at hnodupt
        refine ⟨hnodupt.2, List.nodup_singleton x, ?_⟩
        intro a ha hb
        rw [List.mem_singleton.1 hb] at ha
        exact hnodupt.1 ha

theorem C7_single_membership_witness :
    (3 : Nat) ≠ 1 ∧
    ((QueueRep (add_task_to_ready_queue c2WitState 1) 1 ([2] ++ [1]) ∧
      ([2] ++ [1] : List Nat).Nodup ∧
      QueueRep (add_task_to_ready_queue c2WitState 1) 3 [0]) ∧
     (∀ u ∈ [2],
       QueueRep (remove_task_from_ready_queue c2WitState u) 1 ([2].erase u) ∧
       ([2].erase u).Nodup ∧
       QueueRep (remove_task_from_ready_queue c2WitState u) 3 [0]) ∧
     (∀ h, c2WitState.getQueue 1 = some h →
       QueueRep (c2WitState.setQueue 1 ((c2WitState.getTask h).next)) 1
         (([2] : List Nat).tail ++ [h]) ∧
       (([2] : List Nat).tail ++ [h]).Nodup)) :=
  ⟨by decide,
   C7_single_membership c2WitState 1 3 1 [2] [0] (by decide)
     ⟨rfl, Seg.cons (by decide) (by decide) (Seg.nil _)⟩
     ⟨rfl, Seg.cons (by decide) (by decide) (Seg.nil _)⟩
     (by decide) (by decide) (by decide) (by decide) (by decide)
     (by decide)⟩

end RTOS
